import Mathlib

/-!
Pub/Sub engine (`src/src/pubsub.c`) and buffer-backed stream I/O (`src/src/rio.c`):
shallow embedding and verified properties.

The C functions of `pubsub.c` are embedded as pure functions over an explicit
state.  A call returns a `Result`: the C return value, the reply tokens it
enqueued (in emission order, each tagged with the receiving client) and the
state after the call.  A call that would abort the process (a failed
`redisAssertWithInfo`, or `listDelNode` applied to a `NULL` node) returns `none`.

Conventions of the embedding:
* a client (`redisClient *`) is identified by a natural number;
* a string object (`robj *`) is its byte string, so `equalStringObjects` and the
  key comparison of the dictionaries are equality;
* reference counting (`incrRefCount` / `decrRefCount`) and `getDecodedObject`
  do not change the byte string and are not represented;
* the C `int` counters (`retval`, `count`, `receivers`) of `pubsub.c` are natural
  numbers; in `rio.c` the conversion of a `size_t` length to an `int` parameter
  and the `size_t` subtraction are modelled with their wrap-around.
-/

namespace Pubsub

/-! ## Collaborators that are not part of `pubsub.c` -/

/-- A string object, identified with its byte string. -/
abbrev robj := String

/-- Modelled from the spec: the hash table of `dict.c` (absent from the sources),
as the list of its entries with pairwise distinct keys.  Iteration visits the
entries in list order; a new key is stored after the existing ones. -/
abbrev dict (V : Type) := List (robj × V)

/-- Modelled from the spec: `dictFind` / `dictFetchValue`, the value stored
under `key`, if any. -/
def dictFind {V : Type} : dict V → robj → Option V
  | [], _ => none
  | (k, v) :: rest, key => if k = key then some v else dictFind rest key

/-- Modelled from the spec: `dictAdd`; `none` is `DICT_ERR` (the key is already
present and the table is left as it was), `some d` is `DICT_OK` with the new table. -/
def dictAdd {V : Type} (d : dict V) (key : robj) (val : V) : Option (dict V) :=
  match dictFind d key with
  | some _ => none
  | none => some (d ++ [(key, val)])

/-- Modelled from the spec: `dictDelete`; `none` is `DICT_ERR` (no such key),
`some d` is `DICT_OK` with the table without the key. -/
def dictDelete {V : Type} (d : dict V) (key : robj) : Option (dict V) :=
  match dictFind d key with
  | some _ => some (d.filter (fun e => decide (e.1 ≠ key)))
  | none => none

/-- Modelled from the spec: `dictSize`, the number of entries. -/
def dictSize {V : Type} (d : dict V) : Nat := d.length

/-- Modelled from the spec: the keys in the order a `dictIterator` yields them. -/
def dictKeys {V : Type} (d : dict V) : List robj := d.map Prod.fst

/-- The effect of mutating, through the pointer `dictGetVal` returned, the value
stored under `key`. -/
def dictUpdateVal {V : Type} (d : dict V) (key : robj) (f : V → V) : dict V :=
  d.map (fun e => if e.1 = key then (e.1, f e.2) else e)

/-- Modelled from the spec: `listAddNodeTail` of `adlist.c`. -/
def listAddNodeTail {α : Type} (l : List α) (v : α) : List α := l ++ [v]

/-- Modelled from the spec: `listLength` of `adlist.c`. -/
def listLength {α : Type} (l : List α) : Nat := l.length

/-- Modelled from the spec: `listSearchKey` of `adlist.c`: the position of the
first node whose value the list's match function accepts against `key`
(`none` is `NULL`). -/
def listSearchKey {α : Type} (isMatch : α → α → Bool) : List α → α → Option Nat
  | [], _ => none
  | v :: rest, key =>
    if isMatch v key then some 0 else (listSearchKey isMatch rest key).map (· + 1)

/-- Modelled from the spec: `listDelNode` of `adlist.c`, unlinking the node at
position `ln`. -/
def listDelNode {α : Type} (l : List α) (ln : Nat) : List α := l.eraseIdx ln

/-- One item enqueued on a client's output buffer by the `addReply*` family. -/
inductive Reply where
  /-- The header `shared.mbulkhdr[n]` / `addReplyMultiBulkLen`: `*n\r\n`. -/
  | mbulkhdr (n : Nat)
  /-- A bulk string: `addReplyBulk`, or one of the shared `...bulk` objects. -/
  | bulk (s : robj)
  /-- The null bulk `shared.nullbulk`. -/
  | nullbulk
  /-- An integer reply, `addReplyLongLong`. -/
  | longlong (n : Nat)
  /-- An integer sent as a bulk string, `addReplyBulkLongLong`. -/
  | bulkLongLong (n : Nat)
  /-- An error line, `addReplyErrorFormat`. -/
  | error (msg : String)
  deriving DecidableEq, Repr

/-- The replies enqueued by a call: `(client, item)` in emission order. -/
abbrev Output := List (Nat × Reply)

/-- Modelled from the spec: `addReply`, enqueueing one item for client `c`. -/
def addReply (c : Nat) (r : Reply) : Output := [(c, r)]

/-- Modelled from the spec: `addReplyBulk`. -/
def addReplyBulk (c : Nat) (o : robj) : Output := [(c, Reply.bulk o)]

/-- Modelled from the spec: `addReplyLongLong`. -/
def addReplyLongLong (c : Nat) (n : Nat) : Output := [(c, Reply.longlong n)]

namespace shared

/-- Modelled from the spec: the shared object `$9\r\nsubscribe\r\n`. -/
def subscribebulk : Reply := Reply.bulk "subscribe"
/-- Modelled from the spec: the shared object `$11\r\nunsubscribe\r\n`. -/
def unsubscribebulk : Reply := Reply.bulk "unsubscribe"
/-- Modelled from the spec: the shared object `$10\r\npsubscribe\r\n`. -/
def psubscribebulk : Reply := Reply.bulk "psubscribe"
/-- Modelled from the spec: the shared object `$12\r\npunsubscribe\r\n`. -/
def punsubscribebulk : Reply := Reply.bulk "punsubscribe"
/-- Modelled from the spec: the shared object `$7\r\nmessage\r\n`. -/
def messagebulk : Reply := Reply.bulk "message"
/-- Modelled from the spec: the shared object `$8\r\npmessage\r\n`. -/
def pmessagebulk : Reply := Reply.bulk "pmessage"
/-- Modelled from the spec: the shared object `$-1\r\n`. -/
def nullbulk : Reply := Reply.nullbulk
/-- Modelled from the spec: the shared headers `*n\r\n`. -/
def mbulkhdr (n : Nat) : Reply := Reply.mbulkhdr n

end shared

/-! ## Data model -/

/-- The pub/sub fields of a `redisClient`. -/
structure redisClient where
  /-- The channels the client is subscribed to (a dictionary used as a set). -/
  pubsub_channels : dict Unit
  /-- The patterns the client is subscribed to. -/
  pubsub_patterns : List robj

/-- A record of `server.pubsub_patterns`. -/
structure pubsubPattern where
  client : Nat
  pattern : robj
  deriving DecidableEq, Repr

/-- The pub/sub fields of `redisServer`. -/
structure redisServer where
  /-- Channel name to the list of subscribed clients. -/
  pubsub_channels : dict (List Nat)
  /-- The pattern subscriptions of all clients. -/
  pubsub_patterns : List pubsubPattern

/-- The whole pub/sub state: every client's fields and the server's. -/
structure State where
  client : Nat → redisClient
  server : redisServer

/-- What a call produces. -/
structure Result where
  retval : Nat
  out : Output
  st : State

/-- The state with the fields of client `c` replaced. -/
def State.setClient (s : State) (c : Nat) (cl : redisClient) : State :=
  { s with client := fun x => if x = c then cl else s.client x }

/-- The state with the server fields replaced. -/
def State.setServer (s : State) (srv : redisServer) : State :=
  { s with server := srv }

/-- The state right after start-up: no client is subscribed to anything. -/
def State.init : State :=
  { client := fun _ => { pubsub_channels := [], pubsub_patterns := [] }
    server := { pubsub_channels := [], pubsub_patterns := [] } }

/-! ## `pubsub.c` -/

/-- Source: `listMatchPubsubPattern`. -/
def listMatchPubsubPattern (a b : pubsubPattern) : Bool :=
  (a.client == b.client) && (a.pattern == b.pattern)

/-- Modelled from the spec: the match function `listMatchObjects` installed on
a client's `pubsub_patterns` list (string equality). -/
def listMatchObjects (a b : robj) : Bool := a == b

/-- Modelled from the spec: a list without match function compares the stored
pointers. -/
def listMatchPointer (a b : Nat) : Bool := a == b

/-- Source: `clientSubscriptionsCount`, the expression
`dictSize(c->pubsub_channels) + listLength(c->pubsub_patterns)`. -/
def clientSubscriptionsCount (cl : redisClient) : Nat :=
  dictSize cl.pubsub_channels + listLength cl.pubsub_patterns

/-- Source: `pubsubSubscribeChannel`. -/
def pubsubSubscribeChannel (s : State) (c : Nat) (channel : robj) : Result :=
  let mutated : State × Nat :=
    match dictAdd (s.client c).pubsub_channels channel () with
    | some chans =>
      let s1 := s.setClient c { s.client c with pubsub_channels := chans }
      let d0 := s1.server.pubsub_channels
      let d1 := match dictFind d0 channel with
        | none => (dictAdd d0 channel []).getD d0
        | some _ => d0
      let d2 := dictUpdateVal d1 channel (fun clients => listAddNodeTail clients c)
      (s1.setServer { s1.server with pubsub_channels := d2 }, 1)
    | none => (s, 0)
  let s2 := mutated.1
  { retval := mutated.2
    out := addReply c (shared.mbulkhdr 3) ++ addReply c shared.subscribebulk ++
      addReplyBulk c channel ++
      addReplyLongLong c (clientSubscriptionsCount (s2.client c))
    st := s2 }

/-- Source: `pubsubUnsubscribeChannel`; `none` when one of the two
`redisAssertWithInfo` fails. -/
def pubsubUnsubscribeChannel (s : State) (c : Nat) (channel : robj) (notify : Bool) :
    Option Result :=
  let mutated : Option (State × Nat) :=
    match dictDelete (s.client c).pubsub_channels channel with
    | some chans =>
      let s1 := s.setClient c { s.client c with pubsub_channels := chans }
      match dictFind s1.server.pubsub_channels channel with
      | none => none
      | some clients =>
        match listSearchKey listMatchPointer clients c with
        | none => none
        | some ln =>
          let clients1 := listDelNode clients ln
          let d1 := dictUpdateVal s1.server.pubsub_channels channel (fun _ => clients1)
          let d2 := if listLength clients1 = 0 then (dictDelete d1 channel).getD d1 else d1
          some (s1.setServer { s1.server with pubsub_channels := d2 }, 1)
    | none => some (s, 0)
  mutated.map fun m =>
    { retval := m.2
      out := if notify then
          addReply c (shared.mbulkhdr 3) ++ addReply c shared.unsubscribebulk ++
          addReplyBulk c channel ++
          addReplyLongLong c (clientSubscriptionsCount (m.1.client c))
        else []
      st := m.1 }

/-- Source: `pubsubSubscribePattern`. -/
def pubsubSubscribePattern (s : State) (c : Nat) (pattern : robj) : Result :=
  let mutated : State × Nat :=
    match listSearchKey listMatchObjects (s.client c).pubsub_patterns pattern with
    | none =>
      let s1 := s.setClient c
        { s.client c with
          pubsub_patterns := listAddNodeTail (s.client c).pubsub_patterns pattern }
      let pat : pubsubPattern := { client := c, pattern := pattern }
      (s1.setServer
        { s1.server with pubsub_patterns := listAddNodeTail s1.server.pubsub_patterns pat }, 1)
    | some _ => (s, 0)
  let s2 := mutated.1
  { retval := mutated.2
    out := addReply c (shared.mbulkhdr 3) ++ addReply c shared.psubscribebulk ++
      addReplyBulk c pattern ++
      addReplyLongLong c (clientSubscriptionsCount (s2.client c))
    st := s2 }

/-- Source: `pubsubUnsubscribePattern`; `none` when `listDelNode` is applied to
the `NULL` result of the search of `server.pubsub_patterns`. -/
def pubsubUnsubscribePattern (s : State) (c : Nat) (pattern : robj) (notify : Bool) :
    Option Result :=
  let mutated : Option (State × Nat) :=
    match listSearchKey listMatchObjects (s.client c).pubsub_patterns pattern with
    | some ln =>
      let s1 := s.setClient c
        { s.client c with pubsub_patterns := listDelNode (s.client c).pubsub_patterns ln }
      let pat : pubsubPattern := { client := c, pattern := pattern }
      match listSearchKey listMatchPubsubPattern s1.server.pubsub_patterns pat with
      | none => none
      | some ln2 =>
        some (s1.setServer
          { s1.server with pubsub_patterns := listDelNode s1.server.pubsub_patterns ln2 }, 1)
    | none => some (s, 0)
  mutated.map fun m =>
    { retval := m.2
      out := if notify then
          addReply c (shared.mbulkhdr 3) ++ addReply c shared.punsubscribebulk ++
          addReplyBulk c pattern ++
          addReplyLongLong c (clientSubscriptionsCount (m.1.client c))
        else []
      st := m.1 }

/-- The `while` loop of `pubsubUnsubscribeAllChannels` over the keys the safe
iterator yields: the accumulated `count`, the replies and the final state. -/
def unsubscribeChannelsLoop (c : Nat) (notify : Bool) :
    List robj → State → Option (Nat × Output × State)
  | [], s => some (0, [], s)
  | channel :: rest, s =>
    match pubsubUnsubscribeChannel s c channel notify with
    | none => none
    | some r =>
      match unsubscribeChannelsLoop c notify rest r.st with
      | none => none
      | some (count, out, s2) => some (r.retval + count, r.out ++ out, s2)

/-- Source: `pubsubUnsubscribeAllChannels`. -/
def pubsubUnsubscribeAllChannels (s : State) (c : Nat) (notify : Bool) : Option Result :=
  match unsubscribeChannelsLoop c notify (dictKeys (s.client c).pubsub_channels) s with
  | none => none
  | some (count, out, s1) =>
    some
      { retval := count
        out := out ++
          (if notify && count == 0 then
            addReply c (shared.mbulkhdr 3) ++ addReply c shared.unsubscribebulk ++
            addReply c shared.nullbulk ++
            addReplyLongLong c (clientSubscriptionsCount (s1.client c))
          else [])
        st := s1 }

/-- The `while` loop of `pubsubUnsubscribeAllPatterns` over the nodes of the
client's pattern list. -/
def unsubscribePatternsLoop (c : Nat) (notify : Bool) :
    List robj → State → Option (Nat × Output × State)
  | [], s => some (0, [], s)
  | pattern :: rest, s =>
    match pubsubUnsubscribePattern s c pattern notify with
    | none => none
    | some r =>
      match unsubscribePatternsLoop c notify rest r.st with
      | none => none
      | some (count, out, s2) => some (r.retval + count, r.out ++ out, s2)

/-- Source: `pubsubUnsubscribeAllPatterns`. -/
def pubsubUnsubscribeAllPatterns (s : State) (c : Nat) (notify : Bool) : Option Result :=
  match unsubscribePatternsLoop c notify (s.client c).pubsub_patterns s with
  | none => none
  | some (count, out, s1) =>
    some
      { retval := count
        out := out ++
          (if notify && count == 0 then
            addReply c (shared.mbulkhdr 3) ++ addReply c shared.punsubscribebulk ++
            addReply c shared.nullbulk ++
            addReplyLongLong c (clientSubscriptionsCount (s1.client c))
          else [])
        st := s1 }

/-- The first `while` loop of `pubsubPublishMessage`: the clients of the
channel's list still to visit, the running `receivers` and the replies so far. -/
def publishToClients (channel message : robj) : List Nat → Nat × Output → Nat × Output
  | [], acc => acc
  | c :: rest, (receivers, out) =>
    publishToClients channel message rest
      (receivers + 1,
        out ++ (addReply c (shared.mbulkhdr 3) ++ addReply c shared.messagebulk ++
          addReplyBulk c channel ++ addReplyBulk c message))

/-- The second `while` loop of `pubsubPublishMessage`, over the records of
`server.pubsub_patterns`; `stringmatchlen pattern channel` is the glob matcher
of `util.c` called with `nocase = 0`. -/
def publishToPatterns (stringmatchlen : robj → robj → Bool) (channel message : robj) :
    List pubsubPattern → Nat × Output → Nat × Output
  | [], acc => acc
  | pat :: rest, (receivers, out) =>
    if stringmatchlen pat.pattern channel then
      publishToPatterns stringmatchlen channel message rest
        (receivers + 1,
          out ++ (addReply pat.client (shared.mbulkhdr 4) ++
            addReply pat.client shared.pmessagebulk ++
            addReplyBulk pat.client pat.pattern ++
            addReplyBulk pat.client channel ++ addReplyBulk pat.client message))
    else
      publishToPatterns stringmatchlen channel message rest (receivers, out)

/-- Source: `pubsubPublishMessage`. -/
def pubsubPublishMessage (stringmatchlen : robj → robj → Bool) (s : State)
    (channel message : robj) : Result :=
  let acc0 : Nat × Output := (0, [])
  let acc1 :=
    match dictFind s.server.pubsub_channels channel with
    | some list => publishToClients channel message list acc0
    | none => acc0
  let acc2 :=
    if listLength s.server.pubsub_patterns ≠ 0 then
      publishToPatterns stringmatchlen channel message s.server.pubsub_patterns acc1
    else acc1
  { retval := acc2.1, out := acc2.2, st := s }

/-! ## Command sequences and reachable states -/

/-- A call of one of the pub/sub operations. -/
inductive Call where
  | subscribe_channel (c : Nat) (channel : robj)
  | unsubscribe_channel (c : Nat) (channel : robj) (notify : Bool)
  | subscribe_pattern (c : Nat) (pattern : robj)
  | unsubscribe_pattern (c : Nat) (pattern : robj) (notify : Bool)
  | unsubscribe_all_channels (c : Nat) (notify : Bool)
  | unsubscribe_all_patterns (c : Nat) (notify : Bool)
  | publish (channel message : robj)

/-- The result of one call (`none`: the process aborted). -/
def Call.exec (stringmatchlen : robj → robj → Bool) (s : State) : Call → Option Result
  | .subscribe_channel c channel => some (pubsubSubscribeChannel s c channel)
  | .unsubscribe_channel c channel notify => pubsubUnsubscribeChannel s c channel notify
  | .subscribe_pattern c pattern => some (pubsubSubscribePattern s c pattern)
  | .unsubscribe_pattern c pattern notify => pubsubUnsubscribePattern s c pattern notify
  | .unsubscribe_all_channels c notify => pubsubUnsubscribeAllChannels s c notify
  | .unsubscribe_all_patterns c notify => pubsubUnsubscribeAllPatterns s c notify
  | .publish channel message => some (pubsubPublishMessage stringmatchlen s channel message)

/-- The state after a sequence of calls, each run to completion before the next. -/
def run (stringmatchlen : robj → robj → Bool) : State → List Call → Option State
  | s, [] => some s
  | s, call :: rest =>
    match call.exec stringmatchlen s with
    | none => none
    | some r => run stringmatchlen r.st rest

/-- A state is reachable when some sequence of calls leads to it from the
start-up state. -/
def Reachable (stringmatchlen : robj → robj → Bool) (s : State) : Prop :=
  ∃ calls, run stringmatchlen State.init calls = some s

/-! ## Observations used in the statements -/

/-- Whether channel `name` is in the membership set of client `c`. -/
def has_channel (s : State) (c : Nat) (name : robj) : Bool :=
  (dictFind (s.client c).pubsub_channels name).isSome

/-- The subscriber list of channel `name` in the global index (empty when the
channel is absent). -/
def subscribers (s : State) (name : robj) : List Nat :=
  (dictFind s.server.pubsub_channels name).getD []

/-- The number of subscribers of channel `name`, 0 for an absent channel. -/
def subscriber_count (s : State) (name : robj) : Nat :=
  match dictFind s.server.pubsub_channels name with
  | some l => listLength l
  | none => 0

/-- The frame `[t, a, b]` sent to client `c`. -/
def frame3 (c : Nat) (t a b : Reply) : Output :=
  [(c, Reply.mbulkhdr 3), (c, t), (c, a), (c, b)]

/-- The frame `[t, a, b, d]` sent to client `c`. -/
def frame4 (c : Nat) (t a b d : Reply) : Output :=
  [(c, Reply.mbulkhdr 4), (c, t), (c, a), (c, b), (c, d)]

/-- The number of frames in `out` addressed to client `c` (every frame starts
with exactly one header item). -/
def framesSentTo (c : Nat) (out : Output) : Nat :=
  out.countP (fun e => decide (e.1 = c) && (match e.2 with | Reply.mbulkhdr _ => true | _ => false))

/-- The channel index after a new subscription of `c` to `channel`. -/
def indexAfterSubscribe (d : dict (List Nat)) (channel : robj) (c : Nat) : dict (List Nat) :=
  match dictFind d channel with
  | none => d ++ [(channel, [c])]
  | some _ => dictUpdateVal d channel (fun clients => clients ++ [c])

/-- The channel index after `c` leaves `channel`, whose list was `clients`. -/
def indexAfterUnsubscribe (d : dict (List Nat)) (channel : robj) (clients : List Nat)
    (c : Nat) : dict (List Nat) :=
  if clients.erase c = [] then
    (dictUpdateVal d channel (fun _ => clients.erase c)).filter
      (fun e => decide (e.1 ≠ channel))
  else dictUpdateVal d channel (fun _ => clients.erase c)

/-- The state after a successful `pubsubUnsubscribeChannel`. -/
def stateAfterUnsubscribe (s : State) (c : Nat) (channel : robj) (clients : List Nat) :
    State :=
  (s.setClient c
    { s.client c with
      pubsub_channels :=
        (s.client c).pubsub_channels.filter (fun e => decide (e.1 ≠ channel)) }).setServer
    { s.server with
      pubsub_channels := indexAfterUnsubscribe s.server.pubsub_channels channel clients c }

/-- The state after a new pattern subscription. -/
def stateAfterPsubscribe (s : State) (c : Nat) (pattern : robj) : State :=
  (s.setClient c
    { s.client c with pubsub_patterns := (s.client c).pubsub_patterns ++ [pattern] }).setServer
    { s.server with
      pubsub_patterns := s.server.pubsub_patterns ++ [{ client := c, pattern := pattern }] }

/-- The state after a successful `pubsubUnsubscribePattern`. -/
def stateAfterPunsubscribe (s : State) (c : Nat) (pattern : robj) : State :=
  (s.setClient c
    { s.client c with pubsub_patterns := (s.client c).pubsub_patterns.erase pattern }).setServer
    { s.server with
      pubsub_patterns := s.server.pubsub_patterns.erase { client := c, pattern := pattern } }

/-- The consistency of the per-client registries with the two global indices:
the invariants I1, I2 and I3 of the design together with the absence of
duplicates in every dictionary and list. -/
structure Inv (s : State) : Prop where
  client_keys : ∀ c, (dictKeys (s.client c).pubsub_channels).Nodup
  server_keys : (dictKeys s.server.pubsub_channels).Nodup
  chan_iff : ∀ c name, dictFind (s.client c).pubsub_channels name = some () ↔
    ∃ l, dictFind s.server.pubsub_channels name = some l ∧ c ∈ l
  nonempty : ∀ name l, dictFind s.server.pubsub_channels name = some l → l ≠ []
  subs_nodup : ∀ name l, dictFind s.server.pubsub_channels name = some l → l.Nodup
  pats_nodup : ∀ c, (s.client c).pubsub_patterns.Nodup
  gpats_nodup : s.server.pubsub_patterns.Nodup
  pat_iff : ∀ c p, p ∈ (s.client c).pubsub_patterns ↔
    ({ client := c, pattern := p } : pubsubPattern) ∈ s.server.pubsub_patterns

/-- The `message` frame of a publication, for subscriber `c`. -/
def messageFrame (channel message : robj) (c : Nat) : Output :=
  frame3 c (Reply.bulk "message") (Reply.bulk channel) (Reply.bulk message)

/-- The `pmessage` frame of a publication, for the pattern record `pat`. -/
def pmessageFrame (channel message : robj) (pat : pubsubPattern) : Output :=
  frame4 pat.client (Reply.bulk "pmessage") (Reply.bulk pat.pattern) (Reply.bulk channel)
    (Reply.bulk message)

/-- The records of `server.pubsub_patterns` whose pattern matches `channel`,
in the order of the list. -/
def matchingPatterns (stringmatchlen : robj → robj → Bool) (s : State) (channel : robj) :
    List pubsubPattern :=
  s.server.pubsub_patterns.filter (fun pat => stringmatchlen pat.pattern channel)

/-- A matcher that accepts `new*` against `news` and nothing else, for the
concrete scenarios. -/
def exampleMatcher (pattern channel : robj) : Bool :=
  pattern == "new*" && channel == "news"

/-- The state of the scenario: client 1 subscribed to `news`, client 2 to the
pattern `new*`. -/
def exampleState : State :=
  (pubsubSubscribePattern (pubsubSubscribeChannel State.init 1 "news").st 2 "new*").st

/-- The scenario state extended with client 1 also subscribed to the pattern
`new*`: client 1 is reached both by the channel and by a pattern. -/
def exampleStateBoth : State := (pubsubSubscribePattern exampleState 1 "new*").st

/-- A state with client 2 alone subscribed to `news`. -/
def exampleStateOther : State := (pubsubSubscribeChannel State.init 2 "news").st

/-- How one call may change a subscriber list: not at all, by one new client
added at the end, or by the removal of one client (the others keeping their
order). -/
def OrderKept (before after : List Nat) : Prop :=
  after = before ∨ (∃ c, c ∉ before ∧ after = before ++ [c]) ∨ (∃ c, after = before.erase c)

/-- The frames of an unsubscribe-all walk over `names`: one frame of type
`type` per name, in order, each carrying the number of names still to come
plus `base`. -/
def unsubscribeFrames (c : Nat) (type : robj) (base : Nat) : List robj → Output
  | [] => []
  | name :: rest =>
    frame3 c (Reply.bulk type) (Reply.bulk name) (Reply.longlong (rest.length + base)) ++
      unsubscribeFrames c type base rest

/-- A state where client 1 holds the channels `news` and `sports` and the
pattern `new*`, and client 2 the channel `news` and the pattern `new*`. -/
def exampleStateBusy : State :=
  (pubsubSubscribePattern
    (pubsubSubscribePattern
      (pubsubSubscribeChannel
        (pubsubSubscribeChannel (pubsubSubscribeChannel State.init 1 "news").st 2 "news").st
        1 "sports").st 1 "new*").st 2 "new*").st

/-- Modelled from the spec: what a C string function reads of a string object,
the characters before the first NUL byte. -/
def cstring (a : robj) : List Char := a.toList.takeWhile (fun ch => decide (ch ≠ Char.ofNat 0))

/-- Modelled from the spec: `strcasecmp` of the C library, 0 when the two C
strings are equal up to ASCII case; every non-zero result is represented by 1
(`pubsubCommand` only tests the result against 0). -/
def strcasecmp (a b : robj) : Int :=
  if (cstring a).map Char.toLower = (cstring b).map Char.toLower then 0 else 1

/-- Modelled from the spec: `addReplyMultiBulkLen`, the header `*n\r\n`. -/
def addReplyMultiBulkLen (c : Nat) (n : Nat) : Output := [(c, Reply.mbulkhdr n)]

/-- Modelled from the spec: `addDeferredMultiBulkLength` followed, once the
elements are known, by `setDeferredMultiBulkLength`: the header `*n\r\n` stands
in the output before the elements. -/
def setDeferredMultiBulkLength (c : Nat) (n : Nat) : Output := [(c, Reply.mbulkhdr n)]

/-- Modelled from the spec: `addReplyBulkLongLong`. -/
def addReplyBulkLongLong (c : Nat) (n : Nat) : Output := [(c, Reply.bulkLongLong n)]

/-- Modelled from the spec: `addReplyErrorFormat` with the format of
`pubsubCommand`, `%s` printing the C string `arg`. -/
def addReplyErrorFormat (c : Nat) (arg : robj) : Output :=
  [(c, Reply.error
    ("Unknown PUBSUB subcommand or wrong number of arguments for '" ++
      String.mk (cstring arg) ++ "'"))]

/-- The test `!pat || stringmatchlen(pat, ..., channel, ..., 0)` of
`PUBSUB CHANNELS`; `pat` is `none` for the `NULL` pattern. -/
def channelListed (stringmatchlen : robj → robj → Bool) (pat : Option robj) (channel : robj) :
    Bool :=
  match pat with
  | none => true
  | some p => stringmatchlen p channel

/-- The `while` loop of `PUBSUB CHANNELS` over the entries of
`server.pubsub_channels`: the running `mblen` and the replies so far. -/
def pubsubChannelsLoop (stringmatchlen : robj → robj → Bool) (c : Nat) (pat : Option robj) :
    List (robj × List Nat) → Nat × Output → Nat × Output
  | [], acc => acc
  | (channel, _) :: rest, (mblen, out) =>
    if channelListed stringmatchlen pat channel then
      pubsubChannelsLoop stringmatchlen c pat rest (mblen + 1, out ++ addReplyBulk c channel)
    else pubsubChannelsLoop stringmatchlen c pat rest (mblen, out)

/-- The `for` loop of `PUBSUB NUMSUB` over `argv[2..]`. -/
def pubsubNumsubLoop (s : State) (c : Nat) : List robj → Output
  | [] => []
  | channel :: rest =>
    addReplyBulk c channel ++
      addReplyBulkLongLong c
        (match dictFind s.server.pubsub_channels channel with
          | some l => listLength l
          | none => 0) ++
      pubsubNumsubLoop s c rest

/-- Source: `pubsubCommand`, for the request `argv` of client `c` (`argc` is the
length of `argv`).  The function is `void`: `retval` is 0.  `none` when
`argv[1]` does not exist. -/
def pubsubCommand (stringmatchlen : robj → robj → Bool) (s : State) (c : Nat)
    (argv : List robj) : Option Result :=
  match argv with
  | _ :: argv1 :: _ =>
    let argc := argv.length
    if strcasecmp argv1 "channels" = 0 ∧ (argc = 2 ∨ argc = 3) then
      let pat : Option robj := if argc = 2 then none else argv[2]?
      let acc := pubsubChannelsLoop stringmatchlen c pat s.server.pubsub_channels (0, [])
      some { retval := 0, out := setDeferredMultiBulkLength c acc.1 ++ acc.2, st := s }
    else if strcasecmp argv1 "numsub" = 0 ∧ argc ≥ 2 then
      some
        { retval := 0
          out := addReplyMultiBulkLen c ((argc - 2) * 2) ++ pubsubNumsubLoop s c (argv.drop 2)
          st := s }
    else if strcasecmp argv1 "numpat" = 0 ∧ argc = 2 then
      some
        { retval := 0
          out := addReplyLongLong c (listLength s.server.pubsub_patterns)
          st := s }
    else some { retval := 0, out := addReplyErrorFormat c argv1, st := s }
  | _ => none

/-- The channel names `PUBSUB CHANNELS` lists: the keys of the global channel
index, in iteration order, that pass the optional pattern. -/
def listedChannels (stringmatchlen : robj → robj → Bool) (s : State) (pat : Option robj) :
    List robj :=
  (dictKeys s.server.pubsub_channels).filter (channelListed stringmatchlen pat)

/-- The requests `PUBSUB sub args...` that `pubsubCommand` serves: `channels`
with at most one argument, `numsub` with any arguments, `numpat` without
arguments, the subcommand being compared by `strcasecmp`. -/
def pubsubRequestServed (sub : robj) (args : List robj) : Prop :=
  (strcasecmp sub "channels" = 0 ∧ args.length ≤ 1) ∨ strcasecmp sub "numsub" = 0 ∨
    (strcasecmp sub "numpat" = 0 ∧ args = [])

/-- The requests `PUBSUB sub args...` with the subcommand compared as a whole
string, up to ASCII case: `channels` with at most one argument, `numsub` with
any arguments, `numpat` without arguments. -/
def pubsubRequestListed (sub : robj) (args : List robj) : Prop :=
  (sub.toList.map Char.toLower = "channels".toList ∧ args.length ≤ 1) ∨
    sub.toList.map Char.toLower = "numsub".toList ∨
    (sub.toList.map Char.toLower = "numpat".toList ∧ args = [])

/-- A subcommand with an embedded NUL byte: `ChAnNeLs`, a NUL byte, `junk`. -/
def exampleNulSubcommand : robj := ("ChAnNeLs".push (Char.ofNat 0)) ++ "junk"

end Pubsub

namespace Rio

/-! ## `rio.c`: the buffer-backed stream

Only the buffer-backed `rio` is embedded; the file-backed functions
(`rioFileWrite`, `rioFileRead`, `rioFileTell`, `rioInitWithFile`,
`rioSetAutoSync`) act on a `FILE *` and are not represented.  A byte is
represented by the character of its code. -/

/-- A byte string: an `sds`, or the `len` bytes at a `char *`. -/
abbrev sds := List Char

/-- Modelled from the spec: `sdslen` of `sds.c`. -/
def sdslen (s : sds) : Nat := s.length

/-- Modelled from the spec: `sdscatlen` of `sds.c`, the string followed by the
`len` bytes at `buf`. -/
def sdscatlen (s : sds) (buf : sds) : sds := s ++ buf

/-- The fields of a buffer-backed `rio` (declared in `rio.h`): the optional
checksum function (`none` is `NULL`; it maps the current checksum and the bytes
to the new checksum), the checksum, the processed bytes, the chunk size, and
the `io.buffer` variant with its string and offset. -/
structure rio where
  update_cksum : Option (Nat → sds → Nat)
  cksum : Nat
  processed_bytes : Nat
  max_processing_chunk : Nat
  ptr : sds
  pos : Nat

/-- The subtraction of two `size_t` values (`off_t` operand converted), modulo
`2^64`. -/
def size_t_sub (a b : Nat) : Nat :=
  (((a : Int) - (b : Int)) % 18446744073709551616).toNat

/-- The conversion of a `size_t` value to the `int` parameter it is passed for:
the value modulo `2^32`, read as a two's complement 32-bit integer. -/
def int_of_size_t (n : Nat) : Int :=
  if n % 4294967296 < 2147483648 then ((n % 4294967296 : Nat) : Int)
  else ((n % 4294967296 : Nat) : Int) - 4294967296

/-- Modelled from the spec: `ll2string` of `util.c`, the decimal digits of a
`long long`, with a leading minus sign for a negative value. -/
def ll2string (v : Int) : sds :=
  match v with
  | Int.ofNat n => (Nat.repr n).toList
  | Int.negSucc n => '-' :: (Nat.repr (n + 1)).toList

/-- The two bytes `\r\n`. -/
def CRLF : sds := [Char.ofNat 13, Char.ofNat 10]

/-- Source: `rioBufferWrite`; the `len` bytes at `buf` are the list `buf`.
Returns the stream and the C return value. -/
def rioBufferWrite (r : rio) (buf : sds) : rio × Nat :=
  ({ r with ptr := sdscatlen r.ptr buf, pos := r.pos + buf.length }, 1)

/-- Source: `rioBufferRead`: the stream, the C return value and the bytes copied
to `buf` (none when 0 is returned). -/
def rioBufferRead (r : rio) (len : Nat) : rio × Nat × sds :=
  if size_t_sub (sdslen r.ptr) r.pos < len then (r, 0, [])
  else ({ r with pos := r.pos + len }, 1, (r.ptr.drop r.pos).take len)

/-- Source: `rioBufferTell`. -/
def rioBufferTell (r : rio) : Nat := r.pos

/-- Source: the constant `rioBufferIO` (its `read`, `write` and `tell` members
are `rioBufferRead`, `rioBufferWrite` and `rioBufferTell`). -/
def rioBufferIO : rio :=
  { update_cksum := none, cksum := 0, processed_bytes := 0, max_processing_chunk := 0,
    ptr := [], pos := 0 }

/-- Source: `rioInitWithBuffer`. -/
def rioInitWithBuffer (s : sds) : rio :=
  { rioBufferIO with ptr := s, pos := 0 }

/-- Modelled from the spec: the loop of the inline `rioWrite` of `rio.h` for a
buffer-backed stream (`r->write` is `rioBufferWrite`): the bytes are written in
chunks of at most `max_processing_chunk` bytes when that is non-zero, each chunk
first passed to the checksum function when there is one.  The first argument
bounds the number of iterations. -/
def rioWriteChunks : Nat → rio → sds → rio × Nat
  | _, r, [] => (r, 1)
  | 0, r, _ :: _ => (r, 0)
  | fuel + 1, r, b :: rest =>
    let buf := b :: rest
    let bytes_to_write :=
      if r.max_processing_chunk ≠ 0 ∧ r.max_processing_chunk < buf.length then
        r.max_processing_chunk
      else buf.length
    let r1 :=
      match r.update_cksum with
      | some f => { r with cksum := f r.cksum (buf.take bytes_to_write) }
      | none => r
    let w := rioBufferWrite r1 (buf.take bytes_to_write)
    if w.2 = 0 then (w.1, 0)
    else
      rioWriteChunks fuel
        { w.1 with processed_bytes := w.1.processed_bytes + bytes_to_write }
        (buf.drop bytes_to_write)

/-- Modelled from the spec: `rioWrite` of `rio.h`; every iteration writes at
least one byte, so `len` iterations are enough. -/
def rioWrite (r : rio) (buf : sds) : rio × Nat :=
  rioWriteChunks buf.length r buf

/-- Source: `rioWriteBulkCount`. -/
def rioWriteBulkCount (r : rio) (pfx : Char) (count : Int) : rio × Nat :=
  let cbuf := pfx :: ll2string count ++ CRLF
  let clen := cbuf.length
  let w := rioWrite r cbuf
  if w.2 = 0 then (w.1, 0) else (w.1, clen)

/-- Source: `rioWriteBulkString`; the `len` bytes at `buf` are the list `buf`. -/
def rioWriteBulkString (r : rio) (buf : sds) : rio × Nat :=
  let len := buf.length
  let w1 := rioWriteBulkCount r '$' (int_of_size_t len)
  if w1.2 = 0 then (w1.1, 0)
  else
    let w2 := if len > 0 then rioWrite w1.1 buf else (w1.1, 1)
    if len > 0 ∧ w2.2 = 0 then (w2.1, 0)
    else
      let w3 := rioWrite w2.1 CRLF
      if w3.2 = 0 then (w3.1, 0) else (w3.1, w1.2 + len + 2)

/-- A call of one of the two buffer operations. -/
inductive BufferCall where
  | write (buf : sds)
  | read (len : Nat)

/-- The stream after a sequence of `rioBufferWrite` and `rioBufferRead` calls. -/
def rioRun : rio → List BufferCall → rio
  | r, [] => r
  | r, BufferCall.write buf :: rest => rioRun (rioBufferWrite r buf).1 rest
  | r, BufferCall.read len :: rest => rioRun (rioBufferRead r len).1 rest

/-- A stream obtained from `rioInitWithBuffer` by buffer writes and reads. -/
def BufferReachable (r : rio) : Prop :=
  ∃ s calls, r = rioRun (rioInitWithBuffer s) calls

end Rio

namespace Pubsub

/-! ## The dictionary and list primitives -/

section primitives
variable {V : Type}

theorem dictFind_append_of_some {d1 : dict V} {k : robj} {v : V} (d2 : dict V)
    (h : dictFind d1 k = some v) : dictFind (d1 ++ d2) k = some v := by
  induction d1 with
  | nil => simp [dictFind] at h
  | cons e rest ih =>
    obtain ⟨k0, v0⟩ := e
    simp only [List.cons_append, dictFind] at h ⊢
    split
    · next hk => simpa [hk] using h
    · next hk => exact ih (by simpa [hk] using h)

theorem dictFind_append_of_none {d1 : dict V} {k : robj} (d2 : dict V)
    (h : dictFind d1 k = none) : dictFind (d1 ++ d2) k = dictFind d2 k := by
  induction d1 with
  | nil => rfl
  | cons e rest ih =>
    obtain ⟨k0, v0⟩ := e
    simp only [List.cons_append, dictFind] at h ⊢
    split
    · next hk => simp [hk] at h
    · next hk => exact ih (by simpa [hk] using h)

theorem dictFind_updateVal (d : dict V) (key k : robj) (f : V → V) :
    dictFind (dictUpdateVal d key f) k =
      if k = key then (dictFind d k).map f else dictFind d k := by
  induction d with
  | nil => simp [dictUpdateVal, dictFind]
  | cons e rest ih =>
    obtain ⟨k0, v0⟩ := e
    have hcons : dictUpdateVal ((k0, v0) :: rest) key f =
        (if k0 = key then (k0, f v0) else (k0, v0)) :: dictUpdateVal rest key f := rfl
    rw [hcons]
    by_cases h0 : k0 = key
    · subst h0
      rw [if_pos rfl]
      simp only [dictFind]
      by_cases h1 : k0 = k
      · subst h1
        simp
      · rw [if_neg h1, if_neg h1, ih]
    · rw [if_neg h0]
      simp only [dictFind]
      by_cases h1 : k0 = k
      · subst h1
        simp [h0]
      · rw [if_neg h1, if_neg h1, ih]

theorem dictFind_filter (d : dict V) (key k : robj) :
    dictFind (d.filter (fun e => decide (e.1 ≠ key))) k =
      if k = key then none else dictFind d k := by
  induction d with
  | nil => simp [dictFind]
  | cons e rest ih =>
    obtain ⟨k0, v0⟩ := e
    by_cases h0 : k0 = key <;> by_cases h1 : k0 = k <;> by_cases h2 : k = key <;>
      simp_all [dictFind, List.filter_cons]

theorem dictFind_eq_none_iff (d : dict V) (k : robj) :
    dictFind d k = none ↔ k ∉ dictKeys d := by
  induction d with
  | nil => simp [dictFind, dictKeys]
  | cons e rest ih =>
    obtain ⟨k0, v0⟩ := e
    by_cases h1 : k0 = k
    · simp [dictFind, dictKeys, h1]
    · have h2 : ¬ k = k0 := fun h => h1 h.symm
      simpa [dictFind, dictKeys, h1, h2] using ih

theorem dictFind_isSome_iff (d : dict V) (k : robj) :
    (dictFind d k).isSome = true ↔ k ∈ dictKeys d := by
  rw [← not_iff_not, ← dictFind_eq_none_iff]
  cases dictFind d k <;> simp

theorem mem_of_dictFind {d : dict V} {k : robj} {v : V} (h : dictFind d k = some v) :
    (k, v) ∈ d := by
  induction d with
  | nil => simp [dictFind] at h
  | cons e rest ih =>
    obtain ⟨k0, v0⟩ := e
    by_cases h1 : k0 = k
    · simp [dictFind, h1] at h
      simp [h1, h]
    · simp [dictFind, h1] at h
      exact List.mem_cons_of_mem _ (ih h)

theorem dictFind_of_mem {d : dict V} {k : robj} {v : V} (hd : (dictKeys d).Nodup)
    (h : (k, v) ∈ d) : dictFind d k = some v := by
  induction d with
  | nil => simp at h
  | cons e rest ih =>
    obtain ⟨k0, v0⟩ := e
    simp only [dictKeys, List.map_cons, List.nodup_cons] at hd
    rcases List.mem_cons.1 h with h | h
    · cases h
      simp [dictFind]
    · have hk : k ∈ dictKeys rest := List.mem_map.2 ⟨(k, v), h, rfl⟩
      have h1 : ¬ k0 = k := fun e => hd.1 (e ▸ hk)
      simpa [dictFind, h1] using ih hd.2 h

theorem dictKeys_updateVal (d : dict V) (key : robj) (f : V → V) :
    dictKeys (dictUpdateVal d key f) = dictKeys d := by
  induction d with
  | nil => rfl
  | cons e rest ih =>
    simp only [dictKeys, dictUpdateVal, List.map_cons] at ih ⊢
    rw [ih]
    split <;> rfl

theorem dictKeys_filter (d : dict V) (key : robj) :
    dictKeys (d.filter (fun e => decide (e.1 ≠ key))) =
      (dictKeys d).filter (fun k => decide (k ≠ key)) := by
  induction d with
  | nil => rfl
  | cons e rest ih =>
    obtain ⟨k0, v0⟩ := e
    by_cases h0 : k0 = key <;> simp_all [dictKeys, List.filter_cons]

theorem dictKeys_append (d : dict V) (k : robj) (v : V) :
    dictKeys (d ++ [(k, v)]) = dictKeys d ++ [k] := by
  simp [dictKeys]

theorem filter_ne_of_not_mem {l : List robj} {key : robj} (h : key ∉ l) :
    l.filter (fun k => decide (k ≠ key)) = l := by
  apply List.filter_eq_self.2
  intro a ha
  simpa using fun e : a = key => h (e ▸ ha)

theorem dict_filter_of_find_none {d : dict V} {key : robj} (h : dictFind d key = none) :
    d.filter (fun e => decide (e.1 ≠ key)) = d := by
  apply List.filter_eq_self.2
  intro a ha
  have hk := (dictFind_eq_none_iff d key).1 h
  simpa using fun e : a.1 = key => hk (e ▸ List.mem_map.2 ⟨a, ha, rfl⟩)

end primitives

section search
variable {α : Type} [DecidableEq α]

theorem listSearchKey_eq_none_iff {isMatch : α → α → Bool}
    (hm : ∀ a b, isMatch a b = true ↔ a = b) (l : List α) (key : α) :
    listSearchKey isMatch l key = none ↔ key ∉ l := by
  induction l with
  | nil => simp [listSearchKey]
  | cons v rest ih =>
    by_cases h : v = key
    · subst h
      simp [listSearchKey, (hm v v).2 rfl]
    · have h1 : ¬ isMatch v key = true := fun e => h ((hm v key).1 e)
      have h2 : ¬ key = v := fun e => h e.symm
      simpa [listSearchKey, h1, h2] using ih

theorem listDelNode_of_search {isMatch : α → α → Bool}
    (hm : ∀ a b, isMatch a b = true ↔ a = b) {l : List α} {key : α} {ln : Nat}
    (h : listSearchKey isMatch l key = some ln) : listDelNode l ln = l.erase key := by
  induction l generalizing ln with
  | nil => simp [listSearchKey] at h
  | cons v rest ih =>
    by_cases hv : v = key
    · have h0 : isMatch v key = true := (hm v key).2 hv
      simp only [listSearchKey, h0, if_true, Option.some.injEq] at h
      subst h
      simp [listDelNode, hv]
    · have h1 : ¬ isMatch v key = true := fun e => hv ((hm v key).1 e)
      simp only [listSearchKey, h1, if_false, Bool.false_eq_true, Option.map_eq_some'] at h
      obtain ⟨i, hi, rfl⟩ := h
      have := ih hi
      simp only [listDelNode] at this ⊢
      simp [List.erase_cons, hv, this]

theorem listSearchKey_isSome_of_mem {isMatch : α → α → Bool}
    (hm : ∀ a b, isMatch a b = true ↔ a = b) {l : List α} {key : α} (h : key ∈ l) :
    ∃ ln, listSearchKey isMatch l key = some ln := by
  cases hs : listSearchKey isMatch l key with
  | none => exact absurd h ((listSearchKey_eq_none_iff hm l key).1 hs)
  | some ln => exact ⟨ln, rfl⟩

end search

theorem listMatchPointer_iff (a b : Nat) : listMatchPointer a b = true ↔ a = b := by
  simp [listMatchPointer]

theorem listMatchObjects_iff (a b : robj) : listMatchObjects a b = true ↔ a = b := by
  simp [listMatchObjects]

theorem listMatchPubsubPattern_iff (a b : pubsubPattern) :
    listMatchPubsubPattern a b = true ↔ a = b := by
  cases a; cases b
  simp [listMatchPubsubPattern]

/-! ## What each operation does to the state -/

@[simp] theorem setClient_client_same (s : State) (c : Nat) (cl : redisClient) :
    (s.setClient c cl).client c = cl := by
  simp [State.setClient]

theorem setClient_client_other (s : State) {c x : Nat} (cl : redisClient) (h : x ≠ c) :
    (s.setClient c cl).client x = s.client x := by
  simp [State.setClient, h]

@[simp] theorem setClient_server (s : State) (c : Nat) (cl : redisClient) :
    (s.setClient c cl).server = s.server := rfl

@[simp] theorem setServer_client (s : State) (srv : redisServer) :
    (s.setServer srv).client = s.client := rfl

@[simp] theorem setServer_server (s : State) (srv : redisServer) :
    (s.setServer srv).server = srv := rfl

theorem dictFind_unit {d : dict Unit} {k : robj} (h : dictFind d k ≠ none) :
    dictFind d k = some () := by
  cases hd : dictFind d k with
  | none => exact absurd hd h
  | some u => rfl

theorem dictFind_indexAfterSubscribe (d : dict (List Nat)) (channel : robj) (c : Nat)
    (k : robj) :
    dictFind (indexAfterSubscribe d channel c) k =
      if k = channel then some ((dictFind d channel).getD [] ++ [c]) else dictFind d k := by
  unfold indexAfterSubscribe
  cases hd : dictFind d channel with
  | none =>
    by_cases hk : k = channel
    · subst hk
      simp [dictFind_append_of_none _ hd, dictFind]
    · simp only [if_neg hk]
      cases hk2 : dictFind d k with
      | none =>
        have hk3 : ¬ channel = k := fun e => hk e.symm
        simp [dictFind_append_of_none _ hk2, dictFind, hk3]
      | some v => simp [dictFind_append_of_some _ hk2]
  | some l =>
    simp only [dictFind_updateVal]
    by_cases hk : k = channel
    · subst hk
      simp [hd]
    · simp [hk]

theorem dictKeys_indexAfterSubscribe (d : dict (List Nat)) (channel : robj) (c : Nat) :
    dictKeys (indexAfterSubscribe d channel c) =
      if channel ∈ dictKeys d then dictKeys d else dictKeys d ++ [channel] := by
  unfold indexAfterSubscribe
  cases hd : dictFind d channel with
  | none =>
    have := (dictFind_eq_none_iff d channel).1 hd
    simp [this, dictKeys_append]
  | some l =>
    have : channel ∈ dictKeys d := (dictFind_isSome_iff d channel).1 (by simp [hd])
    simp [this, dictKeys_updateVal]

theorem pubsubSubscribeChannel_of_has {s : State} {c : Nat} {channel : robj}
    (h : dictFind (s.client c).pubsub_channels channel = some ()) :
    pubsubSubscribeChannel s c channel =
      { retval := 0
        out := frame3 c (Reply.bulk "subscribe") (Reply.bulk channel)
          (Reply.longlong (clientSubscriptionsCount (s.client c)))
        st := s } := by
  simp [pubsubSubscribeChannel, dictAdd, h, frame3, addReply, addReplyBulk, addReplyLongLong,
    shared.mbulkhdr, shared.subscribebulk]

theorem pubsubSubscribeChannel_of_not_has {s : State} {c : Nat} {channel : robj}
    (h : dictFind (s.client c).pubsub_channels channel = none) :
    pubsubSubscribeChannel s c channel =
      { retval := 1
        out := frame3 c (Reply.bulk "subscribe") (Reply.bulk channel)
          (Reply.longlong (clientSubscriptionsCount (s.client c) + 1))
        st :=
          (s.setClient c
            { s.client c with
              pubsub_channels := (s.client c).pubsub_channels ++ [(channel, ())] }).setServer
            { s.server with
              pubsub_channels := indexAfterSubscribe s.server.pubsub_channels channel c } } := by
  have hidx : dictUpdateVal
      (match dictFind s.server.pubsub_channels channel with
        | none => (dictAdd s.server.pubsub_channels channel []).getD s.server.pubsub_channels
        | some _ => s.server.pubsub_channels) channel
      (fun clients => listAddNodeTail clients c) =
      indexAfterSubscribe s.server.pubsub_channels channel c := by
    unfold indexAfterSubscribe
    cases hd : dictFind s.server.pubsub_channels channel with
    | none =>
      have hk : channel ∉ dictKeys s.server.pubsub_channels := (dictFind_eq_none_iff _ _).1 hd
      have hmap : ∀ d : dict (List Nat), channel ∉ dictKeys d →
          dictUpdateVal d channel (fun clients => listAddNodeTail clients c) = d := by
        intro d hd
        induction d with
        | nil => rfl
        | cons e rest ih =>
          obtain ⟨k0, v0⟩ := e
          simp only [dictKeys, List.map_cons, List.mem_cons, not_or] at hd
          have h1 : ¬ k0 = channel := fun e => hd.1 e.symm
          have := ih hd.2
          simp only [dictUpdateVal, List.map_cons] at this ⊢
          rw [this]
          simp [h1]
      simp only [dictAdd, hd, Option.getD_some]
      simp only [dictUpdateVal, List.map_append] at hmap ⊢
      rw [hmap _ hk]
      simp [listAddNodeTail]
    | some l => simp [listAddNodeTail]
  have hadd : dictAdd (s.client c).pubsub_channels channel () =
      some ((s.client c).pubsub_channels ++ [(channel, ())]) := by
    simp [dictAdd, h]
  simp only [pubsubSubscribeChannel, hadd, setClient_server, hidx]
  simp [frame3, addReply, addReplyBulk, addReplyLongLong, shared.mbulkhdr,
    shared.subscribebulk, clientSubscriptionsCount, dictSize, listLength]
  omega

theorem dictFind_indexAfterUnsubscribe {d : dict (List Nat)} {channel : robj}
    {clients : List Nat} (hd : dictFind d channel = some clients) (c : Nat) (k : robj) :
    dictFind (indexAfterUnsubscribe d channel clients c) k =
      if k = channel then (if clients.erase c = [] then none else some (clients.erase c))
      else dictFind d k := by
  unfold indexAfterUnsubscribe
  by_cases he : clients.erase c = []
  · simp only [if_pos he, dictFind_filter, dictFind_updateVal]
    by_cases hk : k = channel <;> simp [hk]
  · simp only [if_neg he, dictFind_updateVal]
    by_cases hk : k = channel
    · subst hk
      simp [hd]
    · simp [hk]

theorem dictKeys_indexAfterUnsubscribe (d : dict (List Nat)) (channel : robj)
    (clients : List Nat) (c : Nat) :
    dictKeys (indexAfterUnsubscribe d channel clients c) =
      if clients.erase c = [] then (dictKeys d).filter (fun k => decide (k ≠ channel))
      else dictKeys d := by
  unfold indexAfterUnsubscribe
  by_cases he : clients.erase c = []
  · simp only [if_pos he, dictKeys_filter, dictKeys_updateVal]
  · simp only [if_neg he, dictKeys_updateVal]

theorem pubsubUnsubscribeChannel_of_not_has {s : State} {c : Nat} {channel : robj}
    (notify : Bool) (h : dictFind (s.client c).pubsub_channels channel = none) :
    pubsubUnsubscribeChannel s c channel notify =
      some
        { retval := 0
          out := if notify then
              frame3 c (Reply.bulk "unsubscribe") (Reply.bulk channel)
                (Reply.longlong (clientSubscriptionsCount (s.client c)))
            else []
          st := s } := by
  simp [pubsubUnsubscribeChannel, dictDelete, h, frame3, addReply, addReplyBulk,
    addReplyLongLong, shared.mbulkhdr, shared.unsubscribebulk]

theorem pubsubUnsubscribeChannel_of_has {s : State} {c : Nat} {channel : robj}
    {clients : List Nat} (notify : Bool)
    (h : dictFind (s.client c).pubsub_channels channel = some ())
    (hd : dictFind s.server.pubsub_channels channel = some clients) (hc : c ∈ clients) :
    pubsubUnsubscribeChannel s c channel notify =
      some
        { retval := 1
          out := if notify then
              frame3 c (Reply.bulk "unsubscribe") (Reply.bulk channel)
                (Reply.longlong
                  (clientSubscriptionsCount ((stateAfterUnsubscribe s c channel clients).client c)))
            else []
          st := stateAfterUnsubscribe s c channel clients } := by
  obtain ⟨ln, hln⟩ := listSearchKey_isSome_of_mem listMatchPointer_iff hc
  have hdel := listDelNode_of_search listMatchPointer_iff hln
  have hidx : (if listLength (clients.erase c) = 0 then
        (dictDelete (dictUpdateVal s.server.pubsub_channels channel fun _ => clients.erase c)
          channel).getD (dictUpdateVal s.server.pubsub_channels channel fun _ => clients.erase c)
      else dictUpdateVal s.server.pubsub_channels channel fun _ => clients.erase c) =
      indexAfterUnsubscribe s.server.pubsub_channels channel clients c := by
    unfold indexAfterUnsubscribe
    by_cases he : clients.erase c = []
    · have hf : dictFind (dictUpdateVal s.server.pubsub_channels channel
          fun _ => clients.erase c) channel = some (clients.erase c) := by
        simp [dictFind_updateVal, hd]
      simp [he, listLength, dictDelete, hf]
      rw [he] at hf
      simp [dictDelete, hf]
    · have : ¬ listLength (clients.erase c) = 0 := by
        simpa [listLength] using he
      simp [he, this]
  have hdd : dictDelete (s.client c).pubsub_channels channel =
      some ((s.client c).pubsub_channels.filter (fun e => decide (e.1 ≠ channel))) := by
    simp [dictDelete, h]
  simp only [pubsubUnsubscribeChannel, hdd, setClient_server, hd, hln, hdel, hidx]
  simp [stateAfterUnsubscribe, frame3, addReply, addReplyBulk, addReplyLongLong,
    shared.mbulkhdr, shared.unsubscribebulk]

/-! ### Patterns -/

theorem pubsubSubscribePattern_of_has {s : State} {c : Nat} {pattern : robj}
    (h : pattern ∈ (s.client c).pubsub_patterns) :
    pubsubSubscribePattern s c pattern =
      { retval := 0
        out := frame3 c (Reply.bulk "psubscribe") (Reply.bulk pattern)
          (Reply.longlong (clientSubscriptionsCount (s.client c)))
        st := s } := by
  obtain ⟨ln, hln⟩ := listSearchKey_isSome_of_mem listMatchObjects_iff h
  simp [pubsubSubscribePattern, hln, frame3, addReply, addReplyBulk, addReplyLongLong,
    shared.mbulkhdr, shared.psubscribebulk]

theorem pubsubSubscribePattern_of_not_has {s : State} {c : Nat} {pattern : robj}
    (h : pattern ∉ (s.client c).pubsub_patterns) :
    pubsubSubscribePattern s c pattern =
      { retval := 1
        out := frame3 c (Reply.bulk "psubscribe") (Reply.bulk pattern)
          (Reply.longlong (clientSubscriptionsCount (s.client c) + 1))
        st := stateAfterPsubscribe s c pattern } := by
  have hln := (listSearchKey_eq_none_iff listMatchObjects_iff _ _).2 h
  simp only [pubsubSubscribePattern, hln, setClient_server]
  simp [stateAfterPsubscribe, frame3, addReply, addReplyBulk, addReplyLongLong,
    shared.mbulkhdr, shared.psubscribebulk, clientSubscriptionsCount, dictSize, listLength,
    listAddNodeTail]
  omega

theorem pubsubUnsubscribePattern_of_not_has {s : State} {c : Nat} {pattern : robj}
    (notify : Bool) (h : pattern ∉ (s.client c).pubsub_patterns) :
    pubsubUnsubscribePattern s c pattern notify =
      some
        { retval := 0
          out := if notify then
              frame3 c (Reply.bulk "punsubscribe") (Reply.bulk pattern)
                (Reply.longlong (clientSubscriptionsCount (s.client c)))
            else []
          st := s } := by
  have hln := (listSearchKey_eq_none_iff listMatchObjects_iff _ _).2 h
  simp [pubsubUnsubscribePattern, hln, frame3, addReply, addReplyBulk, addReplyLongLong,
    shared.mbulkhdr, shared.punsubscribebulk]

theorem pubsubUnsubscribePattern_of_has {s : State} {c : Nat} {pattern : robj}
    (notify : Bool) (h : pattern ∈ (s.client c).pubsub_patterns)
    (hg : ({ client := c, pattern := pattern } : pubsubPattern) ∈ s.server.pubsub_patterns) :
    pubsubUnsubscribePattern s c pattern notify =
      some
        { retval := 1
          out := if notify then
              frame3 c (Reply.bulk "punsubscribe") (Reply.bulk pattern)
                (Reply.longlong
                  (clientSubscriptionsCount ((stateAfterPunsubscribe s c pattern).client c)))
            else []
          st := stateAfterPunsubscribe s c pattern } := by
  obtain ⟨ln, hln⟩ := listSearchKey_isSome_of_mem listMatchObjects_iff h
  obtain ⟨ln2, hln2⟩ := listSearchKey_isSome_of_mem listMatchPubsubPattern_iff hg
  have hdel := listDelNode_of_search listMatchObjects_iff hln
  have hdel2 := listDelNode_of_search listMatchPubsubPattern_iff hln2
  simp only [pubsubUnsubscribePattern, hln, setClient_server, hln2, hdel, hdel2]
  simp [stateAfterPunsubscribe, frame3, addReply, addReplyBulk, addReplyLongLong,
    shared.mbulkhdr, shared.punsubscribebulk]

/-! ## The invariant and its preservation -/

theorem Inv_init : Inv State.init := by
  constructor <;> simp [State.init, dictKeys, dictFind]

theorem dictFind_unit_append (d : dict Unit) (channel k : robj) :
    dictFind (d ++ [(channel, ())]) k = some () ↔ (dictFind d k = some () ∨ k = channel) := by
  cases hk : dictFind d k with
  | some u => simp [dictFind_append_of_some _ hk]
  | none =>
    rw [dictFind_append_of_none _ hk]
    by_cases h : channel = k
    · simp [dictFind, h]
    · have h2 : ¬ k = channel := fun e => h e.symm
      simp [dictFind, h, h2]

theorem Inv_subscribeChannel {s : State} (hs : Inv s) (c : Nat) (channel : robj) :
    Inv (pubsubSubscribeChannel s c channel).st := by
  cases h : dictFind (s.client c).pubsub_channels channel with
  | some u => rw [pubsubSubscribeChannel_of_has h]; exact hs
  | none =>
    rw [pubsubSubscribeChannel_of_not_has h]
    have hnot : ∀ l, dictFind s.server.pubsub_channels channel = some l → c ∉ l := by
      intro l hl hc
      have := (hs.chan_iff c channel).2 ⟨l, hl, hc⟩
      rw [h] at this
      cases this
    constructor
    · intro x
      by_cases hx : x = c
      · subst hx
        simp only [setServer_client, setClient_client_same, dictKeys_append]
        exact List.Nodup.append (hs.client_keys x) (List.nodup_singleton _)
          (by simpa using (dictFind_eq_none_iff _ _).1 h)
      · simp only [setServer_client, setClient_client_other _ _ hx]
        exact hs.client_keys x
    · simp only [setServer_server, dictKeys_indexAfterSubscribe]
      split
      · exact hs.server_keys
      · next hk =>
        exact List.Nodup.append hs.server_keys (List.nodup_singleton _) (by simpa using hk)
    · intro x name
      simp only [setServer_server, setServer_client, dictFind_indexAfterSubscribe]
      by_cases hx : x = c
      · subst hx
        simp only [setClient_client_same, dictFind_unit_append]
        by_cases hn : name = channel
        · subst hn
          simp
        · simp only [hn, or_false, if_false]
          exact hs.chan_iff x name
      · simp only [setClient_client_other _ _ hx]
        by_cases hn : name = channel
        · subst hn
          simp only [if_true, Option.some.injEq, exists_eq_left', List.mem_append,
            List.mem_singleton, hx, or_false]
          rw [hs.chan_iff x name]
          cases hd : dictFind s.server.pubsub_channels name <;> simp
        · simp only [hn, if_false]
          exact hs.chan_iff x name
    · intro name l
      simp only [setServer_server, dictFind_indexAfterSubscribe]
      by_cases hn : name = channel
      · simp only [hn, if_true, Option.some.injEq]
        rintro rfl
        simp
      · simp only [hn, if_false]
        exact hs.nonempty name l
    · intro name l
      simp only [setServer_server, dictFind_indexAfterSubscribe]
      by_cases hn : name = channel
      · simp only [hn, if_true, Option.some.injEq]
        rintro rfl
        cases hd : dictFind s.server.pubsub_channels channel with
        | none => simp
        | some l0 =>
          simp only [Option.getD_some]
          exact List.Nodup.append (hs.subs_nodup _ _ hd) (List.nodup_singleton _)
            (by simpa using hnot l0 hd)
      · simp only [hn, if_false]
        exact hs.subs_nodup name l
    · intro x
      by_cases hx : x = c
      · subst hx
        simpa using hs.pats_nodup x
      · simp only [setServer_client, setClient_client_other _ _ hx]
        exact hs.pats_nodup x
    · exact hs.gpats_nodup
    · intro x p
      by_cases hx : x = c
      · subst hx
        simpa using hs.pat_iff x p
      · simp only [setServer_client, setClient_client_other _ _ hx]
        exact hs.pat_iff x p

theorem Inv_stateAfterUnsubscribe {s : State} (hs : Inv s) {c : Nat} {channel : robj}
    {clients : List Nat} (hd : dictFind s.server.pubsub_channels channel = some clients)
    (hc : c ∈ clients) : Inv (stateAfterUnsubscribe s c channel clients) := by
  have hnd : clients.Nodup := hs.subs_nodup _ _ hd
  have hcl : ∀ x, (stateAfterUnsubscribe s c channel clients).client x =
      if x = c then
        { s.client c with
          pubsub_channels :=
            (s.client c).pubsub_channels.filter (fun e => decide (e.1 ≠ channel)) }
      else s.client x := fun x => rfl
  have hsrv : (stateAfterUnsubscribe s c channel clients).server =
      { s.server with
        pubsub_channels := indexAfterUnsubscribe s.server.pubsub_channels channel clients c } :=
    rfl
  constructor
  · intro x
    rw [hcl]
    by_cases hx : x = c
    · subst hx
      simp only [if_true, dictKeys_filter]
      exact (hs.client_keys x).filter _
    · simp only [hx, if_false]
      exact hs.client_keys x
  · rw [hsrv]
    simp only [dictKeys_indexAfterUnsubscribe]
    split
    · exact hs.server_keys.filter _
    · exact hs.server_keys
  · intro x name
    rw [hcl, hsrv]
    simp only [dictFind_indexAfterUnsubscribe hd]
    by_cases hn : name = channel
    · subst hn
      by_cases hx : x = c
      · subst hx
        simp only [if_true, dictFind_filter]
        constructor
        · intro h
          cases h
        · rintro ⟨l, hl, hxl⟩
          exfalso
          split at hl
          · cases hl
          · cases hl
            exact (List.Nodup.mem_erase_iff hnd).1 hxl |>.1 rfl
      · simp only [hx, if_false, if_true]
        rw [hs.chan_iff x name, hd]
        constructor
        · rintro ⟨l, hl, hxl⟩
          cases hl
          have hmem : x ∈ clients.erase c := (List.mem_erase_of_ne hx).2 hxl
          have hne : clients.erase c ≠ [] := List.ne_nil_of_mem hmem
          exact ⟨clients.erase c, by simp [hne], hmem⟩
        · rintro ⟨l, hl, hxl⟩
          split at hl
          · cases hl
          · cases hl
            exact ⟨clients, rfl, List.mem_of_mem_erase hxl⟩
    · simp only [hn, if_false]
      by_cases hx : x = c
      · subst hx
        simp only [if_true, dictFind_filter, hn, if_false]
        exact hs.chan_iff x name
      · simp only [hx, if_false]
        exact hs.chan_iff x name
  · intro name l
    rw [hsrv]
    simp only [dictFind_indexAfterUnsubscribe hd]
    by_cases hn : name = channel
    · simp only [hn, if_true]
      intro hl
      split at hl
      · cases hl
      · next he =>
        cases hl
        exact he
    · simp only [hn, if_false]
      exact hs.nonempty name l
  · intro name l
    rw [hsrv]
    simp only [dictFind_indexAfterUnsubscribe hd]
    by_cases hn : name = channel
    · simp only [hn, if_true]
      intro hl
      split at hl
      · cases hl
      · cases hl
        exact hnd.erase c
    · simp only [hn, if_false]
      exact hs.subs_nodup name l
  · intro x
    rw [hcl]
    by_cases hx : x = c
    · subst hx
      simpa using hs.pats_nodup x
    · simp only [hx, if_false]
      exact hs.pats_nodup x
  · exact hs.gpats_nodup
  · intro x p
    rw [hcl, hsrv]
    by_cases hx : x = c
    · subst hx
      simpa using hs.pat_iff x p
    · simp only [hx, if_false]
      exact hs.pat_iff x p

/-- In a consistent state `pubsubUnsubscribeChannel` does not abort, and is
either the no-op of a client that is not subscribed or the removal of the
client from the channel's list. -/
theorem pubsubUnsubscribeChannel_cases {s : State} (hs : Inv s) (c : Nat) (channel : robj)
    (notify : Bool) :
    (dictFind (s.client c).pubsub_channels channel = none ∧
      pubsubUnsubscribeChannel s c channel notify =
        some
          { retval := 0
            out := if notify then
                frame3 c (Reply.bulk "unsubscribe") (Reply.bulk channel)
                  (Reply.longlong (clientSubscriptionsCount (s.client c)))
              else []
            st := s }) ∨
    (∃ clients, dictFind (s.client c).pubsub_channels channel = some () ∧
      dictFind s.server.pubsub_channels channel = some clients ∧ c ∈ clients ∧
      pubsubUnsubscribeChannel s c channel notify =
        some
          { retval := 1
            out := if notify then
                frame3 c (Reply.bulk "unsubscribe") (Reply.bulk channel)
                  (Reply.longlong
                    (clientSubscriptionsCount
                      ((stateAfterUnsubscribe s c channel clients).client c)))
              else []
            st := stateAfterUnsubscribe s c channel clients }) := by
  cases h : dictFind (s.client c).pubsub_channels channel with
  | none => exact Or.inl ⟨rfl, pubsubUnsubscribeChannel_of_not_has notify h⟩
  | some u =>
    obtain ⟨l, hl, hc⟩ := (hs.chan_iff c channel).1 h
    exact Or.inr ⟨l, rfl, hl, hc, pubsubUnsubscribeChannel_of_has notify h hl hc⟩

theorem Inv_unsubscribeChannel {s : State} (hs : Inv s) {c : Nat} {channel : robj}
    {notify : Bool} {r : Result} (h : pubsubUnsubscribeChannel s c channel notify = some r) :
    Inv r.st := by
  rcases pubsubUnsubscribeChannel_cases hs c channel notify with ⟨_, h2⟩ | ⟨l, _, hl, hc, h2⟩
  · rw [h2] at h
    cases h
    exact hs
  · rw [h2] at h
    cases h
    exact Inv_stateAfterUnsubscribe hs hl hc

theorem Inv_subscribePattern {s : State} (hs : Inv s) (c : Nat) (pattern : robj) :
    Inv (pubsubSubscribePattern s c pattern).st := by
  by_cases h : pattern ∈ (s.client c).pubsub_patterns
  · rw [pubsubSubscribePattern_of_has h]
    exact hs
  · rw [pubsubSubscribePattern_of_not_has h]
    have hcl : ∀ x, (stateAfterPsubscribe s c pattern).client x =
        if x = c then
          { s.client c with pubsub_patterns := (s.client c).pubsub_patterns ++ [pattern] }
        else s.client x := fun x => rfl
    have hsrv : (stateAfterPsubscribe s c pattern).server =
        { s.server with
          pubsub_patterns :=
            s.server.pubsub_patterns ++ [{ client := c, pattern := pattern }] } := rfl
    have hg : ({ client := c, pattern := pattern } : pubsubPattern) ∉
        s.server.pubsub_patterns := fun hm => h ((hs.pat_iff c pattern).2 hm)
    constructor
    · intro x
      rw [hcl]
      by_cases hx : x = c
      · subst hx
        simpa using hs.client_keys x
      · simp only [hx, if_false]
        exact hs.client_keys x
    · exact hs.server_keys
    · intro x name
      rw [hcl, hsrv]
      by_cases hx : x = c
      · subst hx
        simpa using hs.chan_iff x name
      · simp only [hx, if_false]
        exact hs.chan_iff x name
    · exact hs.nonempty
    · exact hs.subs_nodup
    · intro x
      rw [hcl]
      by_cases hx : x = c
      · subst hx
        simp only [if_true]
        exact List.Nodup.append (hs.pats_nodup x) (List.nodup_singleton _) (by simpa using h)
      · simp only [hx, if_false]
        exact hs.pats_nodup x
    · rw [hsrv]
      exact List.Nodup.append hs.gpats_nodup (List.nodup_singleton _) (by simpa using hg)
    · intro x p
      rw [hcl, hsrv]
      by_cases hx : x = c
      · subst hx
        simp only [if_true, List.mem_append, List.mem_singleton, hs.pat_iff x p,
          pubsubPattern.mk.injEq, true_and]
      · simp only [hx, if_false, List.mem_append, List.mem_singleton, hs.pat_iff x p,
          pubsubPattern.mk.injEq, false_and, or_false]

theorem Inv_stateAfterPunsubscribe {s : State} (hs : Inv s) (c : Nat) (pattern : robj) :
    Inv (stateAfterPunsubscribe s c pattern) := by
  have hcl : ∀ x, (stateAfterPunsubscribe s c pattern).client x =
      if x = c then
        { s.client c with pubsub_patterns := (s.client c).pubsub_patterns.erase pattern }
      else s.client x := fun x => rfl
  have hsrv : (stateAfterPunsubscribe s c pattern).server =
      { s.server with
        pubsub_patterns :=
          s.server.pubsub_patterns.erase { client := c, pattern := pattern } } := rfl
  constructor
  · intro x
    rw [hcl]
    by_cases hx : x = c
    · subst hx
      simpa using hs.client_keys x
    · simp only [hx, if_false]
      exact hs.client_keys x
  · exact hs.server_keys
  · intro x name
    rw [hcl, hsrv]
    by_cases hx : x = c
    · subst hx
      simpa using hs.chan_iff x name
    · simp only [hx, if_false]
      exact hs.chan_iff x name
  · exact hs.nonempty
  · exact hs.subs_nodup
  · intro x
    rw [hcl]
    by_cases hx : x = c
    · subst hx
      simp only [if_true]
      exact (hs.pats_nodup x).erase _
    · simp only [hx, if_false]
      exact hs.pats_nodup x
  · rw [hsrv]
    exact hs.gpats_nodup.erase _
  · intro x p
    rw [hcl, hsrv]
    by_cases hx : x = c
    · subst hx
      simp only [if_true, List.Nodup.mem_erase_iff (hs.pats_nodup x),
        List.Nodup.mem_erase_iff hs.gpats_nodup, hs.pat_iff x p, ne_eq,
        pubsubPattern.mk.injEq, true_and]
    · simp only [hx, if_false, List.Nodup.mem_erase_iff hs.gpats_nodup, hs.pat_iff x p, ne_eq,
        pubsubPattern.mk.injEq, false_and, not_false_eq_true, true_and]

/-- In a consistent state `pubsubUnsubscribePattern` does not abort, and is
either the no-op of a client that does not hold the pattern or the removal of
the pattern from both lists. -/
theorem pubsubUnsubscribePattern_cases {s : State} (hs : Inv s) (c : Nat) (pattern : robj)
    (notify : Bool) :
    (pattern ∉ (s.client c).pubsub_patterns ∧
      pubsubUnsubscribePattern s c pattern notify =
        some
          { retval := 0
            out := if notify then
                frame3 c (Reply.bulk "punsubscribe") (Reply.bulk pattern)
                  (Reply.longlong (clientSubscriptionsCount (s.client c)))
              else []
            st := s }) ∨
    (pattern ∈ (s.client c).pubsub_patterns ∧
      pubsubUnsubscribePattern s c pattern notify =
        some
          { retval := 1
            out := if notify then
                frame3 c (Reply.bulk "punsubscribe") (Reply.bulk pattern)
                  (Reply.longlong
                    (clientSubscriptionsCount ((stateAfterPunsubscribe s c pattern).client c)))
              else []
            st := stateAfterPunsubscribe s c pattern }) := by
  by_cases h : pattern ∈ (s.client c).pubsub_patterns
  · exact Or.inr ⟨h, pubsubUnsubscribePattern_of_has notify h ((hs.pat_iff c pattern).1 h)⟩
  · exact Or.inl ⟨h, pubsubUnsubscribePattern_of_not_has notify h⟩

theorem Inv_unsubscribePattern {s : State} (hs : Inv s) {c : Nat} {pattern : robj}
    {notify : Bool} {r : Result} (h : pubsubUnsubscribePattern s c pattern notify = some r) :
    Inv r.st := by
  rcases pubsubUnsubscribePattern_cases hs c pattern notify with ⟨_, h2⟩ | ⟨_, h2⟩
  · rw [h2] at h
    cases h
    exact hs
  · rw [h2] at h
    cases h
    exact Inv_stateAfterPunsubscribe hs c pattern

theorem Inv_unsubscribeChannelsLoop {c : Nat} {notify : Bool} (keys : List robj) :
    ∀ {s : State}, Inv s → ∀ {count : Nat} {out : Output} {s2 : State},
      unsubscribeChannelsLoop c notify keys s = some (count, out, s2) → Inv s2 := by
  induction keys with
  | nil =>
    intro s hs count out s2 h
    simp only [unsubscribeChannelsLoop, Option.some.injEq, Prod.mk.injEq] at h
    obtain ⟨-, -, rfl⟩ := h
    exact hs
  | cons k rest ih =>
    intro s hs count out s2 h
    simp only [unsubscribeChannelsLoop] at h
    cases h1 : pubsubUnsubscribeChannel s c k notify with
    | none => simp [h1] at h
    | some r =>
      simp only [h1] at h
      cases h2 : unsubscribeChannelsLoop c notify rest r.st with
      | none => simp [h2] at h
      | some t =>
        obtain ⟨n, o, s3⟩ := t
        simp only [h2, Option.some.injEq, Prod.mk.injEq] at h
        obtain ⟨-, -, rfl⟩ := h
        exact ih (Inv_unsubscribeChannel hs h1) h2

theorem Inv_unsubscribePatternsLoop {c : Nat} {notify : Bool} (pats : List robj) :
    ∀ {s : State}, Inv s → ∀ {count : Nat} {out : Output} {s2 : State},
      unsubscribePatternsLoop c notify pats s = some (count, out, s2) → Inv s2 := by
  induction pats with
  | nil =>
    intro s hs count out s2 h
    simp only [unsubscribePatternsLoop, Option.some.injEq, Prod.mk.injEq] at h
    obtain ⟨-, -, rfl⟩ := h
    exact hs
  | cons k rest ih =>
    intro s hs count out s2 h
    simp only [unsubscribePatternsLoop] at h
    cases h1 : pubsubUnsubscribePattern s c k notify with
    | none => simp [h1] at h
    | some r =>
      simp only [h1] at h
      cases h2 : unsubscribePatternsLoop c notify rest r.st with
      | none => simp [h2] at h
      | some t =>
        obtain ⟨n, o, s3⟩ := t
        simp only [h2, Option.some.injEq, Prod.mk.injEq] at h
        obtain ⟨-, -, rfl⟩ := h
        exact ih (Inv_unsubscribePattern hs h1) h2

theorem pubsubPublishMessage_st (m : robj → robj → Bool) (s : State) (channel message : robj) :
    (pubsubPublishMessage m s channel message).st = s := rfl

theorem Inv_exec {m : robj → robj → Bool} {s : State} (hs : Inv s) {call : Call} {r : Result}
    (h : call.exec m s = some r) : Inv r.st := by
  cases call with
  | subscribe_channel c channel =>
    simp only [Call.exec, Option.some.injEq] at h
    subst h
    exact Inv_subscribeChannel hs c channel
  | unsubscribe_channel c channel notify => exact Inv_unsubscribeChannel hs h
  | subscribe_pattern c pattern =>
    simp only [Call.exec, Option.some.injEq] at h
    subst h
    exact Inv_subscribePattern hs c pattern
  | unsubscribe_pattern c pattern notify => exact Inv_unsubscribePattern hs h
  | unsubscribe_all_channels c notify =>
    simp only [Call.exec, pubsubUnsubscribeAllChannels] at h
    cases h1 : unsubscribeChannelsLoop c notify (dictKeys (s.client c).pubsub_channels) s with
    | none => simp [h1] at h
    | some t =>
      obtain ⟨n, o, s3⟩ := t
      simp only [h1, Option.some.injEq] at h
      subst h
      exact Inv_unsubscribeChannelsLoop _ hs h1
  | unsubscribe_all_patterns c notify =>
    simp only [Call.exec, pubsubUnsubscribeAllPatterns] at h
    cases h1 : unsubscribePatternsLoop c notify (s.client c).pubsub_patterns s with
    | none => simp [h1] at h
    | some t =>
      obtain ⟨n, o, s3⟩ := t
      simp only [h1, Option.some.injEq] at h
      subst h
      exact Inv_unsubscribePatternsLoop _ hs h1
  | publish channel message =>
    simp only [Call.exec, Option.some.injEq] at h
    subst h
    exact hs

theorem Inv_run {m : robj → robj → Bool} (calls : List Call) :
    ∀ {s s2 : State}, Inv s → run m s calls = some s2 → Inv s2 := by
  induction calls with
  | nil =>
    intro s s2 hs h
    simp only [run, Option.some.injEq] at h
    subst h
    exact hs
  | cons call rest ih =>
    intro s s2 hs h
    simp only [run] at h
    cases h1 : call.exec m s with
    | none => simp [h1] at h
    | some r =>
      simp only [h1] at h
      exact ih (Inv_exec hs h1) h

/-- Every reachable state is consistent. -/
theorem Inv_of_reachable {m : robj → robj → Bool} {s : State} (h : Reachable m s) : Inv s := by
  obtain ⟨calls, hc⟩ := h
  exact Inv_run calls Inv_init hc

/-! ## Publishing -/

theorem publishToClients_eq (channel message : robj) (l : List Nat) (acc : Nat × Output) :
    publishToClients channel message l acc =
      (acc.1 + l.length, acc.2 ++ l.flatMap (messageFrame channel message)) := by
  induction l generalizing acc with
  | nil => simp [publishToClients]
  | cons c rest ih =>
    obtain ⟨receivers, out⟩ := acc
    simp only [publishToClients, ih, List.length_cons, List.flatMap_cons]
    simp [messageFrame, frame3, addReply, addReplyBulk, shared.mbulkhdr, shared.messagebulk]
    omega

theorem publishToPatterns_eq (m : robj → robj → Bool) (channel message : robj)
    (l : List pubsubPattern) (acc : Nat × Output) :
    publishToPatterns m channel message l acc =
      (acc.1 + (l.filter (fun pat => m pat.pattern channel)).length,
        acc.2 ++ (l.filter (fun pat => m pat.pattern channel)).flatMap
          (pmessageFrame channel message)) := by
  induction l generalizing acc with
  | nil => simp [publishToPatterns]
  | cons pat rest ih =>
    obtain ⟨receivers, out⟩ := acc
    by_cases hm : m pat.pattern channel = true
    · simp only [publishToPatterns, hm, if_true, ih, List.filter_cons, List.length_cons,
        List.flatMap_cons]
      simp [pmessageFrame, frame4, addReply, addReplyBulk, shared.mbulkhdr,
        shared.pmessagebulk]
      omega
    · simp only [publishToPatterns, hm, if_false, ih, List.filter_cons]
      simp

theorem pubsubPublishMessage_eq (m : robj → robj → Bool) (s : State) (channel message : robj) :
    pubsubPublishMessage m s channel message =
      { retval := (subscribers s channel).length + (matchingPatterns m s channel).length
        out := (subscribers s channel).flatMap (messageFrame channel message) ++
          (matchingPatterns m s channel).flatMap (pmessageFrame channel message)
        st := s } := by
  have h1 : (match dictFind s.server.pubsub_channels channel with
      | some list => publishToClients channel message list ((0, []) : Nat × Output)
      | none => (0, [])) =
      ((subscribers s channel).length,
        (subscribers s channel).flatMap (messageFrame channel message)) := by
    unfold subscribers
    cases dictFind s.server.pubsub_channels channel with
    | none => simp
    | some l => simp [publishToClients_eq]
  simp only [pubsubPublishMessage, h1, publishToPatterns_eq, matchingPatterns]
  by_cases h0 : listLength s.server.pubsub_patterns = 0
  · have : s.server.pubsub_patterns = [] := List.length_eq_zero.1 h0
    simp [this, listLength]
  · simp [h0]

theorem exampleState_reachable (m : robj → robj → Bool) : Reachable m exampleState :=
  ⟨[Call.subscribe_channel 1 "news", Call.subscribe_pattern 2 "new*"], rfl⟩

/-- C1: `pubsubPublishMessage` emits, in this order and nothing else, one
`["message", channel, message]` frame to each client of the subscriber list of
`channel` (none when the channel is absent), in the order of that list, then one
`["pmessage", pattern, channel, message]` frame to the owner of each record of
the global pattern list whose pattern the matcher accepts against `channel`, in
the order of the global list.  Scenario: with `A` subscribed to `news` and `B`
to the pattern `new*`, publishing `hello` on `news` sends the `message` frame to
`A` and then the `pmessage` frame to `B`. -/
theorem pubsubPublishMessage_frames (stringmatchlen : robj → robj → Bool) (s : State)
    (channel message : robj) (A B : Nat) :
    (pubsubPublishMessage stringmatchlen s channel message).out =
        (subscribers s channel).flatMap
          (fun c => frame3 c (Reply.bulk "message") (Reply.bulk channel) (Reply.bulk message)) ++
        (s.server.pubsub_patterns.filter
          (fun pat => stringmatchlen pat.pattern channel)).flatMap
          (fun pat => frame4 pat.client (Reply.bulk "pmessage") (Reply.bulk pat.pattern)
            (Reply.bulk channel) (Reply.bulk message)) ∧
    (stringmatchlen "new*" "news" = true →
      (pubsubPublishMessage stringmatchlen
        (pubsubSubscribePattern (pubsubSubscribeChannel State.init A "news").st B "new*").st
        "news" "hello").out =
        frame3 A (Reply.bulk "message") (Reply.bulk "news") (Reply.bulk "hello") ++
        frame4 B (Reply.bulk "pmessage") (Reply.bulk "new*") (Reply.bulk "news")
          (Reply.bulk "hello")) := by
  refine ⟨by rw [pubsubPublishMessage_eq]; rfl, fun hm => ?_⟩
  rw [pubsubPublishMessage_eq]
  have hA : dictFind (State.init.client A).pubsub_channels "news" = none := rfl
  have hB : "new*" ∉ ((pubsubSubscribeChannel State.init A "news").st.client B).pubsub_patterns := by
    rw [pubsubSubscribeChannel_of_not_has hA]
    by_cases hAB : B = A <;> simp [State.setClient, State.setServer, State.init, hAB]
  rw [pubsubSubscribePattern_of_not_has hB, pubsubSubscribeChannel_of_not_has hA]
  simp [subscribers, matchingPatterns, stateAfterPsubscribe, State.setServer, State.setClient,
    State.init, indexAfterSubscribe, dictFind, hm, messageFrame, pmessageFrame]

theorem pubsubPublishMessage_frames_witness :
    exampleMatcher "new*" "news" = true ∧
    (pubsubPublishMessage exampleMatcher exampleState "news" "hello").out =
      frame3 1 (Reply.bulk "message") (Reply.bulk "news") (Reply.bulk "hello") ++
      frame4 2 (Reply.bulk "pmessage") (Reply.bulk "new*") (Reply.bulk "news")
        (Reply.bulk "hello") :=
  ⟨by decide, (pubsubPublishMessage_frames exampleMatcher State.init "" "" 1 2).2 (by decide)⟩

theorem framesSentTo_append (c : Nat) (o1 o2 : Output) :
    framesSentTo c (o1 ++ o2) = framesSentTo c o1 + framesSentTo c o2 := by
  simp [framesSentTo, List.countP_append]

theorem framesSentTo_messages (channel message : robj) (c : Nat) (l : List Nat) :
    framesSentTo c (l.flatMap (messageFrame channel message)) = l.count c := by
  induction l with
  | nil => rfl
  | cons x rest ih =>
    rw [List.flatMap_cons, framesSentTo_append, ih, List.count_cons]
    by_cases hx : x = c
    · subst hx
      simp [framesSentTo, messageFrame, frame3, List.countP_cons, Nat.add_comm]
    · simp [framesSentTo, messageFrame, frame3, List.countP_cons, hx]

theorem framesSentTo_pmessages (channel message : robj) (c : Nat) (l : List pubsubPattern) :
    framesSentTo c (l.flatMap (pmessageFrame channel message)) =
      (l.filter (fun pat => decide (pat.client = c))).length := by
  induction l with
  | nil => rfl
  | cons x rest ih =>
    rw [List.flatMap_cons, framesSentTo_append, ih, List.filter_cons]
    by_cases hx : x.client = c
    · simp [framesSentTo, pmessageFrame, frame4, List.countP_cons, hx, Nat.add_comm]
    · simp [framesSentTo, pmessageFrame, frame4, List.countP_cons, hx]

theorem has_channel_iff (s : State) (c : Nat) (name : robj) :
    has_channel s c name = true ↔ dictFind (s.client c).pubsub_channels name = some () := by
  unfold has_channel
  cases dictFind (s.client c).pubsub_channels name <;> simp

theorem mem_subscribers_iff (s : State) (c : Nat) (name : robj) :
    c ∈ subscribers s name ↔ ∃ l, dictFind s.server.pubsub_channels name = some l ∧ c ∈ l := by
  unfold subscribers
  cases dictFind s.server.pubsub_channels name <;> simp

theorem subscribers_nodup {s : State} (hs : Inv s) (name : robj) :
    (subscribers s name).Nodup := by
  unfold subscribers
  cases h : dictFind s.server.pubsub_channels name with
  | none => simp
  | some l => simpa using hs.subs_nodup name l h

theorem subscriber_count_eq (s : State) (name : robj) :
    subscriber_count s name = (subscribers s name).length := by
  unfold subscriber_count subscribers
  cases dictFind s.server.pubsub_channels name <;> simp [listLength]

/-- C2: the value returned by `pubsubPublishMessage` is the length of the
subscriber list of the channel (0 when the channel is absent) plus the number of
records of the global pattern list whose pattern matches the channel, without
de-duplication: in a reachable state a client that is subscribed to the channel
and owns `k` matching pattern records occurs once in the subscriber list, is
counted `1 + k` times and is sent `1 + k` frames. -/
theorem pubsubPublishMessage_receivers (stringmatchlen : robj → robj → Bool) (s : State)
    (channel message : robj) (c : Nat) :
    (pubsubPublishMessage stringmatchlen s channel message).retval =
        subscriber_count s channel +
        (s.server.pubsub_patterns.filter
          (fun pat => stringmatchlen pat.pattern channel)).length ∧
    (Reachable stringmatchlen s → has_channel s c channel = true →
      (subscribers s channel).count c = 1 ∧
      framesSentTo c (pubsubPublishMessage stringmatchlen s channel message).out =
        1 + (s.server.pubsub_patterns.filter
          (fun pat => stringmatchlen pat.pattern channel && decide (pat.client = c))).length) := by
  rw [pubsubPublishMessage_eq]
  refine ⟨by simp [subscriber_count_eq, matchingPatterns], fun hr hc => ?_⟩
  have hs := Inv_of_reachable hr
  have hmem : c ∈ subscribers s channel :=
    (mem_subscribers_iff s c channel).2
      ((hs.chan_iff c channel).1 ((has_channel_iff s c channel).1 hc))
  have hcount := List.count_eq_one_of_mem (subscribers_nodup hs channel) hmem
  refine ⟨hcount, ?_⟩
  simp only [framesSentTo_append, framesSentTo_messages, framesSentTo_pmessages, hcount,
    matchingPatterns, List.filter_filter]
  congr 3
  funext pat
  exact Bool.and_comm _ _

theorem exampleStateBoth_reachable (m : robj → robj → Bool) : Reachable m exampleStateBoth :=
  ⟨[Call.subscribe_channel 1 "news", Call.subscribe_pattern 2 "new*",
    Call.subscribe_pattern 1 "new*"], rfl⟩

theorem pubsubPublishMessage_receivers_witness :
    Reachable exampleMatcher exampleStateBoth ∧ has_channel exampleStateBoth 1 "news" = true ∧
    (subscribers exampleStateBoth "news").count 1 = 1 ∧
    framesSentTo 1 (pubsubPublishMessage exampleMatcher exampleStateBoth "news" "hello").out =
      1 + (exampleStateBoth.server.pubsub_patterns.filter
        (fun pat => exampleMatcher pat.pattern "news" && decide (pat.client = 1))).length :=
  ⟨exampleStateBoth_reachable exampleMatcher, by decide,
    (pubsubPublishMessage_receivers exampleMatcher exampleStateBoth "news" "hello" 1).2
      (exampleStateBoth_reachable exampleMatcher) (by decide)⟩

/-- C3 (invariant I1): in every state reachable from the start-up state by
subscribe, unsubscribe, pattern subscribe, pattern unsubscribe, unsubscribe-all
and publish calls of arbitrary clients, channel `name` is in the membership set
of client `c` if and only if `c` appears in the subscriber list of `name` in
the global channel index. -/
theorem reachable_channel_membership_iff (stringmatchlen : robj → robj → Bool) (s : State)
    (h : Reachable stringmatchlen s) (c : Nat) (name : robj) :
    has_channel s c name = true ↔ c ∈ subscribers s name := by
  rw [has_channel_iff, mem_subscribers_iff]
  exact (Inv_of_reachable h).chan_iff c name

theorem reachable_channel_membership_iff_witness :
    Reachable exampleMatcher exampleState ∧
    (has_channel exampleState 1 "news" = true ↔ 1 ∈ subscribers exampleState "news") :=
  ⟨exampleState_reachable exampleMatcher,
    reachable_channel_membership_iff exampleMatcher exampleState
      (exampleState_reachable exampleMatcher) 1 "news"⟩

/-- C4 (invariant I2): in every reachable state every entry of the global
channel index holds a non-empty subscriber list. -/
theorem reachable_channel_lists_nonempty (stringmatchlen : robj → robj → Bool) (s : State)
    (h : Reachable stringmatchlen s) (name : robj) (clients : List Nat)
    (hmem : (name, clients) ∈ s.server.pubsub_channels) : clients ≠ [] :=
  (Inv_of_reachable h).nonempty name clients
    (dictFind_of_mem (Inv_of_reachable h).server_keys hmem)

theorem reachable_channel_lists_nonempty_witness :
    Reachable exampleMatcher exampleState ∧
    ("news", [1]) ∈ exampleState.server.pubsub_channels ∧ ([1] : List Nat) ≠ [] :=
  ⟨exampleState_reachable exampleMatcher, by decide,
    reachable_channel_lists_nonempty exampleMatcher exampleState
      (exampleState_reachable exampleMatcher) "news" [1] (by decide)⟩

/-- C5 (invariant I3): in every reachable state pattern `p` occurs in the
pattern list of client `c` if and only if the global pattern list contains
exactly one record `(p, c)`, and `p` occurs at most once in the list of `c`. -/
theorem reachable_pattern_membership_iff (stringmatchlen : robj → robj → Bool) (s : State)
    (h : Reachable stringmatchlen s) (c : Nat) (p : robj) :
    (p ∈ (s.client c).pubsub_patterns ↔
      s.server.pubsub_patterns.count { client := c, pattern := p } = 1) ∧
    (s.client c).pubsub_patterns.count p ≤ 1 := by
  have hs := Inv_of_reachable h
  refine ⟨?_, List.nodup_iff_count_le_one.1 (hs.pats_nodup c) p⟩
  rw [hs.pat_iff c p]
  constructor
  · exact List.count_eq_one_of_mem hs.gpats_nodup
  · intro h1
    exact List.count_pos_iff.1 (by omega)

theorem reachable_pattern_membership_iff_witness :
    Reachable exampleMatcher exampleState ∧
    ("new*" ∈ (exampleState.client 2).pubsub_patterns ↔
      exampleState.server.pubsub_patterns.count { client := 2, pattern := "new*" } = 1) ∧
    (exampleState.client 2).pubsub_patterns.count "new*" ≤ 1 :=
  ⟨exampleState_reachable exampleMatcher,
    reachable_pattern_membership_iff exampleMatcher exampleState
      (exampleState_reachable exampleMatcher) 2 "new*"⟩

/-! ## Channel subscription round trip -/

theorem exampleStateOther_reachable (m : robj → robj → Bool) : Reachable m exampleStateOther :=
  ⟨[Call.subscribe_channel 2 "news"], rfl⟩

theorem subscribers_subscribeChannel_of_not_has {s : State} {c : Nat} {channel : robj}
    (h : dictFind (s.client c).pubsub_channels channel = none) (name : robj) :
    subscribers (pubsubSubscribeChannel s c channel).st name =
      if name = channel then subscribers s channel ++ [c] else subscribers s name := by
  rw [pubsubSubscribeChannel_of_not_has h]
  simp only [subscribers, setServer_server, dictFind_indexAfterSubscribe]
  by_cases hn : name = channel <;> simp [hn]

theorem has_channel_subscribeChannel (s : State) (c : Nat) (channel : robj) :
    has_channel (pubsubSubscribeChannel s c channel).st c channel = true := by
  cases h : dictFind (s.client c).pubsub_channels channel with
  | some u =>
    rw [pubsubSubscribeChannel_of_has h, has_channel_iff]
    exact h
  | none =>
    rw [pubsubSubscribeChannel_of_not_has h, has_channel_iff]
    simp only [setServer_client, setClient_client_same, dictFind_unit_append, or_true]

theorem subscribers_stateAfterUnsubscribe {s : State} {c : Nat} {channel : robj}
    {clients : List Nat} (hd : dictFind s.server.pubsub_channels channel = some clients)
    (name : robj) :
    subscribers (stateAfterUnsubscribe s c channel clients) name =
      if name = channel then clients.erase c else subscribers s name := by
  have hsrv : (stateAfterUnsubscribe s c channel clients).server.pubsub_channels =
      indexAfterUnsubscribe s.server.pubsub_channels channel clients c := rfl
  simp only [subscribers, hsrv, dictFind_indexAfterUnsubscribe hd]
  by_cases hn : name = channel
  · simp only [hn, if_true]
    by_cases he : clients.erase c = [] <;> simp [he]
  · simp only [hn, if_false]

theorem has_channel_stateAfterUnsubscribe (s : State) (c : Nat) (channel : robj)
    (clients : List Nat) (x : Nat) (name : robj) :
    has_channel (stateAfterUnsubscribe s c channel clients) x name =
      if x = c ∧ name = channel then false else has_channel s x name := by
  have hcl : (stateAfterUnsubscribe s c channel clients).client x =
      if x = c then
        { s.client c with
          pubsub_channels :=
            (s.client c).pubsub_channels.filter (fun e => decide (e.1 ≠ channel)) }
      else s.client x := rfl
  simp only [has_channel, hcl]
  by_cases hx : x = c
  · subst hx
    simp only [if_true, dictFind_filter, true_and]
    by_cases hn : name = channel <;> simp [hn]
  · simp [hx]

/-- C6, the statement as claimed fails: with client 2 subscribed to `news`,
after client 1 subscribes to `news` and then unsubscribes, `news` still has one
subscriber. -/
theorem channel_roundtrip_count_counterexample :
    Reachable exampleMatcher exampleStateOther ∧
    (pubsubUnsubscribeChannel (pubsubSubscribeChannel exampleStateOther 1 "news").st 1 "news"
      true).map (fun r => (has_channel r.st 1 "news", subscriber_count r.st "news")) =
      some (false, 1) :=
  ⟨exampleStateOther_reachable exampleMatcher, by decide⟩

/-- C6 (amended): in every reachable state, after `pubsubSubscribeChannel` of
`c` to `channel` the client has the channel and the channel has at least one
subscriber; a following `pubsubUnsubscribeChannel` of the same pair succeeds,
after it the client does not have the channel and the subscriber count is the
number of other clients subscribed to the channel, which is zero when no other
client is subscribed. -/
theorem channel_roundtrip (stringmatchlen : robj → robj → Bool) (s : State)
    (h : Reachable stringmatchlen s) (c : Nat) (channel : robj) (notify : Bool) :
    has_channel (pubsubSubscribeChannel s c channel).st c channel = true ∧
    1 ≤ subscriber_count (pubsubSubscribeChannel s c channel).st channel ∧
    ∃ r, pubsubUnsubscribeChannel (pubsubSubscribeChannel s c channel).st c channel notify =
        some r ∧
      has_channel r.st c channel = false ∧
      subscriber_count r.st channel =
        ((subscribers s channel).filter (fun d => decide (d ≠ c))).length ∧
      ((∀ d ∈ subscribers s channel, d = c) → subscriber_count r.st channel = 0) := by
  have hs := Inv_of_reachable h
  have hs1 := Inv_subscribeChannel hs c channel
  have hhas := has_channel_subscribeChannel s c channel
  have hmem1 : c ∈ subscribers (pubsubSubscribeChannel s c channel).st channel :=
    (mem_subscribers_iff _ c channel).2
      ((hs1.chan_iff c channel).1 ((has_channel_iff _ c channel).1 hhas))
  have hfilter : (subscribers (pubsubSubscribeChannel s c channel).st channel).erase c =
      (subscribers s channel).filter (fun d => decide (d ≠ c)) := by
    rw [List.Nodup.erase_eq_filter (subscribers_nodup hs1 channel)]
    have hfun : (fun x : Nat => x != c) = (fun d => decide (d ≠ c)) := by
      funext x
      by_cases hx : x = c <;> simp [hx]
    rw [hfun]
    cases hc : dictFind (s.client c).pubsub_channels channel with
    | some u => rw [pubsubSubscribeChannel_of_has hc]
    | none =>
      rw [subscribers_subscribeChannel_of_not_has hc]
      simp [List.filter_append]
  refine ⟨hhas, ?_, ?_⟩
  · rw [subscriber_count_eq]
    exact List.length_pos_of_mem hmem1
  · rcases pubsubUnsubscribeChannel_cases hs1 c channel notify with
      ⟨hnone, _⟩ | ⟨l, _, hl, _, hres⟩
    · rw [(has_channel_iff _ c channel).1 hhas] at hnone
      cases hnone
    · have hsub : subscribers (pubsubSubscribeChannel s c channel).st channel = l := by
        simp [subscribers, hl]
      have hcount : subscriber_count
          (stateAfterUnsubscribe (pubsubSubscribeChannel s c channel).st c channel l) channel =
          ((subscribers s channel).filter (fun d => decide (d ≠ c))).length := by
        rw [subscriber_count_eq, subscribers_stateAfterUnsubscribe hl, if_pos rfl, ← hsub,
          hfilter]
      refine ⟨_, hres, ?_, hcount, ?_⟩
      · simp [has_channel_stateAfterUnsubscribe]
      · intro hall
        rw [hcount, List.length_eq_zero, List.filter_eq_nil_iff]
        intro d hd
        simp [hall d hd]

theorem channel_roundtrip_witness :
    Reachable exampleMatcher exampleStateOther ∧
    has_channel (pubsubSubscribeChannel exampleStateOther 1 "news").st 1 "news" = true ∧
    1 ≤ subscriber_count (pubsubSubscribeChannel exampleStateOther 1 "news").st "news" ∧
    ∃ r, pubsubUnsubscribeChannel (pubsubSubscribeChannel exampleStateOther 1 "news").st 1
        "news" true = some r ∧
      has_channel r.st 1 "news" = false ∧
      subscriber_count r.st "news" =
        ((subscribers exampleStateOther "news").filter (fun d => decide (d ≠ 1))).length ∧
      ((∀ d ∈ subscribers exampleStateOther "news", d = 1) →
        subscriber_count r.st "news" = 0) :=
  ⟨exampleStateOther_reachable exampleMatcher,
    channel_roundtrip exampleMatcher exampleStateOther
      (exampleStateOther_reachable exampleMatcher) 1 "news" true⟩

/-! ## Subscribing: idempotence, reply frames, order -/

/-- C7: subscribing a pair `(c, channel)` that is already subscribed returns 0
and leaves the whole state (the membership set of `c`, the global channel
index and both pattern lists) unchanged, yet emits exactly one
`["subscribe", channel, count]` frame to `c`; called twice in a row, the second
call changes nothing and emits the same frame as the first. -/
theorem pubsubSubscribeChannel_idempotent (s : State) (c : Nat) (channel : robj) :
    (has_channel s c channel = true →
      pubsubSubscribeChannel s c channel =
        { retval := 0
          out := frame3 c (Reply.bulk "subscribe") (Reply.bulk channel)
            (Reply.longlong
              (dictSize (s.client c).pubsub_channels + listLength (s.client c).pubsub_patterns))
          st := s }) ∧
    (pubsubSubscribeChannel (pubsubSubscribeChannel s c channel).st c channel).retval = 0 ∧
    (pubsubSubscribeChannel (pubsubSubscribeChannel s c channel).st c channel).st =
      (pubsubSubscribeChannel s c channel).st ∧
    (pubsubSubscribeChannel (pubsubSubscribeChannel s c channel).st c channel).out =
      (pubsubSubscribeChannel s c channel).out := by
  have key : ∀ t : State, has_channel t c channel = true →
      pubsubSubscribeChannel t c channel =
        { retval := 0
          out := frame3 c (Reply.bulk "subscribe") (Reply.bulk channel)
            (Reply.longlong
              (dictSize (t.client c).pubsub_channels + listLength (t.client c).pubsub_patterns))
          st := t } := fun t ht =>
    pubsubSubscribeChannel_of_has ((has_channel_iff t c channel).1 ht)
  refine ⟨key s, ?_⟩
  rw [key _ (has_channel_subscribeChannel s c channel)]
  refine ⟨rfl, rfl, ?_⟩
  simp [pubsubSubscribeChannel, frame3, addReply, addReplyBulk, addReplyLongLong,
    shared.mbulkhdr, shared.subscribebulk, clientSubscriptionsCount]

theorem pubsubSubscribeChannel_idempotent_witness :
    has_channel exampleState 1 "news" = true ∧
    pubsubSubscribeChannel exampleState 1 "news" =
      { retval := 0
        out := frame3 1 (Reply.bulk "subscribe") (Reply.bulk "news")
          (Reply.longlong
            (dictSize (exampleState.client 1).pubsub_channels +
              listLength (exampleState.client 1).pubsub_patterns))
        st := exampleState } :=
  ⟨by decide, (pubsubSubscribeChannel_idempotent exampleState 1 "news").1 (by decide)⟩

/-- C9: each of `pubsubSubscribeChannel`, `pubsubUnsubscribeChannel`,
`pubsubSubscribePattern` and `pubsubUnsubscribePattern` emits (the unsubscribe
operations only when `notify` is set) exactly one frame of three elements
`[type, name, count]` to the calling client, where `type` is `subscribe`,
`unsubscribe`, `psubscribe`, `punsubscribe` respectively, `name` is the
argument, and `count` is the size of the channel membership set plus the length
of the pattern list of the client in the state after the operation. -/
theorem notification_frames (stringmatchlen : robj → robj → Bool) (s : State)
    (h : Reachable stringmatchlen s) (c : Nat) (name : robj) (notify : Bool) :
    (pubsubSubscribeChannel s c name).out =
      frame3 c (Reply.bulk "subscribe") (Reply.bulk name)
        (Reply.longlong
          (dictSize ((pubsubSubscribeChannel s c name).st.client c).pubsub_channels +
            listLength ((pubsubSubscribeChannel s c name).st.client c).pubsub_patterns)) ∧
    (pubsubSubscribePattern s c name).out =
      frame3 c (Reply.bulk "psubscribe") (Reply.bulk name)
        (Reply.longlong
          (dictSize ((pubsubSubscribePattern s c name).st.client c).pubsub_channels +
            listLength ((pubsubSubscribePattern s c name).st.client c).pubsub_patterns)) ∧
    (∃ r, pubsubUnsubscribeChannel s c name notify = some r ∧
      r.out = if notify then
          frame3 c (Reply.bulk "unsubscribe") (Reply.bulk name)
            (Reply.longlong
              (dictSize (r.st.client c).pubsub_channels +
                listLength (r.st.client c).pubsub_patterns))
        else []) ∧
    (∃ r, pubsubUnsubscribePattern s c name notify = some r ∧
      r.out = if notify then
          frame3 c (Reply.bulk "punsubscribe") (Reply.bulk name)
            (Reply.longlong
              (dictSize (r.st.client c).pubsub_channels +
                listLength (r.st.client c).pubsub_patterns))
        else []) := by
  have hs := Inv_of_reachable h
  refine ⟨?_, ?_, ?_, ?_⟩
  · simp [pubsubSubscribeChannel, frame3, addReply, addReplyBulk, addReplyLongLong,
      shared.mbulkhdr, shared.subscribebulk, clientSubscriptionsCount]
  · simp [pubsubSubscribePattern, frame3, addReply, addReplyBulk, addReplyLongLong,
      shared.mbulkhdr, shared.psubscribebulk, clientSubscriptionsCount]
  · rcases pubsubUnsubscribeChannel_cases hs c name notify with ⟨_, hres⟩ | ⟨l, _, _, _, hres⟩
    · exact ⟨_, hres, rfl⟩
    · exact ⟨_, hres, rfl⟩
  · rcases pubsubUnsubscribePattern_cases hs c name notify with ⟨_, hres⟩ | ⟨_, hres⟩
    · exact ⟨_, hres, rfl⟩
    · exact ⟨_, hres, rfl⟩

theorem notification_frames_witness :
    Reachable exampleMatcher exampleState ∧
    ∃ r, pubsubUnsubscribeChannel exampleState 1 "news" true = some r ∧
      r.out = if true = true then
          frame3 1 (Reply.bulk "unsubscribe") (Reply.bulk "news")
            (Reply.longlong
              (dictSize (r.st.client 1).pubsub_channels +
                listLength (r.st.client 1).pubsub_patterns))
        else [] :=
  ⟨exampleState_reachable exampleMatcher,
    (notification_frames exampleMatcher exampleState (exampleState_reachable exampleMatcher) 1
      "news" true).2.2.1⟩

/-! ## Unsubscribing from everything -/

theorem frame3_no_nullbulk (c : Nat) (t a : robj) (n : Nat) :
    ∀ e ∈ frame3 c (Reply.bulk t) (Reply.bulk a) (Reply.longlong n), e.2 ≠ Reply.nullbulk := by
  intro e he
  simp only [frame3, List.mem_cons, List.mem_singleton, List.not_mem_nil, or_false] at he
  rcases he with rfl | rfl | rfl | rfl <;> simp

theorem unsubscribeChannelsLoop_of_held {c : Nat} (notify : Bool) (keys : List robj) :
    ∀ {s : State}, Inv s → keys.Nodup →
      (∀ k ∈ keys, dictFind (s.client c).pubsub_channels k = some ()) →
      ∃ out s2, unsubscribeChannelsLoop c notify keys s = some (keys.length, out, s2) ∧
        ∀ e ∈ out, e.2 ≠ Reply.nullbulk := by
  induction keys with
  | nil =>
    intro s _ _ _
    exact ⟨[], s, rfl, by simp⟩
  | cons k rest ih =>
    intro s hs hnd hk
    rcases pubsubUnsubscribeChannel_cases hs c k notify with ⟨hnone, _⟩ | ⟨l, _, hl, hc, hres⟩
    · rw [hk k (List.mem_cons_self _ _)] at hnone
      cases hnone
    · have hrest : ∀ k2 ∈ rest,
          dictFind ((stateAfterUnsubscribe s c k l).client c).pubsub_channels k2 = some () := by
        intro k2 hk2
        have hne : k2 ≠ k := fun e => (List.nodup_cons.1 hnd).1 (e ▸ hk2)
        have := has_channel_stateAfterUnsubscribe s c k l c k2
        rw [if_neg (fun h => hne h.2)] at this
        rw [← has_channel_iff, this, has_channel_iff]
        exact hk k2 (List.mem_cons_of_mem _ hk2)
      obtain ⟨out, s2, hloop, hout⟩ :=
        ih (Inv_stateAfterUnsubscribe hs hl hc) (List.nodup_cons.1 hnd).2 hrest
      refine ⟨(if notify then
          frame3 c (Reply.bulk "unsubscribe") (Reply.bulk k)
            (Reply.longlong
              (clientSubscriptionsCount ((stateAfterUnsubscribe s c k l).client c)))
        else []) ++ out, s2, ?_, ?_⟩
      · simp only [unsubscribeChannelsLoop, hres, hloop, List.length_cons, Nat.add_comm]
      · intro e he
        rcases List.mem_append.1 he with he | he
        · cases notify with
          | false => simp at he
          | true => exact frame3_no_nullbulk _ _ _ _ e (by simpa using he)
        · exact hout e he

theorem unsubscribePatternsLoop_of_held {c : Nat} (notify : Bool) (pats : List robj) :
    ∀ {s : State}, Inv s → pats.Nodup → (∀ p ∈ pats, p ∈ (s.client c).pubsub_patterns) →
      ∃ out s2, unsubscribePatternsLoop c notify pats s = some (pats.length, out, s2) ∧
        ∀ e ∈ out, e.2 ≠ Reply.nullbulk := by
  induction pats with
  | nil =>
    intro s _ _ _
    exact ⟨[], s, rfl, by simp⟩
  | cons p rest ih =>
    intro s hs hnd hp
    rcases pubsubUnsubscribePattern_cases hs c p notify with ⟨hnone, _⟩ | ⟨_, hres⟩
    · exact absurd (hp p (List.mem_cons_self _ _)) hnone
    · have hrest : ∀ p2 ∈ rest, p2 ∈ ((stateAfterPunsubscribe s c p).client c).pubsub_patterns := by
        intro p2 hp2
        have hne : p2 ≠ p := fun e => (List.nodup_cons.1 hnd).1 (e ▸ hp2)
        have hcl : ((stateAfterPunsubscribe s c p).client c).pubsub_patterns =
            (s.client c).pubsub_patterns.erase p := by
          simp [stateAfterPunsubscribe]
        rw [hcl]
        exact (List.mem_erase_of_ne hne).2 (hp p2 (List.mem_cons_of_mem _ hp2))
      obtain ⟨out, s2, hloop, hout⟩ :=
        ih (Inv_stateAfterPunsubscribe hs c p) (List.nodup_cons.1 hnd).2 hrest
      refine ⟨(if notify then
          frame3 c (Reply.bulk "punsubscribe") (Reply.bulk p)
            (Reply.longlong
              (clientSubscriptionsCount ((stateAfterPunsubscribe s c p).client c)))
        else []) ++ out, s2, ?_, ?_⟩
      · simp only [unsubscribePatternsLoop, hres, hloop, List.length_cons, Nat.add_comm]
      · intro e he
        rcases List.mem_append.1 he with he | he
        · cases notify with
          | false => simp at he
          | true => exact frame3_no_nullbulk _ _ _ _ e (by simpa using he)
        · exact hout e he

/-- C8: when client `c` holds no channel, `pubsubUnsubscribeAllChannels` with
`notify` set returns 0, leaves the state unchanged and emits exactly one frame
`["unsubscribe", null, count]`, `count` being the number of patterns of `c`
(its total subscription count); symmetrically, when `c` holds no pattern,
`pubsubUnsubscribeAllPatterns` with `notify` set returns 0, leaves the state
unchanged and emits exactly one frame `["punsubscribe", null, count]`.  In a
reachable state where `c` holds at least one channel (respectively pattern) the
call succeeds and no null field is emitted. -/
theorem unsubscribeAll_null_frame (stringmatchlen : robj → robj → Bool) (s : State)
    (h : Reachable stringmatchlen s) (c : Nat) (notify : Bool) :
    (dictSize (s.client c).pubsub_channels = 0 →
      clientSubscriptionsCount (s.client c) = listLength (s.client c).pubsub_patterns ∧
      pubsubUnsubscribeAllChannels s c true =
        some
          { retval := 0
            out := frame3 c (Reply.bulk "unsubscribe") Reply.nullbulk
              (Reply.longlong (listLength (s.client c).pubsub_patterns))
            st := s }) ∧
    (listLength (s.client c).pubsub_patterns = 0 →
      clientSubscriptionsCount (s.client c) = dictSize (s.client c).pubsub_channels ∧
      pubsubUnsubscribeAllPatterns s c true =
        some
          { retval := 0
            out := frame3 c (Reply.bulk "punsubscribe") Reply.nullbulk
              (Reply.longlong (dictSize (s.client c).pubsub_channels))
            st := s }) ∧
    (dictSize (s.client c).pubsub_channels ≠ 0 →
      ∃ r, pubsubUnsubscribeAllChannels s c notify = some r ∧
        ∀ e ∈ r.out, e.2 ≠ Reply.nullbulk) ∧
    (listLength (s.client c).pubsub_patterns ≠ 0 →
      ∃ r, pubsubUnsubscribeAllPatterns s c notify = some r ∧
        ∀ e ∈ r.out, e.2 ≠ Reply.nullbulk) := by
  have hs := Inv_of_reachable h
  refine ⟨?_, ?_, ?_, ?_⟩
  · intro h0
    have hnil : (s.client c).pubsub_channels = [] := List.length_eq_zero.1 h0
    simp [pubsubUnsubscribeAllChannels, hnil, dictKeys, unsubscribeChannelsLoop, frame3,
      addReply, addReplyLongLong, shared.mbulkhdr, shared.unsubscribebulk, shared.nullbulk,
      clientSubscriptionsCount, dictSize]
  · intro h0
    have hnil : (s.client c).pubsub_patterns = [] := List.length_eq_zero.1 h0
    simp [pubsubUnsubscribeAllPatterns, hnil, unsubscribePatternsLoop, frame3,
      addReply, addReplyLongLong, shared.mbulkhdr, shared.punsubscribebulk, shared.nullbulk,
      clientSubscriptionsCount, listLength]
  · intro h0
    have hheld : ∀ k ∈ dictKeys (s.client c).pubsub_channels,
        dictFind (s.client c).pubsub_channels k = some () := by
      intro k hk
      apply dictFind_unit
      intro hnone
      exact (dictFind_eq_none_iff _ _).1 hnone hk
    obtain ⟨out, s2, hloop, hout⟩ :=
      unsubscribeChannelsLoop_of_held notify _ hs (hs.client_keys c) hheld
    have hlen : (dictKeys (s.client c).pubsub_channels).length ≠ 0 := by
      simpa [dictKeys, dictSize] using h0
    refine ⟨_, by simp only [pubsubUnsubscribeAllChannels, hloop]; rfl, ?_⟩
    intro e he
    have hcount : ((dictKeys (s.client c).pubsub_channels).length == 0) = false := by
      simpa using hlen
    simp only [hcount, Bool.and_false, Bool.false_eq_true, if_false, List.append_nil] at he
    exact hout e he
  · intro h0
    obtain ⟨out, s2, hloop, hout⟩ :=
      unsubscribePatternsLoop_of_held notify _ hs (hs.pats_nodup c) (fun p hp => hp)
    have hlen : (s.client c).pubsub_patterns.length ≠ 0 := by
      simpa [listLength] using h0
    refine ⟨_, by simp only [pubsubUnsubscribeAllPatterns, hloop]; rfl, ?_⟩
    intro e he
    have hcount : ((s.client c).pubsub_patterns.length == 0) = false := by
      simpa using hlen
    simp only [hcount, Bool.and_false, Bool.false_eq_true, if_false, List.append_nil] at he
    exact hout e he

theorem unsubscribeAll_null_frame_witness :
    Reachable exampleMatcher exampleState ∧
    dictSize (exampleState.client 2).pubsub_channels = 0 ∧
    clientSubscriptionsCount (exampleState.client 2) =
      listLength (exampleState.client 2).pubsub_patterns ∧
    pubsubUnsubscribeAllChannels exampleState 2 true =
      some
        { retval := 0
          out := frame3 2 (Reply.bulk "unsubscribe") Reply.nullbulk
            (Reply.longlong (listLength (exampleState.client 2).pubsub_patterns))
          st := exampleState } :=
  ⟨exampleState_reachable exampleMatcher, by decide,
    (unsubscribeAll_null_frame exampleMatcher exampleState
      (exampleState_reachable exampleMatcher) 2 true).1 (by decide)⟩

/-! ## Delivery order -/

theorem subscribers_unsubscribeChannel {s : State} (hs : Inv s) {c : Nat} {channel : robj}
    {notify : Bool} {r : Result} (h : pubsubUnsubscribeChannel s c channel notify = some r)
    (name : robj) :
    subscribers r.st name = subscribers s name ∨
      subscribers r.st name = (subscribers s name).erase c := by
  rcases pubsubUnsubscribeChannel_cases hs c channel notify with ⟨_, h2⟩ | ⟨l, _, hl, _, h2⟩
  · rw [h2] at h
    cases h
    exact Or.inl rfl
  · rw [h2] at h
    cases h
    simp only [subscribers_stateAfterUnsubscribe hl]
    by_cases hn : name = channel
    · subst hn
      right
      simp [subscribers, hl]
    · left
      simp [hn]

theorem subscribers_unsubscribeChannelsLoop {c : Nat} {notify : Bool} (keys : List robj)
    (name : robj) :
    ∀ {s : State}, Inv s → ∀ {count : Nat} {out : Output} {s2 : State},
      unsubscribeChannelsLoop c notify keys s = some (count, out, s2) →
      subscribers s2 name = subscribers s name ∨
        subscribers s2 name = (subscribers s name).erase c := by
  induction keys with
  | nil =>
    intro s _ count out s2 h
    simp only [unsubscribeChannelsLoop, Option.some.injEq, Prod.mk.injEq] at h
    obtain ⟨-, -, rfl⟩ := h
    exact Or.inl rfl
  | cons k rest ih =>
    intro s hs count out s2 h
    simp only [unsubscribeChannelsLoop] at h
    cases h1 : pubsubUnsubscribeChannel s c k notify with
    | none => simp [h1] at h
    | some r =>
      simp only [h1] at h
      cases h2 : unsubscribeChannelsLoop c notify rest r.st with
      | none => simp [h2] at h
      | some t =>
        obtain ⟨n, o, s3⟩ := t
        simp only [h2, Option.some.injEq, Prod.mk.injEq] at h
        obtain ⟨-, -, rfl⟩ := h
        have hs1 := Inv_unsubscribeChannel hs h1
        rcases subscribers_unsubscribeChannel hs h1 name with e1 | e1 <;>
          rcases ih hs1 h2 with e2 | e2
        · exact Or.inl (e2.trans e1)
        · exact Or.inr (by rw [e2, e1])
        · exact Or.inr (e2.trans e1)
        · right
          rw [e2, e1]
          have hnd : (subscribers s name).Nodup := subscribers_nodup hs name
          exact List.erase_of_not_mem (fun hm => ((List.Nodup.mem_erase_iff hnd).1 hm).1 rfl)

theorem channels_unsubscribePattern {s : State} (hs : Inv s) {c : Nat} {pattern : robj}
    {notify : Bool} {r : Result} (h : pubsubUnsubscribePattern s c pattern notify = some r) :
    r.st.server.pubsub_channels = s.server.pubsub_channels := by
  rcases pubsubUnsubscribePattern_cases hs c pattern notify with ⟨_, h2⟩ | ⟨_, h2⟩
  · rw [h2] at h
    cases h
    rfl
  · rw [h2] at h
    cases h
    rfl

theorem channels_unsubscribePatternsLoop {c : Nat} {notify : Bool} (pats : List robj) :
    ∀ {s : State}, Inv s → ∀ {count : Nat} {out : Output} {s2 : State},
      unsubscribePatternsLoop c notify pats s = some (count, out, s2) →
      s2.server.pubsub_channels = s.server.pubsub_channels := by
  induction pats with
  | nil =>
    intro s _ count out s2 h
    simp only [unsubscribePatternsLoop, Option.some.injEq, Prod.mk.injEq] at h
    obtain ⟨-, -, rfl⟩ := h
    rfl
  | cons k rest ih =>
    intro s hs count out s2 h
    simp only [unsubscribePatternsLoop] at h
    cases h1 : pubsubUnsubscribePattern s c k notify with
    | none => simp [h1] at h
    | some r =>
      simp only [h1] at h
      cases h2 : unsubscribePatternsLoop c notify rest r.st with
      | none => simp [h2] at h
      | some t =>
        obtain ⟨n, o, s3⟩ := t
        simp only [h2, Option.some.injEq, Prod.mk.injEq] at h
        obtain ⟨-, -, rfl⟩ := h
        exact (ih (Inv_unsubscribePattern hs h1) h2).trans (channels_unsubscribePattern hs h1)

/-- Every call keeps the order of each subscriber list. -/
theorem OrderKept_exec {m : robj → robj → Bool} {s : State} (hs : Inv s) {call : Call}
    {r : Result} (h : call.exec m s = some r) (name : robj) :
    OrderKept (subscribers s name) (subscribers r.st name) := by
  cases call with
  | subscribe_channel c channel =>
    simp only [Call.exec, Option.some.injEq] at h
    subst h
    cases hc : dictFind (s.client c).pubsub_channels channel with
    | some u =>
      rw [pubsubSubscribeChannel_of_has hc]
      exact Or.inl rfl
    | none =>
      rw [subscribers_subscribeChannel_of_not_has hc]
      by_cases hn : name = channel
      · subst hn
        refine Or.inr (Or.inl ⟨c, ?_, by simp⟩)
        intro hm
        have := (hs.chan_iff c name).2 ((mem_subscribers_iff s c name).1 hm)
        rw [hc] at this
        cases this
      · exact Or.inl (by simp [hn])
  | unsubscribe_channel c channel notify =>
    rcases subscribers_unsubscribeChannel hs h name with e | e
    · exact Or.inl e
    · exact Or.inr (Or.inr ⟨c, e⟩)
  | subscribe_pattern c pattern =>
    simp only [Call.exec, Option.some.injEq] at h
    subst h
    left
    by_cases hp : pattern ∈ (s.client c).pubsub_patterns
    · rw [pubsubSubscribePattern_of_has hp]
    · rw [pubsubSubscribePattern_of_not_has hp]
      rfl
  | unsubscribe_pattern c pattern notify =>
    left
    simp only [subscribers, channels_unsubscribePattern hs h]
  | unsubscribe_all_channels c notify =>
    simp only [Call.exec, pubsubUnsubscribeAllChannels] at h
    cases h1 : unsubscribeChannelsLoop c notify (dictKeys (s.client c).pubsub_channels) s with
    | none => simp [h1] at h
    | some t =>
      obtain ⟨n, o, s3⟩ := t
      simp only [h1, Option.some.injEq] at h
      subst h
      rcases subscribers_unsubscribeChannelsLoop _ name hs h1 with e | e
      · exact Or.inl e
      · exact Or.inr (Or.inr ⟨c, e⟩)
  | unsubscribe_all_patterns c notify =>
    simp only [Call.exec, pubsubUnsubscribeAllPatterns] at h
    cases h1 : unsubscribePatternsLoop c notify (s.client c).pubsub_patterns s with
    | none => simp [h1] at h
    | some t =>
      obtain ⟨n, o, s3⟩ := t
      simp only [h1, Option.some.injEq] at h
      subst h
      left
      simp only [subscribers, channels_unsubscribePatternsLoop _ hs h1]
  | publish channel message =>
    simp only [Call.exec, Option.some.injEq] at h
    subst h
    exact Or.inl rfl

/-- C10: `pubsubSubscribeChannel` returns 1 if and only if the client did not
have the channel before the call; in that case the subscriber list of the
channel in the new state is the previous list (empty when the channel was
absent) followed by the client, so a publication on the channel reaches the
previous subscribers in their previous order and then the new subscriber.
Moreover, from a reachable state, every call leaves each subscriber list as it
was, or with one new client at its end, or with one client removed and the
others in the same order: the lists are in the order of the current
subscriptions. -/
theorem pubsubSubscribeChannel_appends (stringmatchlen : robj → robj → Bool) (s : State)
    (c : Nat) (channel message : robj) :
    ((pubsubSubscribeChannel s c channel).retval = 1 ↔ has_channel s c channel = false) ∧
    (has_channel s c channel = false →
      dictFind (pubsubSubscribeChannel s c channel).st.server.pubsub_channels channel =
        some (subscribers s channel ++ [c]) ∧
      (pubsubPublishMessage stringmatchlen (pubsubSubscribeChannel s c channel).st channel
          message).out =
        (subscribers s channel).flatMap
          (fun d => frame3 d (Reply.bulk "message") (Reply.bulk channel) (Reply.bulk message)) ++
        frame3 c (Reply.bulk "message") (Reply.bulk channel) (Reply.bulk message) ++
        (s.server.pubsub_patterns.filter
          (fun pat => stringmatchlen pat.pattern channel)).flatMap
          (fun pat => frame4 pat.client (Reply.bulk "pmessage") (Reply.bulk pat.pattern)
            (Reply.bulk channel) (Reply.bulk message))) ∧
    (Reachable stringmatchlen s → ∀ (call : Call) (r : Result),
      call.exec stringmatchlen s = some r →
      ∀ name, OrderKept (subscribers s name) (subscribers r.st name)) := by
  refine ⟨?_, ?_, fun hr call r hcall name => OrderKept_exec (Inv_of_reachable hr) hcall name⟩
  · cases hc : dictFind (s.client c).pubsub_channels channel with
    | some u => simp [pubsubSubscribeChannel_of_has hc, has_channel, hc]
    | none => simp [pubsubSubscribeChannel_of_not_has hc, has_channel, hc]
  · intro hnot
    have hc : dictFind (s.client c).pubsub_channels channel = none := by
      unfold has_channel at hnot
      cases hd : dictFind (s.client c).pubsub_channels channel with
      | none => rfl
      | some u => simp [hd] at hnot
    constructor
    · rw [pubsubSubscribeChannel_of_not_has hc]
      simp [dictFind_indexAfterSubscribe, subscribers]
    · rw [pubsubPublishMessage_eq, subscribers_subscribeChannel_of_not_has hc, if_pos rfl,
        pubsubSubscribeChannel_of_not_has hc]
      simp [matchingPatterns, List.flatMap_append, messageFrame, pmessageFrame]
      rfl

theorem pubsubSubscribeChannel_appends_witness :
    has_channel exampleStateOther 1 "news" = false ∧
    dictFind (pubsubSubscribeChannel exampleStateOther 1 "news").st.server.pubsub_channels
        "news" = some (subscribers exampleStateOther "news" ++ [1]) ∧
    (pubsubPublishMessage exampleMatcher (pubsubSubscribeChannel exampleStateOther 1 "news").st
        "news" "hello").out =
      (subscribers exampleStateOther "news").flatMap
        (fun d => frame3 d (Reply.bulk "message") (Reply.bulk "news") (Reply.bulk "hello")) ++
      frame3 1 (Reply.bulk "message") (Reply.bulk "news") (Reply.bulk "hello") ++
      (exampleStateOther.server.pubsub_patterns.filter
        (fun pat => exampleMatcher pat.pattern "news")).flatMap
        (fun pat => frame4 pat.client (Reply.bulk "pmessage") (Reply.bulk pat.pattern)
          (Reply.bulk "news") (Reply.bulk "hello")) :=
  ⟨by decide,
    (pubsubSubscribeChannel_appends exampleMatcher exampleStateOther 1 "news" "hello").2.1
      (by decide)⟩

/-! ## Unsubscribing from one channel, subscribing to and unsubscribing from one pattern -/

/-- C11: in a reachable state `pubsubUnsubscribeChannel` returns 1 if and only
if the client had the channel before the call; when it returns 0 the whole
state (every registry and both global indices) is left exactly unchanged; and
in both cases exactly one `["unsubscribe", channel, count]` frame is sent to the
client when `notify` is set, and nothing is sent when it is unset.  In any
state, a client that does not have the channel gets 0, the unchanged state and
that reply. -/
theorem pubsubUnsubscribeChannel_retval (stringmatchlen : robj → robj → Bool) (s : State)
    (c : Nat) (channel : robj) (notify : Bool) :
    (has_channel s c channel = false →
      pubsubUnsubscribeChannel s c channel notify =
        some
          { retval := 0
            out := if notify then
                frame3 c (Reply.bulk "unsubscribe") (Reply.bulk channel)
                  (Reply.longlong
                    (dictSize (s.client c).pubsub_channels +
                      listLength (s.client c).pubsub_patterns))
              else []
            st := s }) ∧
    (Reachable stringmatchlen s →
      ∃ r, pubsubUnsubscribeChannel s c channel notify = some r ∧
        (r.retval = 1 ↔ has_channel s c channel = true) ∧
        (r.retval = 0 ∨ r.retval = 1) ∧
        (r.retval = 0 → r.st = s) ∧
        r.out = if notify then
            frame3 c (Reply.bulk "unsubscribe") (Reply.bulk channel)
              (Reply.longlong
                (dictSize (r.st.client c).pubsub_channels +
                  listLength (r.st.client c).pubsub_patterns))
          else []) := by
  constructor
  · intro hnot
    have hc : dictFind (s.client c).pubsub_channels channel = none := by
      unfold has_channel at hnot
      cases hd : dictFind (s.client c).pubsub_channels channel with
      | none => rfl
      | some u => simp [hd] at hnot
    exact pubsubUnsubscribeChannel_of_not_has notify hc
  · intro hr
    have hs := Inv_of_reachable hr
    rcases pubsubUnsubscribeChannel_cases hs c channel notify with
      ⟨hnone, hres⟩ | ⟨l, hhas, _, _, hres⟩
    · refine ⟨_, hres, ?_, Or.inl rfl, fun _ => rfl, rfl⟩
      simp [has_channel, hnone]
    · refine ⟨_, hres, ?_, Or.inr rfl, fun h0 => ?_, rfl⟩
      · simp [has_channel, hhas]
      · simp at h0

theorem pubsubUnsubscribeChannel_retval_witness :
    has_channel exampleState 2 "news" = false ∧
    pubsubUnsubscribeChannel exampleState 2 "news" true =
      some
        { retval := 0
          out := if true = true then
              frame3 2 (Reply.bulk "unsubscribe") (Reply.bulk "news")
                (Reply.longlong
                  (dictSize (exampleState.client 2).pubsub_channels +
                    listLength (exampleState.client 2).pubsub_patterns))
            else []
          st := exampleState } :=
  ⟨by decide,
    (pubsubUnsubscribeChannel_retval exampleMatcher exampleState 2 "news" true).1 (by decide)⟩

/-- C12: `pubsubSubscribePattern` returns 1 if and only if the pattern was not
in the pattern list of the client; in that case the pattern is appended to the
end of the client's list and a new record `(pattern, client)` is appended to the
end of the global pattern list, the existing records staying in order;
otherwise it returns 0 and the state is unchanged.  A
`["psubscribe", pattern, count]` frame is sent in either case.  A different
client `d` that does not hold the pattern and subscribes to it after `c` still
gets 1 and its own new record `(pattern, d)`. -/
theorem pubsubSubscribePattern_retval (s : State) (c d : Nat) (pattern : robj) :
    ((pubsubSubscribePattern s c pattern).retval = 1 ↔
      pattern ∉ (s.client c).pubsub_patterns) ∧
    (pattern ∉ (s.client c).pubsub_patterns →
      ((pubsubSubscribePattern s c pattern).st.client c).pubsub_patterns =
        (s.client c).pubsub_patterns ++ [pattern] ∧
      (pubsubSubscribePattern s c pattern).st.server.pubsub_patterns =
        s.server.pubsub_patterns ++ [{ client := c, pattern := pattern }]) ∧
    (pattern ∈ (s.client c).pubsub_patterns →
      (pubsubSubscribePattern s c pattern).retval = 0 ∧
      (pubsubSubscribePattern s c pattern).st = s) ∧
    (pubsubSubscribePattern s c pattern).out =
      frame3 c (Reply.bulk "psubscribe") (Reply.bulk pattern)
        (Reply.longlong
          (dictSize ((pubsubSubscribePattern s c pattern).st.client c).pubsub_channels +
            listLength ((pubsubSubscribePattern s c pattern).st.client c).pubsub_patterns)) ∧
    (d ≠ c → pattern ∉ (s.client d).pubsub_patterns →
      (pubsubSubscribePattern (pubsubSubscribePattern s c pattern).st d pattern).retval = 1 ∧
      (pubsubSubscribePattern (pubsubSubscribePattern s c pattern).st d
          pattern).st.server.pubsub_patterns =
        (pubsubSubscribePattern s c pattern).st.server.pubsub_patterns ++
          [{ client := d, pattern := pattern }]) := by
  have key : ∀ (t : State) (x : Nat), pattern ∉ (t.client x).pubsub_patterns →
      (pubsubSubscribePattern t x pattern).retval = 1 ∧
      ((pubsubSubscribePattern t x pattern).st.client x).pubsub_patterns =
        (t.client x).pubsub_patterns ++ [pattern] ∧
      (pubsubSubscribePattern t x pattern).st.server.pubsub_patterns =
        t.server.pubsub_patterns ++ [{ client := x, pattern := pattern }] := by
    intro t x hx
    rw [pubsubSubscribePattern_of_not_has hx]
    simp [stateAfterPsubscribe]
  refine ⟨?_, fun h => (key s c h).2, ?_, ?_, ?_⟩
  · by_cases h : pattern ∈ (s.client c).pubsub_patterns
    · simp [pubsubSubscribePattern_of_has h, h]
    · simp [(key s c h).1, h]
  · intro h
    rw [pubsubSubscribePattern_of_has h]
    exact ⟨rfl, rfl⟩
  · simp [pubsubSubscribePattern, frame3, addReply, addReplyBulk, addReplyLongLong,
      shared.mbulkhdr, shared.psubscribebulk, clientSubscriptionsCount]
  · intro hdc hd
    have hother : ((pubsubSubscribePattern s c pattern).st.client d).pubsub_patterns =
        (s.client d).pubsub_patterns := by
      by_cases h : pattern ∈ (s.client c).pubsub_patterns
      · rw [pubsubSubscribePattern_of_has h]
      · rw [pubsubSubscribePattern_of_not_has h]
        simp [stateAfterPsubscribe, State.setClient, hdc]
    have hd2 : pattern ∉ ((pubsubSubscribePattern s c pattern).st.client d).pubsub_patterns := by
      rw [hother]
      exact hd
    exact ⟨(key _ d hd2).1, (key _ d hd2).2.2⟩

theorem pubsubSubscribePattern_retval_witness :
    "new*" ∉ (exampleState.client 1).pubsub_patterns ∧
    ((pubsubSubscribePattern exampleState 1 "new*").st.client 1).pubsub_patterns =
      (exampleState.client 1).pubsub_patterns ++ ["new*"] ∧
    (pubsubSubscribePattern exampleState 1 "new*").st.server.pubsub_patterns =
      exampleState.server.pubsub_patterns ++ [{ client := 1, pattern := "new*" }] :=
  ⟨by decide, (pubsubSubscribePattern_retval exampleState 1 2 "new*").2.1 (by decide)⟩

/-- C13: in a reachable state `pubsubUnsubscribePattern` returns 1 if and only
if the pattern was in the pattern list of the client; then the pattern is
removed from the client's list and exactly the record `(pattern, client)` is
removed from the global pattern list, every other record staying present and in
the same relative order, and nothing else changes; if the pattern was not in
the client's list it returns 0 and the state is unchanged. -/
theorem pubsubUnsubscribePattern_retval (stringmatchlen : robj → robj → Bool) (s : State)
    (h : Reachable stringmatchlen s) (c : Nat) (pattern : robj) (notify : Bool) :
    ∃ r, pubsubUnsubscribePattern s c pattern notify = some r ∧
      (r.retval = 1 ↔ pattern ∈ (s.client c).pubsub_patterns) ∧
      (pattern ∈ (s.client c).pubsub_patterns →
        (r.st.client c).pubsub_patterns =
          (s.client c).pubsub_patterns.filter (fun p => decide (p ≠ pattern)) ∧
        r.st.server.pubsub_patterns =
          s.server.pubsub_patterns.filter
            (fun pat => decide (pat ≠ { client := c, pattern := pattern })) ∧
        s.server.pubsub_patterns.count { client := c, pattern := pattern } = 1 ∧
        (r.st.client c).pubsub_channels = (s.client c).pubsub_channels ∧
        (∀ x, x ≠ c → r.st.client x = s.client x) ∧
        r.st.server.pubsub_channels = s.server.pubsub_channels) ∧
      (pattern ∉ (s.client c).pubsub_patterns → r.retval = 0 ∧ r.st = s) := by
  have hs := Inv_of_reachable h
  have hf1 : (fun x : robj => x != pattern) = (fun p => decide (p ≠ pattern)) := by
    funext x
    by_cases hx : x = pattern <;> simp [hx]
  have hf2 : (fun x : pubsubPattern => x != { client := c, pattern := pattern }) =
      (fun pat => decide (pat ≠ { client := c, pattern := pattern })) := by
    funext x
    by_cases hx : x = { client := c, pattern := pattern } <;> simp [hx]
  rcases pubsubUnsubscribePattern_cases hs c pattern notify with ⟨hnot, hres⟩ | ⟨hin, hres⟩
  · refine ⟨_, hres, ?_, fun hin => absurd hin hnot, fun _ => ⟨rfl, rfl⟩⟩
    simp [hnot]
  · refine ⟨_, hres, ?_, fun _ => ⟨?_, ?_, ?_, ?_, ?_, ?_⟩, fun hnot => absurd hin hnot⟩
    · simp [hin]
    · simp only [stateAfterPunsubscribe, setServer_client, setClient_client_same]
      rw [List.Nodup.erase_eq_filter (hs.pats_nodup c), hf1]
    · simp only [stateAfterPunsubscribe, setServer_server]
      rw [List.Nodup.erase_eq_filter hs.gpats_nodup, hf2]
    · exact List.count_eq_one_of_mem hs.gpats_nodup ((hs.pat_iff c pattern).1 hin)
    · simp [stateAfterPunsubscribe]
    · intro x hx
      simp [stateAfterPunsubscribe, State.setClient, hx]
    · rfl

theorem pubsubUnsubscribePattern_retval_witness :
    Reachable exampleMatcher exampleStateBoth ∧
    ∃ r, pubsubUnsubscribePattern exampleStateBoth 1 "new*" true = some r ∧
      (r.retval = 1 ↔ "new*" ∈ (exampleStateBoth.client 1).pubsub_patterns) ∧
      ("new*" ∈ (exampleStateBoth.client 1).pubsub_patterns →
        (r.st.client 1).pubsub_patterns =
          (exampleStateBoth.client 1).pubsub_patterns.filter (fun p => decide (p ≠ "new*")) ∧
        r.st.server.pubsub_patterns =
          exampleStateBoth.server.pubsub_patterns.filter
            (fun pat => decide (pat ≠ { client := 1, pattern := "new*" })) ∧
        exampleStateBoth.server.pubsub_patterns.count { client := 1, pattern := "new*" } = 1 ∧
        (r.st.client 1).pubsub_channels = (exampleStateBoth.client 1).pubsub_channels ∧
        (∀ x, x ≠ 1 → r.st.client x = exampleStateBoth.client x) ∧
        r.st.server.pubsub_channels = exampleStateBoth.server.pubsub_channels) ∧
      ("new*" ∉ (exampleStateBoth.client 1).pubsub_patterns → r.retval = 0 ∧
        r.st = exampleStateBoth) :=
  ⟨exampleStateBoth_reachable exampleMatcher,
    pubsubUnsubscribePattern_retval exampleMatcher exampleStateBoth
      (exampleStateBoth_reachable exampleMatcher) 1 "new*" true⟩

/-! ## The unsubscribe-all walks in full -/

theorem unsubscribeFrames_eq_enumFrom (c : Nat) (type : robj) (base : Nat) (names : List robj)
    (j : Nat) :
    unsubscribeFrames c type base names =
      (names.enumFrom j).flatMap
        (fun ik => frame3 c (Reply.bulk type) (Reply.bulk ik.2)
          (Reply.longlong (names.length + j - 1 - ik.1 + base))) := by
  induction names generalizing j with
  | nil => rfl
  | cons name rest ih =>
    simp only [unsubscribeFrames, List.enumFrom_cons, List.flatMap_cons, List.length_cons]
    rw [ih (j + 1)]
    have h1 : rest.length + 1 + j - 1 - j + base = rest.length + base := by omega
    have h2 : ∀ i, rest.length + (j + 1) - 1 - i + base = rest.length + 1 + j - 1 - i + base := by
      intro i
      omega
    simp only [h1, h2]

theorem unsubscribeFrames_eq_enum (c : Nat) (type : robj) (base : Nat) (names : List robj) :
    unsubscribeFrames c type base names =
      names.enum.flatMap
        (fun ik => frame3 c (Reply.bulk type) (Reply.bulk ik.2)
          (Reply.longlong (names.length - 1 - ik.1 + base))) := by
  simpa [List.enum] using unsubscribeFrames_eq_enumFrom c type base names 0

theorem dictSize_eq_length_keys {V : Type} (d : dict V) : dictSize d = (dictKeys d).length := by
  simp [dictSize, dictKeys]

theorem not_mem_subscribers_of_not_has {s : State} (hs : Inv s) {c : Nat} {name : robj}
    (h : dictFind (s.client c).pubsub_channels name = none) : c ∉ subscribers s name := by
  intro hm
  have := (hs.chan_iff c name).2 ((mem_subscribers_iff s c name).1 hm)
  rw [h] at this
  cases this

/-- The walk of `pubsubUnsubscribeAllChannels` over all the keys of the
client's membership set: it does not abort, every call returns 1, and the
client ends up without channels and off every subscriber list. -/
theorem unsubscribeChannelsLoop_all {c : Nat} (notify : Bool) (keys : List robj) :
    ∀ {s : State}, Inv s → dictKeys (s.client c).pubsub_channels = keys →
      ∃ s2, unsubscribeChannelsLoop c notify keys s =
          some (keys.length,
            if notify then
              unsubscribeFrames c "unsubscribe" (listLength (s.client c).pubsub_patterns) keys
            else [], s2) ∧
        Inv s2 ∧ (s2.client c).pubsub_channels = [] ∧
        (s2.client c).pubsub_patterns = (s.client c).pubsub_patterns ∧
        (∀ x, x ≠ c → s2.client x = s.client x) ∧
        s2.server.pubsub_patterns = s.server.pubsub_patterns ∧
        (∀ name, subscribers s2 name = (subscribers s name).erase c) := by
  induction keys with
  | nil =>
    intro s hs hk
    have hnil : (s.client c).pubsub_channels = [] := by
      simpa [dictKeys] using hk
    refine ⟨s, by cases notify <;> simp [unsubscribeChannelsLoop, unsubscribeFrames], hs, hnil,
      rfl, fun _ _ => rfl, rfl, fun name => ?_⟩
    have hnot : c ∉ subscribers s name :=
      not_mem_subscribers_of_not_has hs (by rw [hnil]; rfl)
    exact (List.erase_of_not_mem hnot).symm
  | cons k rest ih =>
    intro s hs hk
    have hnd : (k :: rest).Nodup := hk ▸ hs.client_keys c
    have hkrest : k ∉ rest := (List.nodup_cons.1 hnd).1
    rcases pubsubUnsubscribeChannel_cases hs c k notify with ⟨hnone, _⟩ | ⟨l, hhas, hl, hc, hres⟩
    · exact absurd (hk ▸ List.mem_cons_self k rest) ((dictFind_eq_none_iff _ _).1 hnone)
    · have hcl : ((stateAfterUnsubscribe s c k l).client c) =
          { s.client c with
            pubsub_channels :=
              (s.client c).pubsub_channels.filter (fun e => decide (e.1 ≠ k)) } := by
        simp [stateAfterUnsubscribe]
      have hkeys : dictKeys ((stateAfterUnsubscribe s c k l).client c).pubsub_channels = rest := by
        rw [hcl]
        simp only [dictKeys_filter, hk, List.filter_cons]
        rw [filter_ne_of_not_mem hkrest]
        simp
      obtain ⟨s2, hloop, hinv, hch, hpat, hoth, hsrv, hsub⟩ :=
        ih (Inv_stateAfterUnsubscribe hs hl hc) hkeys
      have hpats1 : ((stateAfterUnsubscribe s c k l).client c).pubsub_patterns =
          (s.client c).pubsub_patterns := by
        rw [hcl]
      have hcount : clientSubscriptionsCount ((stateAfterUnsubscribe s c k l).client c) =
          rest.length + listLength (s.client c).pubsub_patterns := by
        simp only [clientSubscriptionsCount, dictSize_eq_length_keys, hkeys, hpats1]
      refine ⟨s2, ?_, hinv, hch, hpat.trans hpats1, ?_, ?_, ?_⟩
      · simp only [unsubscribeChannelsLoop, hres, hloop, hcount, hpats1, List.length_cons]
        cases notify <;> simp [unsubscribeFrames, Nat.add_comm]
      · intro x hx
        rw [hoth x hx]
        simp [stateAfterUnsubscribe, State.setClient, hx]
      · rw [hsrv]
        rfl
      · intro name
        rw [hsub name, subscribers_stateAfterUnsubscribe hl]
        by_cases hn : name = k
        · subst hn
          have hl2 : subscribers s name = l := by simp [subscribers, hl]
          rw [if_pos rfl, hl2]
          have hnd2 : l.Nodup := hs.subs_nodup _ _ hl
          exact List.erase_of_not_mem (fun hm => ((List.Nodup.mem_erase_iff hnd2).1 hm).1 rfl)
        · rw [if_neg hn]

theorem filter_erase_of_neg {α : Type} [DecidableEq α] (q : α → Bool) (l : List α) (x : α)
    (hx : q x = false) : (l.erase x).filter q = l.filter q := by
  induction l with
  | nil => rfl
  | cons y rest ih =>
    by_cases hy : y = x
    · subst hy
      simp [List.filter_cons, hx]
    · have : (y == x) = false := by simpa using hy
      simp [List.erase_cons, this, List.filter_cons, ih]

/-- The walk of `pubsubUnsubscribeAllPatterns` over the client's pattern list:
it does not abort, every call returns 1, and the client ends up without
patterns and without records in the global pattern list. -/
theorem unsubscribePatternsLoop_all {c : Nat} (notify : Bool) (pats : List robj) :
    ∀ {s : State}, Inv s → (s.client c).pubsub_patterns = pats →
      ∃ s2, unsubscribePatternsLoop c notify pats s =
          some (pats.length,
            if notify then
              unsubscribeFrames c "punsubscribe" (dictSize (s.client c).pubsub_channels) pats
            else [], s2) ∧
        Inv s2 ∧ (s2.client c).pubsub_patterns = [] ∧
        (s2.client c).pubsub_channels = (s.client c).pubsub_channels ∧
        (∀ x, x ≠ c → s2.client x = s.client x) ∧
        s2.server.pubsub_channels = s.server.pubsub_channels ∧
        s2.server.pubsub_patterns =
          s.server.pubsub_patterns.filter (fun pat => decide (pat.client ≠ c)) := by
  induction pats with
  | nil =>
    intro s hs hp
    refine ⟨s, by cases notify <;> simp [unsubscribePatternsLoop, unsubscribeFrames], hs, hp,
      rfl, fun _ _ => rfl, rfl, ?_⟩
    symm
    apply List.filter_eq_self.2
    intro pat hpat
    by_cases hc : pat.client = c
    · have : pat.pattern ∈ (s.client c).pubsub_patterns :=
        (hs.pat_iff c pat.pattern).2 (by rw [← hc]; exact hpat)
      rw [hp] at this
      cases this
    · simpa using hc
  | cons p rest ih =>
    intro s hs hp
    have hin : p ∈ (s.client c).pubsub_patterns := hp ▸ List.mem_cons_self p rest
    rcases pubsubUnsubscribePattern_cases hs c p notify with ⟨hnot, _⟩ | ⟨_, hres⟩
    · exact absurd hin hnot
    · have hcl : ((stateAfterPunsubscribe s c p).client c) =
          { s.client c with pubsub_patterns := (s.client c).pubsub_patterns.erase p } := by
        simp [stateAfterPunsubscribe]
      have hpats1 : ((stateAfterPunsubscribe s c p).client c).pubsub_patterns = rest := by
        rw [hcl]
        simp [hp]
      have hch1 : ((stateAfterPunsubscribe s c p).client c).pubsub_channels =
          (s.client c).pubsub_channels := by
        rw [hcl]
      obtain ⟨s2, hloop, hinv, hpe, hch, hoth, hsrv, hg⟩ :=
        ih (Inv_stateAfterPunsubscribe hs c p) hpats1
      have hcount : clientSubscriptionsCount ((stateAfterPunsubscribe s c p).client c) =
          rest.length + dictSize (s.client c).pubsub_channels := by
        simp only [clientSubscriptionsCount, hpats1, hch1, listLength, Nat.add_comm]
      refine ⟨s2, ?_, hinv, hpe, hch.trans hch1, ?_, ?_, ?_⟩
      · simp only [unsubscribePatternsLoop, hres, hloop, hcount, hch1, List.length_cons]
        cases notify <;> simp [unsubscribeFrames, Nat.add_comm]
      · intro x hx
        rw [hoth x hx]
        simp [stateAfterPunsubscribe, State.setClient, hx]
      · rw [hsrv]
        rfl
      · rw [hg]
        exact filter_erase_of_neg _ _ _ (by simp)

/-! ## Unsubscribe-all: return value, final state and frames -/

theorem exampleStateBusy_reachable (m : robj → robj → Bool) : Reachable m exampleStateBusy :=
  ⟨[Call.subscribe_channel 1 "news", Call.subscribe_channel 2 "news",
    Call.subscribe_channel 1 "sports", Call.subscribe_pattern 1 "new*",
    Call.subscribe_pattern 2 "new*"], rfl⟩

theorem pubsubUnsubscribeAllChannels_of_inv {s : State} (hs : Inv s) (c : Nat) (notify : Bool) :
    ∃ r, pubsubUnsubscribeAllChannels s c notify = some r ∧
      r.retval = dictSize (s.client c).pubsub_channels ∧
      r.out =
        (if notify then
          unsubscribeFrames c "unsubscribe" (listLength (s.client c).pubsub_patterns)
            (dictKeys (s.client c).pubsub_channels)
        else []) ++
        (if notify && dictSize (s.client c).pubsub_channels == 0 then
          frame3 c (Reply.bulk "unsubscribe") Reply.nullbulk
            (Reply.longlong (clientSubscriptionsCount (r.st.client c)))
        else []) ∧
      Inv r.st ∧ (r.st.client c).pubsub_channels = [] ∧
      (r.st.client c).pubsub_patterns = (s.client c).pubsub_patterns ∧
      (∀ x, x ≠ c → r.st.client x = s.client x) ∧
      r.st.server.pubsub_patterns = s.server.pubsub_patterns ∧
      (∀ name, subscribers r.st name = (subscribers s name).erase c) := by
  obtain ⟨s2, hloop, hinv, hch, hpat, hoth, hsrv, hsub⟩ :=
    unsubscribeChannelsLoop_all notify (dictKeys (s.client c).pubsub_channels) hs rfl
  refine ⟨_, by simp only [pubsubUnsubscribeAllChannels, hloop]; rfl, ?_, ?_, hinv, hch, hpat,
    hoth, hsrv, hsub⟩
  · exact (dictSize_eq_length_keys _).symm
  · simp only [dictSize_eq_length_keys]
    rfl

theorem pubsubUnsubscribeAllPatterns_of_inv {s : State} (hs : Inv s) (c : Nat) (notify : Bool) :
    ∃ r, pubsubUnsubscribeAllPatterns s c notify = some r ∧
      r.retval = listLength (s.client c).pubsub_patterns ∧
      r.out =
        (if notify then
          unsubscribeFrames c "punsubscribe" (dictSize (s.client c).pubsub_channels)
            (s.client c).pubsub_patterns
        else []) ++
        (if notify && listLength (s.client c).pubsub_patterns == 0 then
          frame3 c (Reply.bulk "punsubscribe") Reply.nullbulk
            (Reply.longlong (clientSubscriptionsCount (r.st.client c)))
        else []) ∧
      Inv r.st ∧ (r.st.client c).pubsub_patterns = [] ∧
      (r.st.client c).pubsub_channels = (s.client c).pubsub_channels ∧
      (∀ x, x ≠ c → r.st.client x = s.client x) ∧
      r.st.server.pubsub_channels = s.server.pubsub_channels ∧
      r.st.server.pubsub_patterns =
        s.server.pubsub_patterns.filter (fun pat => decide (pat.client ≠ c)) := by
  obtain ⟨s2, hloop, hinv, hpe, hch, hoth, hsrv, hg⟩ :=
    unsubscribePatternsLoop_all notify (s.client c).pubsub_patterns hs rfl
  exact ⟨_, by simp only [pubsubUnsubscribeAllPatterns, hloop]; rfl, rfl, rfl, hinv, hpe, hch,
    hoth, hsrv, hg⟩

/-- C14: in a reachable state where client `c` holds `n` channels and `p`
patterns, `pubsubUnsubscribeAllChannels` returns `n`; afterwards the membership
set of `c` is empty and `c` is in no subscriber list; and when `notify` is set
and `n ≥ 1` the output is exactly `n` `unsubscribe` frames, one for each
previously held channel (each named once, in the iteration order of the
membership set), the frame at position `i` (from 0) carrying the count
`(n - 1 - i) + p`. -/
theorem pubsubUnsubscribeAllChannels_full (stringmatchlen : robj → robj → Bool) (s : State)
    (h : Reachable stringmatchlen s) (c : Nat) (notify : Bool) :
    ∃ r, pubsubUnsubscribeAllChannels s c notify = some r ∧
      r.retval = dictSize (s.client c).pubsub_channels ∧
      (r.st.client c).pubsub_channels = [] ∧
      (∀ name, c ∉ subscribers r.st name) ∧
      (dictKeys (s.client c).pubsub_channels).Nodup ∧
      (∀ name, name ∈ dictKeys (s.client c).pubsub_channels ↔ has_channel s c name = true) ∧
      (notify = true → dictSize (s.client c).pubsub_channels ≠ 0 →
        r.out =
          (dictKeys (s.client c).pubsub_channels).enum.flatMap
            (fun ik => frame3 c (Reply.bulk "unsubscribe") (Reply.bulk ik.2)
              (Reply.longlong
                (dictSize (s.client c).pubsub_channels - 1 - ik.1 +
                  listLength (s.client c).pubsub_patterns)))) := by
  have hs := Inv_of_reachable h
  obtain ⟨r, hres, hret, hout, _, hch, _, _, _, hsub⟩ :=
    pubsubUnsubscribeAllChannels_of_inv hs c notify
  refine ⟨r, hres, hret, hch, ?_, hs.client_keys c, ?_, ?_⟩
  · intro name hm
    rw [hsub name] at hm
    exact ((List.Nodup.mem_erase_iff (subscribers_nodup hs name)).1 hm).1 rfl
  · intro name
    unfold has_channel
    exact (dictFind_isSome_iff _ _).symm
  · intro hn h0
    have h0b : (dictSize (s.client c).pubsub_channels == 0) = false := by simpa using h0
    rw [hout, hn, h0b]
    simp only [if_true, Bool.and_false, Bool.false_eq_true, if_false, List.append_nil]
    rw [unsubscribeFrames_eq_enum, dictSize_eq_length_keys]

theorem pubsubUnsubscribeAllChannels_full_witness :
    Reachable exampleMatcher exampleStateBusy ∧
    ∃ r, pubsubUnsubscribeAllChannels exampleStateBusy 1 true = some r ∧
      r.retval = dictSize (exampleStateBusy.client 1).pubsub_channels ∧
      (r.st.client 1).pubsub_channels = [] ∧
      (∀ name, 1 ∉ subscribers r.st name) ∧
      (dictKeys (exampleStateBusy.client 1).pubsub_channels).Nodup ∧
      (∀ name, name ∈ dictKeys (exampleStateBusy.client 1).pubsub_channels ↔
        has_channel exampleStateBusy 1 name = true) ∧
      (true = true → dictSize (exampleStateBusy.client 1).pubsub_channels ≠ 0 →
        r.out =
          (dictKeys (exampleStateBusy.client 1).pubsub_channels).enum.flatMap
            (fun ik => frame3 1 (Reply.bulk "unsubscribe") (Reply.bulk ik.2)
              (Reply.longlong
                (dictSize (exampleStateBusy.client 1).pubsub_channels - 1 - ik.1 +
                  listLength (exampleStateBusy.client 1).pubsub_patterns)))) :=
  ⟨exampleStateBusy_reachable exampleMatcher,
    pubsubUnsubscribeAllChannels_full exampleMatcher exampleStateBusy
      (exampleStateBusy_reachable exampleMatcher) 1 true⟩

/-- C15: in a reachable state where client `c` holds `n` patterns and `m`
channels, `pubsubUnsubscribeAllPatterns` returns `n`; afterwards the pattern
list of `c` is empty and the global pattern list is the previous one without
the records of `c`, the records of the other clients keeping their relative
order; and when `notify` is set and `n ≥ 1` the output is exactly `n`
`punsubscribe` frames, one per held pattern in the order of the list of `c`,
the `i`-th (from 1) carrying the count `m + n - i`. -/
theorem pubsubUnsubscribeAllPatterns_full (stringmatchlen : robj → robj → Bool) (s : State)
    (h : Reachable stringmatchlen s) (c : Nat) (notify : Bool) :
    ∃ r, pubsubUnsubscribeAllPatterns s c notify = some r ∧
      r.retval = listLength (s.client c).pubsub_patterns ∧
      (r.st.client c).pubsub_patterns = [] ∧
      (∀ pat ∈ r.st.server.pubsub_patterns, pat.client ≠ c) ∧
      r.st.server.pubsub_patterns =
        s.server.pubsub_patterns.filter (fun pat => decide (pat.client ≠ c)) ∧
      (notify = true → listLength (s.client c).pubsub_patterns ≠ 0 →
        r.out =
          (s.client c).pubsub_patterns.enum.flatMap
            (fun ik => frame3 c (Reply.bulk "punsubscribe") (Reply.bulk ik.2)
              (Reply.longlong
                (dictSize (s.client c).pubsub_channels +
                  (listLength (s.client c).pubsub_patterns - (ik.1 + 1)))))) := by
  have hs := Inv_of_reachable h
  obtain ⟨r, hres, hret, hout, _, hpe, _, _, _, hg⟩ :=
    pubsubUnsubscribeAllPatterns_of_inv hs c notify
  refine ⟨r, hres, hret, hpe, ?_, hg, ?_⟩
  · intro pat hpat
    rw [hg] at hpat
    simpa using (List.mem_filter.1 hpat).2
  · intro hn h0
    have h0b : (listLength (s.client c).pubsub_patterns == 0) = false := by simpa using h0
    rw [hout, hn, h0b]
    simp only [if_true, Bool.and_false, Bool.false_eq_true, if_false, List.append_nil]
    rw [unsubscribeFrames_eq_enum]
    have hcount : ∀ i, (s.client c).pubsub_patterns.length - 1 - i +
        dictSize (s.client c).pubsub_channels =
        dictSize (s.client c).pubsub_channels +
          (listLength (s.client c).pubsub_patterns - (i + 1)) := by
      intro i
      simp only [listLength]
      omega
    simp only [hcount]

theorem pubsubUnsubscribeAllPatterns_full_witness :
    Reachable exampleMatcher exampleStateBusy ∧
    ∃ r, pubsubUnsubscribeAllPatterns exampleStateBusy 1 true = some r ∧
      r.retval = listLength (exampleStateBusy.client 1).pubsub_patterns ∧
      (r.st.client 1).pubsub_patterns = [] ∧
      (∀ pat ∈ r.st.server.pubsub_patterns, pat.client ≠ 1) ∧
      r.st.server.pubsub_patterns =
        exampleStateBusy.server.pubsub_patterns.filter (fun pat => decide (pat.client ≠ 1)) ∧
      (true = true → listLength (exampleStateBusy.client 1).pubsub_patterns ≠ 0 →
        r.out =
          (exampleStateBusy.client 1).pubsub_patterns.enum.flatMap
            (fun ik => frame3 1 (Reply.bulk "punsubscribe") (Reply.bulk ik.2)
              (Reply.longlong
                (dictSize (exampleStateBusy.client 1).pubsub_channels +
                  (listLength (exampleStateBusy.client 1).pubsub_patterns - (ik.1 + 1)))))) :=
  ⟨exampleStateBusy_reachable exampleMatcher,
    pubsubUnsubscribeAllPatterns_full exampleMatcher exampleStateBusy
      (exampleStateBusy_reachable exampleMatcher) 1 true⟩

/-! ## Silent teardown -/

theorem pubsubUnsubscribeChannel_silent (s : State) (c : Nat) (channel : robj) :
    pubsubUnsubscribeChannel s c channel false =
      (pubsubUnsubscribeChannel s c channel true).map (fun r => { r with out := [] }) := by
  simp [pubsubUnsubscribeChannel, Option.map_map, Function.comp_def]

theorem pubsubUnsubscribePattern_silent (s : State) (c : Nat) (pattern : robj) :
    pubsubUnsubscribePattern s c pattern false =
      (pubsubUnsubscribePattern s c pattern true).map (fun r => { r with out := [] }) := by
  simp [pubsubUnsubscribePattern, Option.map_map, Function.comp_def]

theorem unsubscribeChannelsLoop_silent (c : Nat) (keys : List robj) :
    ∀ s : State, unsubscribeChannelsLoop c false keys s =
      (unsubscribeChannelsLoop c true keys s).map (fun t => (t.1, [], t.2.2)) := by
  induction keys with
  | nil => intro s; rfl
  | cons k rest ih =>
    intro s
    simp only [unsubscribeChannelsLoop, pubsubUnsubscribeChannel_silent]
    cases h1 : pubsubUnsubscribeChannel s c k true with
    | none => rfl
    | some r =>
      simp only [Option.map_some', ih]
      cases h2 : unsubscribeChannelsLoop c true rest r.st with
      | none => rfl
      | some t => rfl

theorem unsubscribePatternsLoop_silent (c : Nat) (pats : List robj) :
    ∀ s : State, unsubscribePatternsLoop c false pats s =
      (unsubscribePatternsLoop c true pats s).map (fun t => (t.1, [], t.2.2)) := by
  induction pats with
  | nil => intro s; rfl
  | cons k rest ih =>
    intro s
    simp only [unsubscribePatternsLoop, pubsubUnsubscribePattern_silent]
    cases h1 : pubsubUnsubscribePattern s c k true with
    | none => rfl
    | some r =>
      simp only [Option.map_some', ih]
      cases h2 : unsubscribePatternsLoop c true rest r.st with
      | none => rfl
      | some t => rfl

theorem pubsubUnsubscribeAllChannels_silent (s : State) (c : Nat) :
    pubsubUnsubscribeAllChannels s c false =
      (pubsubUnsubscribeAllChannels s c true).map (fun r => { r with out := [] }) := by
  simp only [pubsubUnsubscribeAllChannels, unsubscribeChannelsLoop_silent]
  cases unsubscribeChannelsLoop c true (dictKeys (s.client c).pubsub_channels) s with
  | none => rfl
  | some t => simp

theorem pubsubUnsubscribeAllPatterns_silent (s : State) (c : Nat) :
    pubsubUnsubscribeAllPatterns s c false =
      (pubsubUnsubscribeAllPatterns s c true).map (fun r => { r with out := [] }) := by
  simp only [pubsubUnsubscribeAllPatterns, unsubscribePatternsLoop_silent]
  cases unsubscribePatternsLoop c true (s.client c).pubsub_patterns s with
  | none => rfl
  | some t => simp

theorem silent_of_map {f0 f1 : Option Result} {r1 : Result}
    (hsil : f0 = f1.map (fun r => { r with out := [] })) (h1 : f1 = some r1) :
    ∃ r0 r, f0 = some r0 ∧ f1 = some r ∧ r0.out = [] ∧ r0.retval = r.retval ∧ r0.st = r.st :=
  ⟨{ r1 with out := [] }, r1, by rw [hsil, h1]; rfl, h1, rfl, rfl, rfl⟩

/-- C20 (silent teardown): in a reachable state each of
`pubsubUnsubscribeChannel`, `pubsubUnsubscribePattern`,
`pubsubUnsubscribeAllChannels` and `pubsubUnsubscribeAllPatterns` with `notify`
unset succeeds, emits nothing, and has the same return value and the same
resulting state as the same call with `notify` set; and after
`pubsubUnsubscribeAllChannels` followed by `pubsubUnsubscribeAllPatterns`, both
with `notify` unset, the client is in no subscriber list and owns no record of
the global pattern list. -/
theorem silent_teardown (stringmatchlen : robj → robj → Bool) (s : State)
    (h : Reachable stringmatchlen s) (c : Nat) (name : robj) :
    (∃ r0 r1, pubsubUnsubscribeChannel s c name false = some r0 ∧
      pubsubUnsubscribeChannel s c name true = some r1 ∧
      r0.out = [] ∧ r0.retval = r1.retval ∧ r0.st = r1.st) ∧
    (∃ r0 r1, pubsubUnsubscribePattern s c name false = some r0 ∧
      pubsubUnsubscribePattern s c name true = some r1 ∧
      r0.out = [] ∧ r0.retval = r1.retval ∧ r0.st = r1.st) ∧
    (∃ r0 r1, pubsubUnsubscribeAllChannels s c false = some r0 ∧
      pubsubUnsubscribeAllChannels s c true = some r1 ∧
      r0.out = [] ∧ r0.retval = r1.retval ∧ r0.st = r1.st) ∧
    (∃ r0 r1, pubsubUnsubscribeAllPatterns s c false = some r0 ∧
      pubsubUnsubscribeAllPatterns s c true = some r1 ∧
      r0.out = [] ∧ r0.retval = r1.retval ∧ r0.st = r1.st) ∧
    (∃ r1 r2, pubsubUnsubscribeAllChannels s c false = some r1 ∧
      pubsubUnsubscribeAllPatterns r1.st c false = some r2 ∧
      r1.out = [] ∧ r2.out = [] ∧
      (∀ channel, c ∉ subscribers r2.st channel) ∧
      (∀ pat ∈ r2.st.server.pubsub_patterns, pat.client ≠ c)) := by
  have hs := Inv_of_reachable h
  refine ⟨?_, ?_, ?_, ?_, ?_⟩
  · rcases pubsubUnsubscribeChannel_cases hs c name true with ⟨_, hres⟩ | ⟨l, _, _, _, hres⟩ <;>
      exact silent_of_map (pubsubUnsubscribeChannel_silent s c name) hres
  · rcases pubsubUnsubscribePattern_cases hs c name true with ⟨_, hres⟩ | ⟨_, hres⟩ <;>
      exact silent_of_map (pubsubUnsubscribePattern_silent s c name) hres
  · obtain ⟨r, hres, _⟩ := pubsubUnsubscribeAllChannels_of_inv hs c true
    exact silent_of_map (pubsubUnsubscribeAllChannels_silent s c) hres
  · obtain ⟨r, hres, _⟩ := pubsubUnsubscribeAllPatterns_of_inv hs c true
    exact silent_of_map (pubsubUnsubscribeAllPatterns_silent s c) hres
  · obtain ⟨r1, hres1, _, hout1, hinv1, _, _, _, _, hsub1⟩ :=
      pubsubUnsubscribeAllChannels_of_inv hs c false
    obtain ⟨r2, hres2, _, hout2, _, _, _, _, hsrv2, hg2⟩ :=
      pubsubUnsubscribeAllPatterns_of_inv hinv1 c false
    refine ⟨r1, r2, hres1, hres2, by simpa using hout1, by simpa using hout2, ?_, ?_⟩
    · intro channel hm
      have hsame : subscribers r2.st channel = subscribers r1.st channel := by
        simp only [subscribers, hsrv2]
      rw [hsame, hsub1 channel] at hm
      exact ((List.Nodup.mem_erase_iff (subscribers_nodup hs channel)).1 hm).1 rfl
    · intro pat hpat
      rw [hg2] at hpat
      simpa using (List.mem_filter.1 hpat).2

theorem silent_teardown_witness :
    Reachable exampleMatcher exampleStateBusy ∧
    ∃ r1 r2, pubsubUnsubscribeAllChannels exampleStateBusy 1 false = some r1 ∧
      pubsubUnsubscribeAllPatterns r1.st 1 false = some r2 ∧
      r1.out = [] ∧ r2.out = [] ∧
      (∀ channel, 1 ∉ subscribers r2.st channel) ∧
      (∀ pat ∈ r2.st.server.pubsub_patterns, pat.client ≠ 1) :=
  ⟨exampleStateBusy_reachable exampleMatcher,
    (silent_teardown exampleMatcher exampleStateBusy
      (exampleStateBusy_reachable exampleMatcher) 1 "news").2.2.2.2⟩

/-! ## Introspection: `pubsubCommand` -/

theorem strcasecmp_eq_zero_iff (a b : robj) :
    strcasecmp a b = 0 ↔ (cstring a).map Char.toLower = (cstring b).map Char.toLower := by
  unfold strcasecmp
  split <;> simp_all

theorem strcasecmp_numsub_not_channels {a : robj} (h : strcasecmp a "numsub" = 0) :
    strcasecmp a "channels" ≠ 0 := by
  rw [strcasecmp_eq_zero_iff] at h
  rw [Ne, strcasecmp_eq_zero_iff, h]
  decide

theorem strcasecmp_numpat_not_channels {a : robj} (h : strcasecmp a "numpat" = 0) :
    strcasecmp a "channels" ≠ 0 := by
  rw [strcasecmp_eq_zero_iff] at h
  rw [Ne, strcasecmp_eq_zero_iff, h]
  decide

theorem strcasecmp_numpat_not_numsub {a : robj} (h : strcasecmp a "numpat" = 0) :
    strcasecmp a "numsub" ≠ 0 := by
  rw [strcasecmp_eq_zero_iff] at h
  rw [Ne, strcasecmp_eq_zero_iff, h]
  decide

theorem pubsubChannelsLoop_eq (m : robj → robj → Bool) (c : Nat) (pat : Option robj)
    (d : dict (List Nat)) (acc : Nat × Output) :
    pubsubChannelsLoop m c pat d acc =
      (acc.1 + ((dictKeys d).filter (channelListed m pat)).length,
        acc.2 ++ ((dictKeys d).filter (channelListed m pat)).map
          (fun name => (c, Reply.bulk name))) := by
  induction d generalizing acc with
  | nil => simp [pubsubChannelsLoop, dictKeys]
  | cons e rest ih =>
    obtain ⟨channel, l⟩ := e
    obtain ⟨mblen, out⟩ := acc
    by_cases hm : channelListed m pat channel = true
    · simp only [pubsubChannelsLoop, hm, if_true, ih]
      simp only [dictKeys, List.map_cons, List.filter_cons, hm, if_true, List.length_cons,
        addReplyBulk, List.append_assoc, List.singleton_append, Prod.mk.injEq, and_true]
      omega
    · simp only [pubsubChannelsLoop, hm, if_false, ih]
      simp only [dictKeys, List.map_cons, List.filter_cons, hm, if_false,
        Bool.false_eq_true]

theorem pubsubCommand_channels (m : robj → robj → Bool) (s : State) (c : Nat)
    (cmd sub : robj) (pat : Option robj) (hsub : strcasecmp sub "channels" = 0) :
    pubsubCommand m s c (cmd :: sub :: pat.toList) =
      some
        { retval := 0
          out := (c, Reply.mbulkhdr (listedChannels m s pat).length) ::
            (listedChannels m s pat).map (fun name => (c, Reply.bulk name))
          st := s } := by
  cases pat with
  | none =>
    simp [pubsubCommand, hsub, pubsubChannelsLoop_eq, setDeferredMultiBulkLength,
      listedChannels]
  | some p =>
    simp [pubsubCommand, hsub, pubsubChannelsLoop_eq, setDeferredMultiBulkLength,
      listedChannels]

theorem mem_listedChannels {m : robj → robj → Bool} {s : State} (hs : Inv s)
    (pat : Option robj) (name : robj) :
    name ∈ listedChannels m s pat ↔
      (1 ≤ subscriber_count s name ∧ ∀ p, pat = some p → m p name = true) := by
  have hkey : name ∈ dictKeys s.server.pubsub_channels ↔ 1 ≤ subscriber_count s name := by
    rw [← dictFind_isSome_iff, subscriber_count_eq]
    unfold subscribers
    cases hd : dictFind s.server.pubsub_channels name with
    | none => simp
    | some l =>
      have := hs.nonempty name l hd
      simp only [Option.isSome_some, Option.getD_some, true_iff]
      exact List.length_pos.2 this
  unfold listedChannels
  rw [List.mem_filter, hkey]
  cases pat with
  | none => simp [channelListed]
  | some p => simp [channelListed]

theorem run_append (m : robj → robj → Bool) (calls1 calls2 : List Call) :
    ∀ s : State, run m s (calls1 ++ calls2) =
      (run m s calls1).bind (fun s1 => run m s1 calls2) := by
  induction calls1 with
  | nil => intro s; rfl
  | cons call rest ih =>
    intro s
    simp only [List.cons_append, run]
    cases call.exec m s with
    | none => rfl
    | some r => exact ih r.st

theorem Reachable_step {m : robj → robj → Bool} {s : State} (h : Reachable m s) {call : Call}
    {r : Result} (hc : call.exec m s = some r) : Reachable m r.st := by
  obtain ⟨calls, hcalls⟩ := h
  refine ⟨calls ++ [call], ?_⟩
  rw [run_append, hcalls]
  simp [run, hc]

/-- C16: in a reachable state `PUBSUB CHANNELS [pattern]` replies with a header
announcing as many elements as follow, then one bulk per listed channel name;
the listed names are pairwise distinct and are exactly the names with at least
one subscriber that, when a pattern is given, the matcher accepts against the
pattern.  In particular, once the only subscriber of a channel has unsubscribed
the unfiltered listing does not contain the channel. -/
theorem pubsub_channels_listing (stringmatchlen : robj → robj → Bool) (s : State)
    (h : Reachable stringmatchlen s) (c : Nat) (cmd sub : robj) (pat : Option robj)
    (hsub : strcasecmp sub "channels" = 0) :
    (∃ names : List robj, pubsubCommand stringmatchlen s c (cmd :: sub :: pat.toList) =
        some
          { retval := 0
            out := (c, Reply.mbulkhdr names.length) ::
              names.map (fun name => (c, Reply.bulk name))
            st := s } ∧
      names.Nodup ∧
      ∀ name, name ∈ names ↔
        (1 ≤ subscriber_count s name ∧ ∀ p, pat = some p → stringmatchlen p name = true)) ∧
    (∀ (d : Nat) (channel : robj) (notify : Bool), subscribers s channel = [d] →
      ∃ r res, pubsubUnsubscribeChannel s d channel notify = some r ∧
        pubsubCommand stringmatchlen r.st c [cmd, sub] = some res ∧
        ∀ e ∈ res.out, e.2 ≠ Reply.bulk channel) := by
  have hs := Inv_of_reachable h
  have hnodup : ∀ (t : State), Inv t → ∀ q, (listedChannels stringmatchlen t q).Nodup :=
    fun t ht q => ht.server_keys.filter _
  refine ⟨⟨listedChannels stringmatchlen s pat,
    pubsubCommand_channels stringmatchlen s c cmd sub pat hsub, hnodup s hs pat,
    mem_listedChannels hs pat⟩, ?_⟩
  intro d channel notify hsubs
  have hmem : d ∈ subscribers s channel := by simp [hsubs]
  have hhas : dictFind (s.client d).pubsub_channels channel = some () :=
    (hs.chan_iff d channel).2 ((mem_subscribers_iff s d channel).1 hmem)
  rcases pubsubUnsubscribeChannel_cases hs d channel notify with
    ⟨hnone, _⟩ | ⟨l, _, hl, hc, hres⟩
  · rw [hhas] at hnone
    cases hnone
  · have hs2 := Inv_stateAfterUnsubscribe hs hl hc
    have hl2 : l = [d] := by
      simpa [subscribers, hl] using hsubs
    refine ⟨_, _, hres, pubsubCommand_channels stringmatchlen _ c cmd sub none hsub, ?_⟩
    intro e he
    simp only [List.mem_cons, List.mem_map] at he
    rcases he with rfl | ⟨name, hname, rfl⟩
    · simp
    · intro heq
      cases heq
      have := ((mem_listedChannels hs2 none channel).1 hname).1
      rw [subscriber_count_eq, subscribers_stateAfterUnsubscribe hl, if_pos rfl, hl2] at this
      simp at this

theorem pubsub_channels_listing_witness :
    Reachable exampleMatcher exampleStateBusy ∧ strcasecmp "CHANNELS" "channels" = 0 ∧
    ∃ names : List robj, pubsubCommand exampleMatcher exampleStateBusy 7
        ("pubsub" :: "CHANNELS" :: (some "new*").toList) =
        some
          { retval := 0
            out := (7, Reply.mbulkhdr names.length) ::
              names.map (fun name => (7, Reply.bulk name))
            st := exampleStateBusy } ∧
      names.Nodup ∧
      ∀ name, name ∈ names ↔
        (1 ≤ subscriber_count exampleStateBusy name ∧
          ∀ p, some "new*" = some p → exampleMatcher p name = true) :=
  ⟨exampleStateBusy_reachable exampleMatcher, by decide,
    (pubsub_channels_listing exampleMatcher exampleStateBusy
      (exampleStateBusy_reachable exampleMatcher) 7 "pubsub" "CHANNELS" (some "new*")
      (by decide)).1⟩

theorem pubsubNumsubLoop_eq (s : State) (c : Nat) (args : List robj) :
    pubsubNumsubLoop s c args =
      args.flatMap
        (fun a => [(c, Reply.bulk a), (c, Reply.bulkLongLong (subscriber_count s a))]) := by
  induction args with
  | nil => rfl
  | cons a rest ih =>
    simp only [pubsubNumsubLoop, ih, List.flatMap_cons, addReplyBulk, addReplyBulkLongLong,
      subscriber_count]
    simp

theorem pubsubCommand_eq (m : robj → robj → Bool) (s : State) (c : Nat) (cmd sub : robj)
    (args : List robj) :
    pubsubCommand m s c (cmd :: sub :: args) =
      some
        { retval := 0
          out :=
            if strcasecmp sub "channels" = 0 ∧ args.length ≤ 1 then
              (c, Reply.mbulkhdr (listedChannels m s args.head?).length) ::
                (listedChannels m s args.head?).map (fun name => (c, Reply.bulk name))
            else if strcasecmp sub "numsub" = 0 then
              (c, Reply.mbulkhdr (2 * args.length)) ::
                args.flatMap
                  (fun a => [(c, Reply.bulk a), (c, Reply.bulkLongLong (subscriber_count s a))])
            else if strcasecmp sub "numpat" = 0 ∧ args = [] then
              [(c, Reply.longlong (listLength s.server.pubsub_patterns))]
            else
              [(c, Reply.error
                ("Unknown PUBSUB subcommand or wrong number of arguments for '" ++
                  String.mk (cstring sub) ++ "'"))]
          st := s } := by
  by_cases h1 : strcasecmp sub "channels" = 0
  · match args with
    | [] =>
      simp [pubsubCommand, h1, pubsubChannelsLoop_eq, setDeferredMultiBulkLength,
        listedChannels]
    | [p] =>
      simp [pubsubCommand, h1, pubsubChannelsLoop_eq, setDeferredMultiBulkLength,
        listedChannels]
    | p :: q :: rest =>
      by_cases h2 : strcasecmp sub "numsub" = 0
      · simp [pubsubCommand, h1, h2, pubsubNumsubLoop_eq, addReplyMultiBulkLen]
        omega
      · simp [pubsubCommand, h1, h2, addReplyErrorFormat]
  · by_cases h2 : strcasecmp sub "numsub" = 0
    · simp [pubsubCommand, h1, h2, pubsubNumsubLoop_eq, addReplyMultiBulkLen, Nat.mul_comm]
    · by_cases h3 : strcasecmp sub "numpat" = 0
      · match args with
        | [] => simp [pubsubCommand, h1, h2, h3, addReplyLongLong]
        | p :: rest => simp [pubsubCommand, h1, h2, h3, addReplyErrorFormat]
      · simp [pubsubCommand, h1, h2, h3, addReplyErrorFormat]

/-- C17: for every request `PUBSUB NUMSUB a1 ... ak` the reply is the header
announcing `2k` elements followed, for each `ai` in request order (duplicates
included), by `ai` verbatim and the length of its subscriber list in the global
channel index, 0 when `ai` is not in the index.  With `news` having one
subscriber and `sports` none, `NUMSUB news sports` replies
`["news", 1, "sports", 0]`. -/
theorem pubsub_numsub (stringmatchlen : robj → robj → Bool) (s : State) (c : Nat)
    (cmd sub : robj) (args : List robj) (hsub : strcasecmp sub "numsub" = 0) :
    pubsubCommand stringmatchlen s c (cmd :: sub :: args) =
      some
        { retval := 0
          out := (c, Reply.mbulkhdr (2 * args.length)) ::
            args.flatMap
              (fun a => [(c, Reply.bulk a), (c, Reply.bulkLongLong (subscriber_count s a))])
          st := s } ∧
    (subscriber_count s "news" = 1 → subscriber_count s "sports" = 0 →
      pubsubCommand stringmatchlen s c [cmd, sub, "news", "sports"] =
        some
          { retval := 0
            out := [(c, Reply.mbulkhdr 4), (c, Reply.bulk "news"), (c, Reply.bulkLongLong 1),
              (c, Reply.bulk "sports"), (c, Reply.bulkLongLong 0)]
            st := s }) := by
  have key : ∀ l : List robj, pubsubCommand stringmatchlen s c (cmd :: sub :: l) =
      some
        { retval := 0
          out := (c, Reply.mbulkhdr (2 * l.length)) ::
            l.flatMap
              (fun a => [(c, Reply.bulk a), (c, Reply.bulkLongLong (subscriber_count s a))])
          st := s } := by
    intro l
    rw [pubsubCommand_eq]
    simp [strcasecmp_numsub_not_channels hsub, hsub]
  refine ⟨key args, fun h1 h0 => ?_⟩
  rw [key]
  simp [h1, h0]

theorem pubsub_numsub_witness :
    strcasecmp "NumSub" "numsub" = 0 ∧ subscriber_count exampleState "news" = 1 ∧
    subscriber_count exampleState "sports" = 0 ∧
    pubsubCommand exampleMatcher exampleState 7 ["pubsub", "NumSub", "news", "sports"] =
      some
        { retval := 0
          out := [(7, Reply.mbulkhdr 4), (7, Reply.bulk "news"), (7, Reply.bulkLongLong 1),
            (7, Reply.bulk "sports"), (7, Reply.bulkLongLong 0)]
          st := exampleState } :=
  ⟨by decide, by decide, by decide,
    (pubsub_numsub exampleMatcher exampleState 7 "pubsub" "NumSub" [] (by decide)).2
      (by decide) (by decide)⟩

/-- C19, the statement as claimed fails: the subcommand `ChAnNeLs`, a NUL byte,
`junk` is not `channels` up to case, yet `strcasecmp` reads it only up to the
NUL byte and `pubsubCommand` serves the request as `PUBSUB CHANNELS`, replying
with the listing and no error. -/
theorem pubsubCommand_error_iff_counterexample :
    ¬ pubsubRequestListed exampleNulSubcommand [] ∧
    (pubsubCommand exampleMatcher exampleState 7 ["pubsub", exampleNulSubcommand]).map
      (fun r => r.out) = some [(7, Reply.mbulkhdr 1), (7, Reply.bulk "news")] :=
  ⟨by
      unfold pubsubRequestListed
      decide,
    by decide⟩

/-- C19 (amended): `pubsubCommand` replies with the formatted error, naming the
bytes of `argv[1]` before its first NUL byte, if and only if the request is not
one of: `channels` with at most one further argument, `numsub` with any further
arguments, `numpat` with no further argument, where the subcommand is compared
by `strcasecmp`: up to ASCII case, on the bytes before the first NUL byte (for a
subcommand without NUL byte, on the whole string).  In the error case the error
is the whole reply, and in every case the state is unchanged. -/
theorem pubsubCommand_error_iff (stringmatchlen : robj → robj → Bool) (s : State) (c : Nat)
    (cmd sub : robj) (args : List robj) :
    (∃ r, pubsubCommand stringmatchlen s c (cmd :: sub :: args) = some r ∧ r.st = s ∧
      (¬ pubsubRequestServed sub args →
        r.out =
          [(c, Reply.error
            ("Unknown PUBSUB subcommand or wrong number of arguments for '" ++
              String.mk (cstring sub) ++ "'"))]) ∧
      (pubsubRequestServed sub args → ∀ e ∈ r.out, ∀ msg, e.2 ≠ Reply.error msg)) ∧
    (Char.ofNat 0 ∉ sub.toList → ∀ name : robj, Char.ofNat 0 ∉ name.toList →
      (strcasecmp sub name = 0 ↔
        sub.toList.map Char.toLower = name.toList.map Char.toLower)) ∧
    (∀ name : robj, strcasecmp sub name = 0 ↔
      (cstring sub).map Char.toLower = (cstring name).map Char.toLower) := by
  refine ⟨?_, ?_, fun name => strcasecmp_eq_zero_iff sub name⟩
  · refine ⟨_, pubsubCommand_eq stringmatchlen s c cmd sub args, rfl, ?_, ?_⟩
    · intro hnot
      simp only [pubsubRequestServed, not_or] at hnot
      simp only [if_neg hnot.1, if_neg hnot.2.1, if_neg hnot.2.2]
    · intro hok e he msg
      simp only at he
      by_cases h1 : strcasecmp sub "channels" = 0 ∧ args.length ≤ 1
      · rw [if_pos h1] at he
        simp only [List.mem_cons, List.mem_map] at he
        rcases he with rfl | ⟨name, _, rfl⟩ <;> simp
      · rw [if_neg h1] at he
        by_cases h2 : strcasecmp sub "numsub" = 0
        · rw [if_pos h2] at he
          simp only [List.mem_cons, List.mem_flatMap, List.mem_singleton, List.not_mem_nil,
            or_false] at he
          rcases he with rfl | ⟨a, _, rfl | rfl⟩ <;> simp
        · rw [if_neg h2] at he
          have h3 : strcasecmp sub "numpat" = 0 ∧ args = [] := by
            rcases hok with h | h | h
            · exact absurd h h1
            · exact absurd h h2
            · exact h
          rw [if_pos h3] at he
          simp only [List.mem_singleton] at he
          subst he
          simp
  · intro hsub name hname
    have hc : ∀ a : robj, Char.ofNat 0 ∉ a.toList → cstring a = a.toList := by
      intro a ha
      unfold cstring
      apply List.takeWhile_eq_self_iff.2
      intro ch hch
      simpa using fun e : ch = Char.ofNat 0 => ha (e ▸ hch)
    rw [strcasecmp_eq_zero_iff, hc sub hsub, hc name hname]

theorem pubsubCommand_error_iff_witness :
    ¬ pubsubRequestServed "NUMPAT" ["x"] ∧
    ∃ r, pubsubCommand exampleMatcher exampleState 7 ("pubsub" :: "NUMPAT" :: ["x"]) = some r ∧
      r.st = exampleState ∧
      (¬ pubsubRequestServed "NUMPAT" ["x"] →
        r.out =
          [(7, Reply.error
            ("Unknown PUBSUB subcommand or wrong number of arguments for '" ++
              String.mk (cstring "NUMPAT") ++ "'"))]) ∧
      (pubsubRequestServed "NUMPAT" ["x"] → ∀ e ∈ r.out, ∀ msg, e.2 ≠ Reply.error msg) :=
  ⟨by
      unfold pubsubRequestServed
      decide,
    (pubsubCommand_error_iff exampleMatcher exampleState 7 "pubsub" "NUMPAT" ["x"]).1⟩

/-! ## `PUBSUB NUMPAT` -/

theorem sum_indicator_eq_count (cs : List Nat) (a : Nat) :
    (cs.map (fun x => if a = x then 1 else 0)).sum = cs.count a := by
  induction cs with
  | nil => rfl
  | cons x rest ih =>
    rw [List.map_cons, List.sum_cons, ih, List.count_cons]
    by_cases h : a = x
    · subst h
      simp [Nat.add_comm]
    · have h2 : ¬ x = a := fun e => h e.symm
      simp [h, h2]

theorem length_eq_sum_by_client (l : List pubsubPattern) (cs : List Nat) (hnd : cs.Nodup)
    (hall : ∀ pat ∈ l, pat.client ∈ cs) :
    l.length =
      (cs.map (fun x => (l.filter (fun pat => decide (pat.client = x))).length)).sum := by
  induction l with
  | nil => simp
  | cons pat rest ih =>
    have hrest := ih (fun q hq => hall q (List.mem_cons_of_mem _ hq))
    have hstep : ∀ x, ((pat :: rest).filter (fun q => decide (q.client = x))).length =
        (rest.filter (fun q => decide (q.client = x))).length +
          (if pat.client = x then 1 else 0) := by
      intro x
      by_cases hx : pat.client = x <;> simp [List.filter_cons, hx]
    simp only [hstep, List.sum_map_add, sum_indicator_eq_count, List.length_cons, ← hrest]
    rw [List.count_eq_one_of_mem hnd (hall pat (List.mem_cons_self _ _))]

theorem length_records_of_client {s : State} (hs : Inv s) (x : Nat) :
    (s.server.pubsub_patterns.filter (fun pat => decide (pat.client = x))).length =
      (s.client x).pubsub_patterns.length := by
  have hnd1 : ((s.server.pubsub_patterns.filter
      (fun pat => decide (pat.client = x))).map pubsubPattern.pattern).Nodup := by
    apply List.Nodup.map_on _ (hs.gpats_nodup.filter _)
    intro a ha b hb hab
    have ha2 : a.client = x := by simpa using (List.mem_filter.1 ha).2
    have hb2 : b.client = x := by simpa using (List.mem_filter.1 hb).2
    cases a
    cases b
    simp_all
  have hperm : ((s.server.pubsub_patterns.filter
      (fun pat => decide (pat.client = x))).map pubsubPattern.pattern).Perm
      (s.client x).pubsub_patterns := by
    rw [List.perm_ext_iff_of_nodup hnd1 (hs.pats_nodup x)]
    intro p
    rw [hs.pat_iff x p]
    constructor
    · intro hp
      obtain ⟨pat, hpat, rfl⟩ := List.mem_map.1 hp
      have hc : pat.client = x := by simpa using (List.mem_filter.1 hpat).2
      have hm := (List.mem_filter.1 hpat).1
      cases pat
      simp_all
    · intro hp
      exact List.mem_map.2 ⟨_, List.mem_filter.2 ⟨hp, by simp⟩, rfl⟩
  rw [← hperm.length_eq, List.length_map]

/-- C18: `PUBSUB NUMPAT` replies with the length of the global pattern list.
In every reachable state this length is the sum, over any duplicate-free
collection of clients that contains every client holding a pattern, of the
lengths of the clients' own pattern lists.  Two clients subscribing to the same
pattern make 2, one client subscribing to the same pattern twice makes 1. -/
theorem pubsub_numpat (stringmatchlen : robj → robj → Bool) (s : State) (c : Nat)
    (cmd sub : robj) (hsub : strcasecmp sub "numpat" = 0) :
    pubsubCommand stringmatchlen s c [cmd, sub] =
      some
        { retval := 0
          out := [(c, Reply.longlong (listLength s.server.pubsub_patterns))]
          st := s } ∧
    (Reachable stringmatchlen s → ∀ cs : List Nat, cs.Nodup →
      (∀ x, (s.client x).pubsub_patterns ≠ [] → x ∈ cs) →
      listLength s.server.pubsub_patterns =
        (cs.map (fun x => listLength (s.client x).pubsub_patterns)).sum) ∧
    (∀ (a b : Nat) (p : robj), a ≠ b →
      listLength
        (pubsubSubscribePattern (pubsubSubscribePattern State.init a p).st b
          p).st.server.pubsub_patterns = 2) ∧
    (∀ (a : Nat) (p : robj),
      listLength
        (pubsubSubscribePattern (pubsubSubscribePattern State.init a p).st a
          p).st.server.pubsub_patterns = 1) := by
  refine ⟨?_, ?_, ?_, ?_⟩
  · rw [pubsubCommand_eq]
    simp [strcasecmp_numpat_not_channels hsub, strcasecmp_numpat_not_numsub hsub, hsub]
  · intro hr cs hnd hall
    have hs := Inv_of_reachable hr
    have hmem : ∀ pat ∈ s.server.pubsub_patterns, pat.client ∈ cs := by
      intro pat hpat
      apply hall
      have : pat.pattern ∈ (s.client pat.client).pubsub_patterns :=
        (hs.pat_iff pat.client pat.pattern).2 hpat
      exact List.ne_nil_of_mem this
    simp only [listLength]
    rw [length_eq_sum_by_client _ cs hnd hmem]
    simp only [length_records_of_client hs]
  · intro a b p hab
    have h1 : p ∉ (State.init.client a).pubsub_patterns := by simp [State.init]
    have h2 : p ∉ ((pubsubSubscribePattern State.init a p).st.client b).pubsub_patterns := by
      rw [pubsubSubscribePattern_of_not_has h1]
      have hba : ¬ b = a := fun e => hab e.symm
      simp [stateAfterPsubscribe, State.setClient, State.init, hba]
    rw [pubsubSubscribePattern_of_not_has h2, pubsubSubscribePattern_of_not_has h1]
    simp [stateAfterPsubscribe, State.init, listLength]
  · intro a p
    have h1 : p ∉ (State.init.client a).pubsub_patterns := by simp [State.init]
    have h2 : p ∈ ((pubsubSubscribePattern State.init a p).st.client a).pubsub_patterns := by
      rw [pubsubSubscribePattern_of_not_has h1]
      simp [stateAfterPsubscribe]
    rw [pubsubSubscribePattern_of_has h2, pubsubSubscribePattern_of_not_has h1]
    simp [stateAfterPsubscribe, State.init, listLength]

theorem pubsub_numpat_witness :
    strcasecmp "NUMPAT" "numpat" = 0 ∧ Reachable exampleMatcher exampleStateBusy ∧
    ([1, 2] : List Nat).Nodup ∧
    (∀ x, (exampleStateBusy.client x).pubsub_patterns ≠ [] → x ∈ ([1, 2] : List Nat)) ∧
    listLength exampleStateBusy.server.pubsub_patterns =
      (([1, 2] : List Nat).map
        (fun x => listLength (exampleStateBusy.client x).pubsub_patterns)).sum :=
  have hall : ∀ x, (exampleStateBusy.client x).pubsub_patterns ≠ [] → x ∈ ([1, 2] : List Nat) := by
    intro x hx
    by_cases h1 : x = 1
    · simp [h1]
    · by_cases h2 : x = 2
      · simp [h2]
      · exfalso
        apply hx
        simp [exampleStateBusy, pubsubSubscribePattern, pubsubSubscribeChannel, listSearchKey,
          dictAdd, dictFind, State.setClient, State.setServer, State.init, h1, h2]
  ⟨by decide, exampleStateBusy_reachable exampleMatcher, by decide, hall,
    (pubsub_numpat exampleMatcher exampleStateBusy 7 "pubsub" "NUMPAT" (by decide)).2.1
      (exampleStateBusy_reachable exampleMatcher) [1, 2] (by decide) hall⟩

/-! ## The fatal checks, round trips, read-only publish, duplicate-free lists -/

theorem exec_isSome_of_inv {m : robj → robj → Bool} {s : State} (hs : Inv s) (call : Call) :
    (call.exec m s).isSome = true := by
  cases call with
  | subscribe_channel c channel => rfl
  | unsubscribe_channel c channel notify =>
    rcases pubsubUnsubscribeChannel_cases hs c channel notify with ⟨_, h⟩ | ⟨l, _, _, _, h⟩ <;>
      simp [Call.exec, h]
  | subscribe_pattern c pattern => rfl
  | unsubscribe_pattern c pattern notify =>
    rcases pubsubUnsubscribePattern_cases hs c pattern notify with ⟨_, h⟩ | ⟨_, h⟩ <;>
      simp [Call.exec, h]
  | unsubscribe_all_channels c notify =>
    obtain ⟨r, h, _⟩ := pubsubUnsubscribeAllChannels_of_inv hs c notify
    simp [Call.exec, h]
  | unsubscribe_all_patterns c notify =>
    obtain ⟨r, h, _⟩ := pubsubUnsubscribeAllPatterns_of_inv hs c notify
    simp [Call.exec, h]
  | publish channel message => rfl

/-- C22: in every reachable state the fatal checks of the unsubscribe paths
cannot fail: whenever `dictDelete` finds the channel in the client's own
membership set, `dictFind` on the global channel index returns an entry
(`de != NULL`) and `listSearchKey` finds the client in its list
(`ln != NULL`); whenever `listSearchKey` finds the pattern in the client's own
pattern list, the search of the global pattern list for the record
`(pattern, client)` finds a node, so `listDelNode` is not applied to `NULL`;
hence no call aborts. -/
theorem fatal_checks_never_fail (stringmatchlen : robj → robj → Bool) (s : State)
    (h : Reachable stringmatchlen s) (c : Nat) (name : robj) :
    ((dictDelete (s.client c).pubsub_channels name).isSome = true →
      ∃ clients ln, dictFind s.server.pubsub_channels name = some clients ∧
        listSearchKey listMatchPointer clients c = some ln) ∧
    ((listSearchKey listMatchObjects (s.client c).pubsub_patterns name).isSome = true →
      ∃ ln2, listSearchKey listMatchPubsubPattern s.server.pubsub_patterns
        { client := c, pattern := name } = some ln2) ∧
    (∀ call : Call, (call.exec stringmatchlen s).isSome = true) := by
  have hs := Inv_of_reachable h
  refine ⟨?_, ?_, exec_isSome_of_inv hs⟩
  · intro hdel
    have hhas : dictFind (s.client c).pubsub_channels name = some () := by
      apply dictFind_unit
      intro hnone
      simp [dictDelete, hnone] at hdel
    obtain ⟨l, hl, hc⟩ := (hs.chan_iff c name).1 hhas
    obtain ⟨ln, hln⟩ := listSearchKey_isSome_of_mem listMatchPointer_iff hc
    exact ⟨l, ln, hl, hln⟩
  · intro hfound
    have hin : name ∈ (s.client c).pubsub_patterns := by
      by_contra hnot
      rw [(listSearchKey_eq_none_iff listMatchObjects_iff _ _).2 hnot] at hfound
      simp at hfound
    exact listSearchKey_isSome_of_mem listMatchPubsubPattern_iff ((hs.pat_iff c name).1 hin)

theorem fatal_checks_never_fail_witness :
    Reachable exampleMatcher exampleStateBusy ∧
    (dictDelete (exampleStateBusy.client 1).pubsub_channels "news").isSome = true ∧
    ∃ clients ln, dictFind exampleStateBusy.server.pubsub_channels "news" = some clients ∧
      listSearchKey listMatchPointer clients 1 = some ln :=
  ⟨exampleStateBusy_reachable exampleMatcher, by decide,
    (fatal_checks_never_fail exampleMatcher exampleStateBusy
      (exampleStateBusy_reachable exampleMatcher) 1 "news").1 (by decide)⟩

theorem State_ext {s t : State} (hc : ∀ x, s.client x = t.client x) (hsrv : s.server = t.server) :
    s = t := by
  cases s
  cases t
  simp only [State.mk.injEq]
  exact ⟨funext hc, hsrv⟩

theorem dictUpdateVal_of_not_mem {V : Type} {d : dict V} {key : robj} (f : V → V)
    (h : dictFind d key = none) : dictUpdateVal d key f = d := by
  have hk := (dictFind_eq_none_iff d key).1 h
  unfold dictUpdateVal
  have : ∀ e ∈ d, (fun e : robj × V => if e.1 = key then (e.1, f e.2) else e) e = id e := by
    intro e he
    have hne : ¬ e.1 = key := fun heq => hk (heq ▸ List.mem_map.2 ⟨e, he, rfl⟩)
    simp [hne]
  rw [List.map_congr_left this, List.map_id]

theorem dictUpdateVal_restore {V : Type} {d : dict V} {key : robj} {v : V} (f : V → V)
    (hd : (dictKeys d).Nodup) (h : dictFind d key = some v) :
    dictUpdateVal (dictUpdateVal d key f) key (fun _ => v) = d := by
  unfold dictUpdateVal
  rw [List.map_map]
  have : ∀ e ∈ d, ((fun e : robj × V => if e.1 = key then (e.1, v) else e) ∘
      (fun e : robj × V => if e.1 = key then (e.1, f e.2) else e)) e = id e := by
    intro e he
    obtain ⟨k, w⟩ := e
    by_cases hk : k = key
    · subst hk
      have := dictFind_of_mem hd he
      rw [h] at this
      cases this
      simp
    · simp [hk]
  rw [List.map_congr_left this, List.map_id]

theorem indexAfterUnsubscribe_indexAfterSubscribe {d : dict (List Nat)} {name : robj} {c : Nat}
    (hd : (dictKeys d).Nodup) (hne : ∀ l, dictFind d name = some l → l ≠ [])
    (hc : c ∉ (dictFind d name).getD []) :
    indexAfterUnsubscribe (indexAfterSubscribe d name c) name
      ((dictFind d name).getD [] ++ [c]) c = d := by
  have herase : ((dictFind d name).getD [] ++ [c]).erase c = (dictFind d name).getD [] := by
    rw [List.erase_append_right _ hc]
    simp
  unfold indexAfterUnsubscribe indexAfterSubscribe
  rw [herase]
  cases hf : dictFind d name with
  | none =>
    simp only [Option.getD_none, if_true]
    have h1 : dictUpdateVal (d ++ [(name, [c])]) name (fun _ => ([] : List Nat)) =
        d ++ [(name, [])] := by
      have := dictUpdateVal_of_not_mem (fun _ => ([] : List Nat)) hf
      simp only [dictUpdateVal, List.map_append] at this ⊢
      rw [this]
      simp
    rw [h1, List.filter_append, dict_filter_of_find_none hf]
    simp
  | some l =>
    simp only [Option.getD_some, if_neg (hne l hf)]
    exact dictUpdateVal_restore _ hd hf

/-- C23: in a reachable state where client `c` is not subscribed to the channel,
`pubsubSubscribeChannel` followed by `pubsubUnsubscribeChannel` of the same pair
succeeds and gives back exactly the state before: every client's membership set
and pattern list, every entry of the global channel index with the order of its
list (and no entry for the channel if there was none), and the global pattern
list.  The same holds for `pubsubSubscribePattern` followed by
`pubsubUnsubscribePattern` when `c` did not hold the pattern. -/
theorem subscribe_unsubscribe_roundtrip (stringmatchlen : robj → robj → Bool) (s : State)
    (h : Reachable stringmatchlen s) (c : Nat) (name : robj) (notify : Bool) :
    (has_channel s c name = false →
      ∃ r, pubsubUnsubscribeChannel (pubsubSubscribeChannel s c name).st c name notify =
          some r ∧ r.retval = 1 ∧ r.st = s) ∧
    (name ∉ (s.client c).pubsub_patterns →
      ∃ r, pubsubUnsubscribePattern (pubsubSubscribePattern s c name).st c name notify =
          some r ∧ r.retval = 1 ∧ r.st = s) := by
  have hs := Inv_of_reachable h
  constructor
  · intro hnot
    have hc : dictFind (s.client c).pubsub_channels name = none := by
      unfold has_channel at hnot
      cases hd : dictFind (s.client c).pubsub_channels name with
      | none => rfl
      | some u => simp [hd] at hnot
    have hnotmem : c ∉ (dictFind s.server.pubsub_channels name).getD [] :=
      not_mem_subscribers_of_not_has hs hc
    have hres := @pubsubUnsubscribeChannel_of_has (pubsubSubscribeChannel s c name).st c name
      ((dictFind s.server.pubsub_channels name).getD [] ++ [c]) notify
      (by
        rw [pubsubSubscribeChannel_of_not_has hc]
        simp only [setServer_client, setClient_client_same, dictFind_unit_append, or_true])
      (by
        rw [pubsubSubscribeChannel_of_not_has hc]
        simp [dictFind_indexAfterSubscribe])
      (by simp)
    refine ⟨_, hres, rfl, ?_⟩
    rw [pubsubSubscribeChannel_of_not_has hc]
    apply State_ext
    · intro x
      by_cases hx : x = c
      · subst hx
        simp only [stateAfterUnsubscribe, setServer_client, setClient_client_same,
          List.filter_append, dict_filter_of_find_none hc]
        simp
      · simp [stateAfterUnsubscribe, State.setClient, hx]
    · simp only [stateAfterUnsubscribe, setServer_server, setClient_server]
      rw [indexAfterUnsubscribe_indexAfterSubscribe hs.server_keys
        (fun l hl => hs.nonempty name l hl) hnotmem]
  · intro hnot
    have hg : ({ client := c, pattern := name } : pubsubPattern) ∉ s.server.pubsub_patterns :=
      fun hm => hnot ((hs.pat_iff c name).2 hm)
    have hres := @pubsubUnsubscribePattern_of_has (pubsubSubscribePattern s c name).st c name
      notify
      (by
        rw [pubsubSubscribePattern_of_not_has hnot]
        simp [stateAfterPsubscribe])
      (by
        rw [pubsubSubscribePattern_of_not_has hnot]
        simp [stateAfterPsubscribe])
    refine ⟨_, hres, rfl, ?_⟩
    rw [pubsubSubscribePattern_of_not_has hnot]
    apply State_ext
    · intro x
      by_cases hx : x = c
      · subst hx
        simp only [stateAfterPunsubscribe, stateAfterPsubscribe, setServer_client,
          setClient_client_same, List.erase_append_right _ hnot]
        simp
      · simp [stateAfterPunsubscribe, stateAfterPsubscribe, State.setClient, hx]
    · simp only [stateAfterPunsubscribe, stateAfterPsubscribe, setServer_server,
        setClient_server, List.erase_append_right _ hg]
      simp

theorem subscribe_unsubscribe_roundtrip_witness :
    Reachable exampleMatcher exampleStateBusy ∧
    has_channel exampleStateBusy 2 "sports" = false ∧
    ∃ r, pubsubUnsubscribeChannel (pubsubSubscribeChannel exampleStateBusy 2 "sports").st 2
        "sports" true = some r ∧ r.retval = 1 ∧ r.st = exampleStateBusy :=
  ⟨exampleStateBusy_reachable exampleMatcher, by decide,
    (subscribe_unsubscribe_roundtrip exampleMatcher exampleStateBusy
      (exampleStateBusy_reachable exampleMatcher) 2 "sports" true).1 (by decide)⟩

/-- C24: `pubsubPublishMessage` is read-only on the subscription state: for
every state, channel and message the state after the call is the state before
(every client's membership set and pattern list, the global channel index and
the global pattern list); so any sequence of publications leaves the state as
it was. -/
theorem pubsubPublishMessage_read_only (stringmatchlen : robj → robj → Bool) (s : State)
    (channel message : robj) (publications : List (robj × robj)) :
    (pubsubPublishMessage stringmatchlen s channel message).st = s ∧
    (∀ x, ((pubsubPublishMessage stringmatchlen s channel message).st.client x).pubsub_channels =
        (s.client x).pubsub_channels ∧
      ((pubsubPublishMessage stringmatchlen s channel message).st.client x).pubsub_patterns =
        (s.client x).pubsub_patterns) ∧
    (pubsubPublishMessage stringmatchlen s channel message).st.server.pubsub_channels =
      s.server.pubsub_channels ∧
    (pubsubPublishMessage stringmatchlen s channel message).st.server.pubsub_patterns =
      s.server.pubsub_patterns ∧
    run stringmatchlen s (publications.map (fun p => Call.publish p.1 p.2)) = some s := by
  refine ⟨rfl, fun x => ⟨rfl, rfl⟩, rfl, rfl, ?_⟩
  induction publications with
  | nil => rfl
  | cons p rest ih =>
    simp only [List.map_cons, run, Call.exec, pubsubPublishMessage_st]
    exact ih

/-- C25: in every reachable state no client appears more than once in the
subscriber list of a channel, and the clients in the list are exactly those
whose membership set contains the channel; so the length of the list, which
`PUBSUB NUMSUB` reports and `pubsubPublishMessage` counts, is the number of
distinct clients subscribed to the channel. -/
theorem subscriber_list_distinct (stringmatchlen : robj → robj → Bool) (s : State)
    (h : Reachable stringmatchlen s) (c : Nat) (cmd sub name message : robj)
    (hsub : strcasecmp sub "numsub" = 0) :
    (subscribers s name).Nodup ∧
    (∀ x, (subscribers s name).count x ≤ 1) ∧
    (∀ x, x ∈ subscribers s name ↔ has_channel s x name = true) ∧
    subscriber_count s name = Set.ncard {x | has_channel s x name = true} ∧
    pubsubCommand stringmatchlen s c [cmd, sub, name] =
      some
        { retval := 0
          out := [(c, Reply.mbulkhdr 2), (c, Reply.bulk name),
            (c, Reply.bulkLongLong (Set.ncard {x | has_channel s x name = true}))]
          st := s } ∧
    (pubsubPublishMessage stringmatchlen s name message).retval =
      Set.ncard {x | has_channel s x name = true} +
        (s.server.pubsub_patterns.filter
          (fun pat => stringmatchlen pat.pattern name)).length := by
  have hs := Inv_of_reachable h
  have hnd := subscribers_nodup hs name
  have hiff : ∀ x, x ∈ subscribers s name ↔ has_channel s x name = true := by
    intro x
    rw [has_channel_iff, mem_subscribers_iff]
    exact (hs.chan_iff x name).symm
  have hcard : subscriber_count s name = Set.ncard {x | has_channel s x name = true} := by
    have hset : {x | has_channel s x name = true} = ↑(subscribers s name).toFinset := by
      ext x
      simp [hiff x]
    rw [hset, Set.ncard_coe_Finset, List.toFinset_card_of_nodup hnd, subscriber_count_eq]
  refine ⟨hnd, List.nodup_iff_count_le_one.1 hnd, hiff, hcard, ?_, ?_⟩
  · rw [pubsubCommand_eq]
    simp [strcasecmp_numsub_not_channels hsub, hsub, hcard]
  · rw [pubsubPublishMessage_eq, ← hcard, subscriber_count_eq]
    rfl

theorem subscriber_list_distinct_witness :
    Reachable exampleMatcher exampleStateBusy ∧ strcasecmp "numsub" "numsub" = 0 ∧
    (subscribers exampleStateBusy "news").Nodup ∧
    (∀ x, (subscribers exampleStateBusy "news").count x ≤ 1) ∧
    (∀ x, x ∈ subscribers exampleStateBusy "news" ↔ has_channel exampleStateBusy x "news" = true) ∧
    subscriber_count exampleStateBusy "news" =
      Set.ncard {x | has_channel exampleStateBusy x "news" = true} ∧
    pubsubCommand exampleMatcher exampleStateBusy 7 ["pubsub", "numsub", "news"] =
      some
        { retval := 0
          out := [(7, Reply.mbulkhdr 2), (7, Reply.bulk "news"),
            (7, Reply.bulkLongLong (Set.ncard {x | has_channel exampleStateBusy x "news" = true}))]
          st := exampleStateBusy } ∧
    (pubsubPublishMessage exampleMatcher exampleStateBusy "news" "hello").retval =
      Set.ncard {x | has_channel exampleStateBusy x "news" = true} +
        (exampleStateBusy.server.pubsub_patterns.filter
          (fun pat => exampleMatcher pat.pattern "news")).length :=
  ⟨exampleStateBusy_reachable exampleMatcher, by decide,
    subscriber_list_distinct exampleMatcher exampleStateBusy
      (exampleStateBusy_reachable exampleMatcher) 7 "pubsub" "numsub" "news" "hello"
      (by decide)⟩

end Pubsub

namespace Rio

/-! ## Writing to a buffer-backed stream -/

theorem rioWriteChunks_spec : ∀ (fuel : Nat) (r : rio) (buf : sds), buf.length ≤ fuel →
    ∃ cks, rioWriteChunks fuel r buf =
      ({ r with
          cksum := cks
          ptr := r.ptr ++ buf
          pos := r.pos + buf.length
          processed_bytes := r.processed_bytes + buf.length }, 1) := by
  intro fuel
  induction fuel with
  | zero =>
    intro r buf hlen
    have hnil : buf = [] := List.length_eq_zero.1 (Nat.le_zero.1 hlen)
    subst hnil
    exact ⟨r.cksum, by cases r; simp [rioWriteChunks]⟩
  | succ fuel ih =>
    intro r buf hlen
    cases buf with
    | nil => exact ⟨r.cksum, by cases r; simp [rioWriteChunks]⟩
    | cons b rest =>
      obtain ⟨n, hn, hn1, hn2⟩ : ∃ n, n =
          (if r.max_processing_chunk ≠ 0 ∧ r.max_processing_chunk < (b :: rest).length then
            r.max_processing_chunk
          else (b :: rest).length) ∧ 1 ≤ n ∧ n ≤ (b :: rest).length := by
        refine ⟨_, rfl, ?_, ?_⟩
        · split
          · next h => omega
          · simp
        · split
          · next h => omega
          · exact Nat.le_refl _
      have htake : ((b :: rest).take n).length = n := by
        rw [List.length_take]
        omega
      have hdrop : ((b :: rest).drop n).length ≤ fuel := by
        rw [List.length_drop]
        simp only [List.length_cons] at hlen hn2 ⊢
        omega
      simp only [rioWriteChunks, ← hn, rioBufferWrite, sdscatlen, htake]
      simp only [Nat.succ_ne_zero, one_ne_zero, if_false]
      obtain ⟨cks, hrec⟩ := ih
        { (match r.update_cksum with
            | some f => { r with cksum := f r.cksum ((b :: rest).take n) }
            | none => r) with
          ptr := (match r.update_cksum with
            | some f => { r with cksum := f r.cksum ((b :: rest).take n) }
            | none => r).ptr ++ (b :: rest).take n
          pos := (match r.update_cksum with
            | some f => { r with cksum := f r.cksum ((b :: rest).take n) }
            | none => r).pos + n
          processed_bytes := (match r.update_cksum with
            | some f => { r with cksum := f r.cksum ((b :: rest).take n) }
            | none => r).processed_bytes + n }
        ((b :: rest).drop n) hdrop
      refine ⟨cks, ?_⟩
      rw [hrec]
      have hlen2 : n + ((b :: rest).drop n).length = (b :: rest).length := by
        rw [List.length_drop]
        omega
      cases hu : r.update_cksum with
      | none =>
        simp only [Prod.mk.injEq, and_true, rio.mk.injEq, true_and]
        and_intros
        all_goals first
          | exact hu
          | (rw [Nat.add_assoc, hlen2])
          | (rw [List.append_assoc, List.take_append_drop])
      | some f =>
        simp only [Prod.mk.injEq, and_true, rio.mk.injEq, true_and]
        and_intros
        all_goals first
          | exact hu
          | (rw [Nat.add_assoc, hlen2])
          | (rw [List.append_assoc, List.take_append_drop])

theorem rioWrite_spec (r : rio) (buf : sds) :
    (rioWrite r buf).2 = 1 ∧ (rioWrite r buf).1.ptr = r.ptr ++ buf ∧
      (rioWrite r buf).1.pos = r.pos + buf.length := by
  obtain ⟨cks, h⟩ := rioWriteChunks_spec buf.length r buf (Nat.le_refl _)
  unfold rioWrite
  rw [h]
  exact ⟨rfl, rfl, rfl⟩

theorem rioWriteBulkCount_spec (r : rio) (pfx : Char) (count : Int) :
    (rioWriteBulkCount r pfx count).2 = (ll2string count).length + 3 ∧
      (rioWriteBulkCount r pfx count).1.ptr = r.ptr ++ (pfx :: ll2string count ++ CRLF) := by
  obtain ⟨hw, hp, _⟩ := rioWrite_spec r (pfx :: ll2string count ++ CRLF)
  simp only [rioWriteBulkCount, hw, one_ne_zero, if_false, hp, and_true]
  simp [CRLF]

theorem rioWriteBulkString_spec (r : rio) (buf : sds) :
    (rioWriteBulkString r buf).2 =
        (ll2string (int_of_size_t buf.length)).length + 3 + buf.length + 2 ∧
      (rioWriteBulkString r buf).1.ptr =
        r.ptr ++ ('$' :: ll2string (int_of_size_t buf.length) ++ CRLF ++ buf ++ CRLF) := by
  obtain ⟨h1, hp1⟩ := rioWriteBulkCount_spec r '$' (int_of_size_t buf.length)
  have h1ne : ¬ (rioWriteBulkCount r '$' (int_of_size_t buf.length)).2 = 0 := by
    rw [h1]
    omega
  by_cases hlen : buf.length > 0
  · obtain ⟨h2, hp2, _⟩ := rioWrite_spec (rioWriteBulkCount r '$' (int_of_size_t buf.length)).1 buf
    obtain ⟨h3, hp3, _⟩ := rioWrite_spec
      (rioWrite (rioWriteBulkCount r '$' (int_of_size_t buf.length)).1 buf).1 CRLF
    simp only [rioWriteBulkString, h1ne, if_false, hlen, if_true, h2, one_ne_zero, and_false,
      h3, h1, true_and]
    simp [hp3, hp2, hp1]
  · have hnil : buf = [] := List.length_eq_zero.1 (by omega)
    subst hnil
    obtain ⟨h3, hp3, _⟩ := rioWrite_spec
      (rioWriteBulkCount r '$' (int_of_size_t ([] : sds).length)).1 CRLF
    simp only [rioWriteBulkString, h1ne, if_false, hlen, one_ne_zero, and_false,
      h3, h1, true_and]
    simp at hp3 hp1 ⊢
    simp [hp3, hp1]

theorem int_of_size_t_small {n : Nat} (h : n < 2147483648) : int_of_size_t n = Int.ofNat n := by
  unfold int_of_size_t
  have h1 : n % 4294967296 = n := Nat.mod_eq_of_lt (by omega)
  rw [h1, if_pos h]
  rfl

/-- C21: for a buffer-backed stream and a byte string of fewer than `2^31`
bytes, `rioWriteBulkString` appends exactly `$`, the decimal length, `\r\n`,
the bytes and `\r\n`, and returns the number of bytes appended, which is not
zero.  For a byte string of `2^31` bytes the length passes through the `int`
parameter of `rioWriteBulkCount` and the count written is `-2147483648`. -/
theorem rioWriteBulkString_count_as_int :
    (∀ (r : rio) (buf : sds), buf.length < 2147483648 →
      (rioWriteBulkString r buf).1.ptr =
        r.ptr ++ ('$' :: (Nat.repr buf.length).toList ++ CRLF ++ buf ++ CRLF) ∧
      (rioWriteBulkString r buf).2 =
        ('$' :: (Nat.repr buf.length).toList ++ CRLF ++ buf ++ CRLF).length ∧
      (rioWriteBulkString r buf).2 ≠ 0) ∧
    (∀ (r : rio) (buf : sds), buf.length = 2147483648 →
      (rioWriteBulkString r buf).1.ptr =
        r.ptr ++ ('$' :: '-' :: (Nat.repr 2147483648).toList ++ CRLF ++ buf ++ CRLF)) := by
  constructor
  · intro r buf hlen
    obtain ⟨hres, hptr⟩ := rioWriteBulkString_spec r buf
    have hll : ll2string (int_of_size_t buf.length) = (Nat.repr buf.length).toList := by
      rw [int_of_size_t_small hlen]
      rfl
    rw [hll] at hres hptr
    refine ⟨hptr, ?_, ?_⟩
    · rw [hres]
      simp [CRLF]
      omega
    · rw [hres]
      omega
  · intro r buf hlen
    obtain ⟨_, hptr⟩ := rioWriteBulkString_spec r buf
    have hll : ll2string (int_of_size_t 2147483648) = '-' :: (Nat.repr 2147483648).toList := by
      decide
    rw [hlen, hll] at hptr
    exact hptr

theorem rioWriteBulkString_count_as_int_witness :
    (List.replicate 2147483648 'a').length = 2147483648 ∧
    (rioWriteBulkString (rioInitWithBuffer []) (List.replicate 2147483648 'a')).1.ptr =
      (rioInitWithBuffer []).ptr ++
        ('$' :: '-' :: (Nat.repr 2147483648).toList ++ CRLF ++ List.replicate 2147483648 'a' ++
          CRLF) :=
  ⟨List.length_replicate _ _,
    rioWriteBulkString_count_as_int.2 (rioInitWithBuffer []) (List.replicate 2147483648 'a')
      (List.length_replicate _ _)⟩

/-! ## Reading from a buffer-backed stream -/

theorem size_t_sub_of_le {a b : Nat} (h : b ≤ a) :
    size_t_sub a b = (a - b) % 18446744073709551616 := by
  unfold size_t_sub
  omega

theorem pos_le_of_run (calls : List BufferCall) :
    ∀ r : rio, r.pos ≤ sdslen r.ptr → (rioRun r calls).pos ≤ sdslen (rioRun r calls).ptr := by
  induction calls with
  | nil => intro r h; exact h
  | cons call rest ih =>
    intro r h
    cases call with
    | write buf =>
      apply ih
      simp only [rioBufferWrite, sdscatlen, sdslen, List.length_append] at h ⊢
      omega
    | read len =>
      apply ih
      unfold rioBufferRead
      split
      · exact h
      · next hlt =>
        rw [size_t_sub_of_le h] at hlt
        simp only [sdslen] at h hlt ⊢
        have := Nat.mod_le (r.ptr.length - r.pos) 18446744073709551616
        omega

/-- C26: a buffer-backed stream obtained from `rioInitWithBuffer` by any
sequence of `rioBufferWrite` and `rioBufferRead` calls has
`pos ≤ sdslen(ptr)`, so the unsigned subtraction `sdslen(ptr) - pos` of
`rioBufferRead` does not wrap; `rioBufferRead` returns 1 exactly when at least
`len` bytes remain after `pos`, then yielding the `len` bytes starting at `pos`
and advancing `pos` by `len`, and otherwise returns 0 and leaves the stream
unchanged. -/
theorem rioBufferRead_spec (r : rio) (h : BufferReachable r) (len : Nat) :
    r.pos ≤ sdslen r.ptr ∧
    (sdslen r.ptr < 18446744073709551616 →
      size_t_sub (sdslen r.ptr) r.pos = sdslen r.ptr - r.pos ∧
      ((rioBufferRead r len).2.1 = 1 ↔ len ≤ sdslen r.ptr - r.pos) ∧
      (len ≤ sdslen r.ptr - r.pos →
        rioBufferRead r len =
          ({ r with pos := r.pos + len }, 1, (r.ptr.drop r.pos).take len) ∧
        ((r.ptr.drop r.pos).take len).length = len) ∧
      (¬ len ≤ sdslen r.ptr - r.pos → rioBufferRead r len = (r, 0, []))) := by
  obtain ⟨s, calls, rfl⟩ := h
  have hpos := pos_le_of_run calls (rioInitWithBuffer s) (Nat.zero_le _)
  refine ⟨hpos, fun hsize => ?_⟩
  have hsub : size_t_sub (sdslen (rioRun (rioInitWithBuffer s) calls).ptr)
      (rioRun (rioInitWithBuffer s) calls).pos =
      sdslen (rioRun (rioInitWithBuffer s) calls).ptr -
        (rioRun (rioInitWithBuffer s) calls).pos := by
    rw [size_t_sub_of_le hpos]
    exact Nat.mod_eq_of_lt (by omega)
  refine ⟨hsub, ?_, ?_, ?_⟩
  · unfold rioBufferRead
    rw [hsub]
    split
    · next hlt => simp; omega
    · next hge => simp; omega
  · intro hle
    unfold rioBufferRead
    rw [hsub, if_neg (by omega)]
    refine ⟨rfl, ?_⟩
    simp only [List.length_take, List.length_drop, sdslen] at hle ⊢
    omega
  · intro hnle
    unfold rioBufferRead
    rw [hsub, if_pos (by omega)]

theorem rioBufferRead_spec_witness :
    BufferReachable (rioRun (rioInitWithBuffer ['a', 'b', 'c'])
      [BufferCall.write ['d', 'e'], BufferCall.read 1]) ∧
    (rioRun (rioInitWithBuffer ['a', 'b', 'c'])
      [BufferCall.write ['d', 'e'], BufferCall.read 1]).pos ≤
      sdslen (rioRun (rioInitWithBuffer ['a', 'b', 'c'])
        [BufferCall.write ['d', 'e'], BufferCall.read 1]).ptr :=
  ⟨⟨_, _, rfl⟩,
    (rioBufferRead_spec _ ⟨['a', 'b', 'c'], [BufferCall.write ['d', 'e'], BufferCall.read 1], rfl⟩
      2).1⟩

end Rio
